import Mathlib

/-!
# company_api: authentication, company and error-mapping pipeline

A shallow embedding of the Go sources (package paths are given with each
definition) together with theorems about them.

Conventions of the embedding.

* A Go `error` is a `GoError`: either a pointer to one of the package-level
  `*APIError` values of `internal/api_errors/errors.go` (the only `*APIError`
  values the program ever creates), or any other error, of which only the text of
  `Error()` is kept.
* The package-level error values are shared and mutable (their `Message` is
  overwritten at the call sites), so they live in an explicit store `Sentinels`
  that every operation touching them takes and returns.  Execution is sequential.
* Logging has no effect on results and is left out.
* Instants are `Int` nanoseconds since the Unix epoch; every `time.Now()` reading
  is an explicit argument, and so is every value of `uuid.New()`.
* A method of the storage adapter interface is passed as a function: a reading
  method closes over the store, a writing method takes the store and returns it.
* A Go string is a `String`; where the code counts or indexes bytes, the UTF-8
  bytes of the string are used.
-/

namespace apierrors

/-- The struct `APIError` of `internal/api_errors/errors.go`. -/
structure APIError where
  Code : String
  Message : String
  HTTPStatus : Nat
  deriving DecidableEq, Repr

/-- `NewAPIError`. -/
def NewAPIError (code : String) (message : String) (httpStatus : Nat) : APIError :=
  { Code := code, Message := message, HTTPStatus := httpStatus }

/-- `(*APIError).Error`. -/
def APIError.Error (e : APIError) : String := e.Message

/-- The names of the package-level variables of `errors.go`; a value of this type is
the pointer held by the variable of that name. -/
inductive Sentinel where
  | ErrInternalServer
  | ErrInvalidBody
  | ErrUserNotFound
  | ErrUserAlreadyExists
  | ErrInvalidCredentials
  | ErrCompanyNotFound
  | ErrInvalidUUID
  | ErrTokenNotFound
  | ErrInvalidToken
  | ErrUnauthorized
  | ErrTokenExpired
  | ErrCompanyIDRequired
  | ErrCreatingEvent
  deriving DecidableEq, Repr

/-- The memory behind the package-level pointers: the struct each one points to. -/
abbrev Sentinels := Sentinel → APIError

/-- The `var ( ... )` block of `errors.go`: the structs as allocated at program start
(`http.StatusBadRequest` = 400, `http.StatusUnauthorized` = 401,
`http.StatusInternalServerError` = 500). -/
def initial : Sentinels
  | .ErrInternalServer => NewAPIError "INTERNAL_SERVER_ERROR" "internal server error" 500
  | .ErrInvalidBody => NewAPIError "INVALID_BODY" "invalid request body" 400
  | .ErrUserNotFound => NewAPIError "USER_NOT_FOUND" "user not found" 400
  | .ErrUserAlreadyExists => NewAPIError "USER_ALREADY_EXISTS" "user already exists" 400
  | .ErrInvalidCredentials => NewAPIError "INVALID_CREDENTIALS" "invalid credentials" 401
  | .ErrCompanyNotFound => NewAPIError "COMPANY_NOT_FOUND" "company not found" 400
  | .ErrInvalidUUID => NewAPIError "INVALID_UUID" "invalid UUID" 400
  | .ErrTokenNotFound => NewAPIError "TOKEN_NOT_FOUND" "token not found" 400
  | .ErrInvalidToken => NewAPIError "INVALID_TOKEN" "invalid token" 401
  | .ErrUnauthorized => NewAPIError "UNAUTHORIZED" "unauthorized" 401
  | .ErrTokenExpired => NewAPIError "TOKEN_EXPIRED" "token expired" 401
  | .ErrCompanyIDRequired => NewAPIError "COMPANY_ID_REQUIRED" "company ID is required" 400
  | .ErrCreatingEvent => NewAPIError "CREATING_EVENT" "error creating event" 500

/-- The assignment `e.Message = m` through the pointer `e`. -/
def setMessage (g : Sentinels) (e : Sentinel) (m : String) : Sentinels :=
  Function.update g e { g e with Message := m }

/-- A store in which every struct still has the `Code` and `HTTPStatus` it was
allocated with (only `Message` may have been overwritten). -/
def Stable (g : Sentinels) : Prop :=
  ∀ e, (g e).Code = (initial e).Code ∧ (g e).HTTPStatus = (initial e).HTTPStatus

end apierrors

namespace apierrors

/-- The sentinels to whose `Message` no statement of the program assigns: the
assignments are those of `token.go`, `events/handler.go`, `binding/error.go`,
`middleware/auth.go`, `handler.go` and `db/postgres/db.go`. -/
def neverAssigned (e : Sentinel) : Bool :=
  match e with
  | .ErrInvalidCredentials | .ErrInvalidUUID | .ErrCompanyIDRequired | .ErrUnauthorized =>
    true
  | _ => false

/-- Two states of the error values that agree on every `Code` and `HTTPStatus`, and
on the `Message` of every sentinel that is never assigned to: they differ at most in
messages written by earlier operations. -/
def Agree (g g' : Sentinels) : Prop :=
  ∀ e, (g e).Code = (g' e).Code ∧ (g e).HTTPStatus = (g' e).HTTPStatus ∧
    (neverAssigned e = true → (g e).Message = (g' e).Message)

end apierrors

open apierrors

deriving instance DecidableEq for Except

/-- A value of Go's interface type `error`. -/
inductive GoError where
  /-- A `*apierrors.APIError`. -/
  | api (e : Sentinel)
  /-- Any other dynamic type (`fmt.Errorf`, library errors); `msg` is its `Error()`. -/
  | plain (msg : String)
  deriving DecidableEq, Repr

/-- The method `Error()` on the interface value, read against the current store. -/
def GoError.Error (g : Sentinels) : GoError → String
  | .api e => (g e).Error
  | .plain msg => msg

namespace render

/-- A scalar JSON value. -/
inductive Scalar where
  | str (s : String)
  | num (n : Int)
  | bool (b : Bool)
  deriving DecidableEq, Repr

/-- A flat JSON object: the members in the order they are written. -/
abbrev Object := List (String × Scalar)

/-- What was written to the `http.ResponseWriter`. -/
structure Response where
  Status : Nat
  Body : Object
  deriving DecidableEq, Repr

/-- The part of `*http.Request` the program reads. `StatusCtx` is the value stored in
the request context under `render.StatusCtxKey`, if any; `Body` is what `r.Body`
yields when read to the end; `URLParam` is `chi.URLParam(r, key)`, the empty string
for a key the route does not bind. -/
structure Request where
  Header : String → List String
  StatusCtx : Option Nat
  Body : String := ""
  URLParam : String → String := fun _ => ""

/-- `http.Header.Get`: the first value of the key, or the empty string. -/
def Request.HeaderGet (r : Request) (key : String) : String :=
  (r.Header key).headD ""

/-- `render.Status` of `github.com/go-chi/render`: stores the status in the request
context. -/
def Status (r : Request) (status : Nat) : Request :=
  { r with StatusCtx := some status }

/-- `render.JSON` of `github.com/go-chi/render`: writes the header with the status
found in the request context when there is one, then the body; writing a body
without a header sends `http.StatusOK`. -/
def JSON (r : Request) (body : Object) : Response :=
  { Status := r.StatusCtx.getD 200, Body := body }

end render

open render

namespace apierrors

/-- The encoding of an `APIError` by `encoding/json` according to the struct tags
(`json:"code"`, `json:"message"`, `json:"-"`). -/
def APIError.MarshalJSON (e : APIError) : Object :=
  [("code", .str e.Code), ("message", .str e.Message)]

end apierrors

namespace handler

/-- The method `(h *handler) wrapError` of `internal/transport/http/handler.go`. -/
def wrapError (r : Request) (err : GoError) (g : Sentinels) : Response × Sentinels :=
  match err with
  | .plain msg =>
    let unknownError := Sentinel.ErrInternalServer
    let g := setMessage g unknownError msg
    (render.JSON r (g unknownError).MarshalJSON, g)
  | .api apiError =>
    let r := render.Status r (g apiError).HTTPStatus
    (render.JSON r (g apiError).MarshalJSON, g)

end handler

/-- An instant (`time.Time`), in nanoseconds since the Unix epoch. -/
abbrev Time := Int

namespace time

/-- `time.Second`, a `time.Duration` in nanoseconds. -/
def Second : Int := 1000000000

/-- `time.Minute`. -/
def Minute : Int := 60 * Second

/-- The zero value `time.Time{}`: January 1, year 1, 00:00:00 UTC. -/
def zero : Int := -62135596800 * Second

/-- `Time.Add`. -/
def Add (t : Time) (d : Int) : Time := t + d

/-- `Time.After`. -/
def After (t u : Time) : Bool := decide (u < t)

/-- `Time.Before`. -/
def Before (t u : Time) : Bool := decide (t < u)

/-- `Time.Truncate` for a positive `d` that divides the distance between the zero
time and the Unix epoch (as one second does): rounds down to a multiple of `d`. -/
def Truncate (t : Time) (d : Int) : Time := t - t % d

end time

namespace strings

/-- `strings.HasPrefix`. -/
def HasPrefix (s p : String) : Bool := p.data.isPrefixOf s.data

/-- `strings.TrimPrefix`. -/
def TrimPrefix (s p : String) : String :=
  if HasPrefix s p then String.mk (s.data.drop p.data.length) else s

end strings

namespace jwt

/-- `jwt.NumericDate`: a wrapper of `time.Time`. -/
abbrev NumericDate := Time

/-- `jwt.TimePrecision`, `time.Second` unless changed (the program does not). -/
def TimePrecision : Int := time.Second

/-- `jwt.NewNumericDate`: the time truncated to `TimePrecision`. -/
def NewNumericDate (t : Time) : NumericDate := time.Truncate t TimePrecision

/-- `jwt.RegisteredClaims` of `github.com/golang-jwt/jwt/v5`; a nil `*NumericDate` is
`none`. The JSON keys are iss, sub, aud, exp, nbf, iat and jti. -/
structure RegisteredClaims where
  Issuer : String := ""
  Subject : String := ""
  Audience : List String := []
  ExpiresAt : Option NumericDate := none
  NotBefore : Option NumericDate := none
  IssuedAt : Option NumericDate := none
  ID : String := ""
  deriving DecidableEq, Repr

/-- The signing methods the library registers: the three HMAC methods, `none`, and
the asymmetric ones (RS*, PS*, ES*, EdDSA), which are told apart by name only. -/
inductive SigningMethod where
  | HS256
  | HS384
  | HS512
  | none
  | asymmetric (alg : String)
  deriving DecidableEq, Repr

/-- The reasons `Validator.Validate` can give with its default settings. -/
inductive ClaimFailure where
  /-- `ErrTokenExpired`. -/
  | Expired
  /-- `ErrTokenNotValidYet`. -/
  | NotValidYet
  deriving DecidableEq, Repr

/-- The errors of the library, by kind. -/
inductive Failure where
  /-- `ErrTokenMalformed`: wrong number of segments, bad base64 or bad JSON. -/
  | Malformed (detail : String)
  /-- `ErrTokenUnverifiable`: the header names no registered signing method. -/
  | Unverifiable (detail : String)
  /-- `ErrTokenSignatureInvalid`: `Method.Verify` returned an error. -/
  | SignatureInvalid (m : SigningMethod)
  /-- `ErrTokenInvalidClaims`, wrapping what the validator found. -/
  | InvalidClaims (errs : List ClaimFailure)
  /-- A JSON encoding error while building the signing string. -/
  | Encoding (detail : String)
  /-- `ErrInvalidKeyType`: the key does not have the type the method signs with. -/
  | InvalidKeyType (m : SigningMethod)
  deriving DecidableEq, Repr

end jwt

namespace token

/-- The struct `Claims` of `internal/token/token.go`: `Id` has the JSON key "id",
`Email` the key "email", and `jwt.RegisteredClaims` is embedded. -/
structure Claims extends jwt.RegisteredClaims where
  Id : String := ""
  Email : String := ""
  deriving DecidableEq, Repr

end token

namespace jwt

/-- The result of `Parser.ParseUnverified` followed by the decoding of the third
segment: the method named by the header, the claims decoded into `&Claims{}`, the
first two segments joined by a dot, and the decoded signature. -/
structure Unverified where
  Method : SigningMethod
  Claims : token.Claims
  SigningString : String
  Signature : String
  deriving DecidableEq, Repr

/-- The parts of the library (and of `crypto/hmac`, `encoding/json`,
`encoding/base64` below it) that are taken as given. Keys are byte strings. -/
structure Primitives where
  /-- `Token.SigningString`: the encoded header and claims joined by a dot. -/
  SigningString : SigningMethod → token.Claims → Except Failure String
  /-- The MAC of `crypto/hmac` with the hash of the method, keyed by `key`. -/
  hmac : SigningMethod → (key : String) → (text : String) → String
  /-- `Token.EncodeSegment`: base64url without padding. -/
  EncodeSegment : String → String
  /-- `Parser.ParseUnverified` and `Parser.DecodeSegment` on the signature. -/
  ParseUnverified : String → Except Failure Unverified
  /-- The text of `Error()` for each failure. -/
  ErrorText : Failure → String

/-- `SigningMethod.Sign` with a key of type `[]byte`: the HMAC methods return the
MAC; every other method rejects the key type. -/
def Sign (P : Primitives) (m : SigningMethod) (signingString key : String) :
    Except Failure String :=
  match m with
  | .HS256 | .HS384 | .HS512 => .ok (P.hmac m key signingString)
  | .none | .asymmetric _ => .error (.InvalidKeyType m)

/-- `SigningMethod.Verify` with a key of type `[]byte`: the HMAC methods compare the
signature with the MAC they compute; `none` requires the key
`UnsafeAllowNoneSignatureType` and the asymmetric methods a public key of their own
type, so both reject a `[]byte` key. -/
def Verify (P : Primitives) (m : SigningMethod) (signingString sig key : String) : Bool :=
  match m with
  | .HS256 | .HS384 | .HS512 => decide (sig = P.hmac m key signingString)
  | .none | .asymmetric _ => false

/-- `Token.SignedString`. -/
def SignedString (P : Primitives) (m : SigningMethod) (claims : token.Claims)
    (key : String) : Except Failure String :=
  match P.SigningString m claims with
  | .error err => .error err
  | .ok sstr =>
    match Sign P m sstr key with
    | .error err => .error err
    | .ok sig => .ok (sstr ++ "." ++ P.EncodeSegment sig)

/-- `Validator.verifyExpiresAt` with no leeway and `exp` not required. -/
def verifyExpiresAt (claims : token.Claims) (cmp : Time) : List ClaimFailure :=
  match claims.ExpiresAt with
  | .none => []
  | .some exp => if time.Before cmp exp then [] else [.Expired]

/-- `Validator.verifyNotBefore` with no leeway and `nbf` not required. -/
def verifyNotBefore (claims : token.Claims) (cmp : Time) : List ClaimFailure :=
  match claims.NotBefore with
  | .none => []
  | .some nbf => if !time.Before cmp nbf then [] else [.NotValidYet]

/-- `Validator.Validate` as built by `NewValidator()` with no options: `exp` and
`nbf` are checked against `now` when present; `iat`, `aud`, `iss` and `sub` are not
checked, and `token.Claims` has no `Validate` method of its own. -/
def Validate (claims : token.Claims) (now : Time) : List ClaimFailure :=
  verifyExpiresAt claims now ++ verifyNotBefore claims now

/-- `jwt.ParseWithClaims(tokenString, &Claims{}, keyFunc)` with the default parser
(no `WithValidMethods`, no `WithoutClaimsValidation`) and a key function that
returns `key` for every token: parse, verify the signature with the method the
token's own header names, then validate the claims at the time `now`. -/
def ParseWithClaims (P : Primitives) (tokenString key : String) (now : Time) :
    Except Failure token.Claims :=
  match P.ParseUnverified tokenString with
  | .error err => .error err
  | .ok t =>
    if Verify P t.Method t.SigningString t.Signature key then
      match Validate t.Claims now with
      | [] => .ok t.Claims
      | errs => .error (.InvalidClaims errs)
    else .error (.SignatureInvalid t.Method)

end jwt

namespace token

/-- `GenerateToken` of `internal/token/token.go`. `now1` and `now2` are the readings
of the two `time.Now()` calls, in evaluation order (`ExpiresAt` first), and
`JwtSecret` is `conf.GlobalConfig.JwtSecret`. -/
def GenerateToken (P : jwt.Primitives) (JwtSecret : String) (now1 now2 : Time)
    (id email : String) : Except GoError (String × Claims) :=
  let claims : Claims :=
    { Email := email
      ExpiresAt := some (jwt.NewNumericDate (time.Add now1 (time.Minute * 10)))
      NotBefore := some time.zero
      IssuedAt := some (jwt.NewNumericDate now2)
      ID := id }
  match jwt.SignedString P .HS256 claims JwtSecret with
  | .error err => .error (.plain ("failed to sign token: " ++ P.ErrorText err))
  | .ok signedTokenStr => .ok (signedTokenStr, claims)

/-- `ValidateAndParseToken`; `now` is the clock reading inside the library. -/
def ValidateAndParseToken (P : jwt.Primitives) (JwtSecret : String) (now : Time)
    (token : String) : Except jwt.Failure Claims :=
  jwt.ParseWithClaims P token JwtSecret now

/-- `DecodeTokenFromRequest`. -/
def DecodeTokenFromRequest (P : jwt.Primitives) (JwtSecret : String) (now : Time)
    (r : Request) (g : Sentinels) : Except GoError Claims × Sentinels :=
  let authHeader := r.HeaderGet "Authorization"
  if authHeader = "" then
    let e := Sentinel.ErrTokenNotFound
    let g := setMessage g e "missing Authorization header"
    (.error (.api e), g)
  else
    let tokenStr := strings.TrimPrefix authHeader "Bearer "
    if tokenStr = "" then
      let e := Sentinel.ErrTokenNotFound
      let g := setMessage g e "missing token in Authorization header"
      (.error (.api e), g)
    else
      match ValidateAndParseToken P JwtSecret now tokenStr with
      | .error err =>
        let e := Sentinel.ErrInvalidToken
        let g := setMessage g e ("invalid token: " ++ P.ErrorText err)
        (.error (.api e), g)
      | .ok claims => (.ok claims, g)

end token

namespace middleware

/-- How the handler returned by `UserMustBeAuthenticated` ends. -/
inductive Outcome where
  /-- A response was written and the handler returned without calling `next`. -/
  | rejected (resp : Response)
  /-- `next.ServeHTTP` was called with the claims in the request context. -/
  | next (claims : token.Claims)
  /-- A run-time panic (failed type assertion or nil dereference). -/
  | panic
  deriving DecidableEq, Repr

/-- The handler returned by `UserMustBeAuthenticated` of
`internal/transport/http/middleware/auth.go`. `nowParse` is the clock reading taken
while the token is parsed, `nowCheck` the later reading of the expiry check. -/
def UserMustBeAuthenticated (P : jwt.Primitives) (JwtSecret : String)
    (nowParse nowCheck : Time) (r : Request) (g : Sentinels) : Outcome × Sentinels :=
  match token.DecodeTokenFromRequest P JwtSecret nowParse r g with
  | (.error err, g) =>
    match err with
    | .api e =>
      let r := render.Status r (g e).HTTPStatus
      (.rejected (render.JSON r (g e).MarshalJSON), g)
    | .plain _ => (.panic, g)
  | (.ok claims, g) =>
    match claims.ExpiresAt with
    | .none => (.panic, g)
    | .some exp =>
      if time.After nowCheck exp then
        let e := Sentinel.ErrTokenExpired
        let g := setMessage g e "token is expired"
        let r := render.Status r (g e).HTTPStatus
        (.rejected (render.JSON r (g e).MarshalJSON), g)
      else (.next claims, g)

end middleware

namespace crypto

/-- The standard-library functions `Md5Hash` is built from. -/
structure Primitives where
  /-- `md5.New()`, `io.WriteString`, `Sum(nil)`: the 16-byte MD5 digest. -/
  md5Sum : String → List (Fin 256)
  /-- `base64.StdEncoding.EncodeToString`. -/
  base64StdEncode : List (Fin 256) → String

/-- `Md5Hash` of `internal/crypto/crypto.go`. -/
def Md5Hash (H : Primitives) (data : String) : String :=
  let sum := H.md5Sum data
  let b64Sum := H.base64StdEncode sum
  b64Sum

end crypto

namespace uuid

/-- `uuid.UUID` of `github.com/google/uuid`: an array of 16 bytes. -/
abbrev UUID := { l : List (Fin 256) // l.length = 16 }

/-- The lower-case hexadecimal digit of a value below 16. -/
def hexDigit (n : Nat) : Char :=
  "0123456789abcdef".data.getD n '0'

/-- Two hexadecimal digits per byte. -/
def encodeHex (bs : List (Fin 256)) : List Char :=
  bs.flatMap fun b => [hexDigit (b.val / 16), hexDigit (b.val % 16)]

/-- `UUID.String`: the form xxxxxxxx-xxxx-xxxx-xxxx-xxxxxxxxxxxx. -/
def UUID.String (u : UUID) : String :=
  String.mk (encodeHex (u.val.take 4) ++ '-' :: encodeHex ((u.val.drop 4).take 2)
    ++ '-' :: encodeHex ((u.val.drop 6).take 2) ++ '-' :: encodeHex ((u.val.drop 8).take 2)
    ++ '-' :: encodeHex (u.val.drop 10))

end uuid

namespace pgtype

/-- `pgtype.Timestamptz` of `github.com/jackc/pgx/v5/pgtype`; `InfinityModifier` is 0
for a finite time. -/
structure Timestamptz where
  Time : Time
  InfinityModifier : Int := 0
  Valid : Bool
  deriving DecidableEq

end pgtype

namespace models

/-- The struct `UserModel` of `internal/db/models/model.go`. -/
structure UserModel where
  ID : uuid.UUID
  Email : String
  EncPassword : String
  deriving DecidableEq

/-- The struct `CompanyModel` of `internal/db/models/model.go`. -/
structure CompanyModel where
  ID : uuid.UUID
  Name : String
  Description : String
  AmountEmployees : Int
  Registered : Bool
  Type_ : String
  deriving DecidableEq

/-- The struct `EventModel` of `internal/db/models/model.go`. -/
structure EventModel where
  Type_ : String
  Timestamp : pgtype.Timestamptz
  ID : uuid.UUID
  EntityID : uuid.UUID
  deriving DecidableEq

end models

namespace postgres

/-- The database behind `p.client`, as far as the statements of
`internal/db/postgres/db.go` read it: the rows of the table `users`, and the error
the driver returns for a statement when the round trip fails (connection lost,
context deadline exceeded), if it does; the rows of the table `company`; and
`companyCheck`, the error the constraints of the table `company` raise for a row
that is to be stored next to the given rows, if any (the schema is not among the
sources); the rows of the table `events` and, likewise, `eventCheck`. -/
structure Pool where
  users : List models.UserModel
  fault : Option String := none
  companies : List models.CompanyModel := []
  companyCheck : List models.CompanyModel → models.CompanyModel → Option String :=
    fun _ _ => none
  events : List models.EventModel := []
  eventCheck : List models.EventModel → models.EventModel → Option String :=
    fun _ _ => none

/-- `pgxscan.Select` with the statement
`SELECT * FROM users WHERE email = $1 LIMIT 1`. -/
def selectUserByEmail (p : Pool) (email : String) : Except String (List models.UserModel) :=
  match p.fault with
  | some err => .error err
  | none => .ok ((p.users.filter fun u => decide (u.Email = email)).take 1)

/-- The method `(p *postgresDB) GetUserByEmail`. -/
def GetUserByEmail (p : Pool) (email : String) (g : Sentinels) :
    Except GoError models.UserModel × Sentinels :=
  match selectUserByEmail p email with
  | .error err =>
    let apiError := Sentinel.ErrInternalServer
    let g := setMessage g apiError ("failed to retrieve user by email: " ++ err)
    (.error (.api apiError), g)
  | .ok users =>
    match users with
    | [] =>
      let apiError := Sentinel.ErrUserNotFound
      let g := setMessage g apiError ("user with email '" ++ email ++ "' not found")
      (.error (.api apiError), g)
    | user :: _ => (.ok user, g)

end postgres

namespace auth

/-- The method `(s *auth) Login` of `internal/service/auth/auth.go`. The argument
`GetUserByEmail` is the method of that name of the interface value `s.db`. -/
def Login (P : jwt.Primitives) (H : crypto.Primitives) (JwtSecret : String)
    (GetUserByEmail : String → Sentinels → Except GoError models.UserModel × Sentinels)
    (now1 now2 : Time) (email password : String) (g : Sentinels) :
    Except GoError String × Sentinels :=
  match GetUserByEmail email g with
  | (.error err, g) => (.error err, g)
  | (.ok user, g) =>
    if user.EncPassword ≠ crypto.Md5Hash H password then
      let err := Sentinel.ErrInvalidCredentials
      (.error (.api err), g)
    else
      match token.GenerateToken P JwtSecret now1 now2 user.ID.String email with
      | .error _ =>
        let msg := GoError.plain ("error generating token for user with email '" ++ email ++ "'")
        (.error msg, g)
      | .ok (token, _) => (.ok token, g)

end auth

namespace jwt

/-- `SigningMethod.Alg`: the name written in the header. -/
def SigningMethod.Alg : SigningMethod → String
  | .HS256 => "HS256"
  | .HS384 => "HS384"
  | .HS512 => "HS512"
  | .none => "none"
  | .asymmetric alg => alg

end jwt

/-! ## Sample values

Small stand-ins for the library primitives, and sample data, on which the
definitions above can be evaluated. -/

namespace sample

/-- The claims `GenerateToken` builds for id "u1" and email "a@b.c" when both clock
readings are 1000 s. -/
def claims : token.Claims :=
  { Email := "a@b.c"
    ExpiresAt := some (1600 * time.Second)
    NotBefore := some time.zero
    IssuedAt := some (1000 * time.Second)
    ID := "u1" }

/-- A stand-in for the token encoding: the signing string is the method name and the
email, the MAC lists the method, the key and the text, and the decoder knows the
tokens carrying `claims` signed with the key "secret" under HS256 and under HS512,
and signed with the key "other" under HS256. -/
def prims : jwt.Primitives where
  SigningString := fun m c => .ok (m.Alg ++ "." ++ c.Email)
  hmac := fun m key text => m.Alg ++ "/" ++ key ++ "/" ++ text
  EncodeSegment := fun s => s
  ParseUnverified := fun tok =>
    if tok = "HS256.a@b.c.HS256/secret/HS256.a@b.c" then
      .ok { Method := .HS256, Claims := claims, SigningString := "HS256.a@b.c",
            Signature := "HS256/secret/HS256.a@b.c" }
    else if tok = "HS512.a@b.c.HS512/secret/HS512.a@b.c" then
      .ok { Method := .HS512, Claims := claims, SigningString := "HS512.a@b.c",
            Signature := "HS512/secret/HS512.a@b.c" }
    else if tok = "HS256.a@b.c.HS256/other/HS256.a@b.c" then
      .ok { Method := .HS256, Claims := claims, SigningString := "HS256.a@b.c",
            Signature := "HS256/other/HS256.a@b.c" }
    else .error (.Malformed "token contains an invalid number of segments")
  ErrorText := fun f =>
    match f with
    | .Malformed d => "token is malformed: " ++ d
    | .Unverifiable d => "token is unverifiable: " ++ d
    | .SignatureInvalid _ => "token signature is invalid"
    | .InvalidClaims _ => "token has invalid claims"
    | .Encoding d => d
    | .InvalidKeyType _ => "key is of invalid type"

/-- The token string `GenerateToken` returns for `claims` under the key "secret". -/
def tokenHS256 : String := "HS256.a@b.c.HS256/secret/HS256.a@b.c"

/-- The same claims signed with the same key under HS512. -/
def tokenHS512 : String := "HS512.a@b.c.HS512/secret/HS512.a@b.c"

/-- A request whose only header is `Authorization` with the given value. -/
def request (authorization : String) : Request :=
  { Header := fun key => if key = "Authorization" then [authorization] else []
    StatusCtx := none }

/-- A request without headers. -/
def bare : Request := { Header := fun _ => [], StatusCtx := none }

/-- A stand-in for the digest: the length of the input as one hexadecimal digit. -/
def hash : crypto.Primitives where
  md5Sum := fun s => [Fin.ofNat s.length]
  base64StdEncode := fun bs => String.mk (bs.map fun b => uuid.hexDigit (b.val % 16))

/-- The nil UUID. -/
def nilUUID : uuid.UUID := ⟨List.replicate 16 0, rfl⟩

/-- A database with one user, registered with the password "password". -/
def pool : postgres.Pool :=
  { users := [{ ID := nilUUID, Email := "a@b.c", EncPassword := crypto.Md5Hash hash "password" }] }

end sample

namespace enum

/-- `type CompanyType string` of `internal/enum/company.go`. -/
abbrev CompanyType := String

/-- The constant `Corporation`. -/
def Corporation : CompanyType := "Corporations"

/-- The constant `NonProfit`. -/
def NonProfit : CompanyType := "NonProfit"

/-- The constant `Cooperative`. -/
def Cooperative : CompanyType := "Cooperative"

/-- The constant `SoleProprietorship`. -/
def SoleProprietorship : CompanyType := "Sole Proprietorship"

/-- `CompanyType.IsValid`. -/
def CompanyType.IsValid (c : CompanyType) : Bool :=
  if c = Corporation ∨ c = NonProfit ∨ c = Cooperative ∨ c = SoleProprietorship then true
  else false

/-- `CompanyType.String`. -/
def CompanyType.String (c : CompanyType) : String := c

/-- `AllCompanyTypesString`. -/
def AllCompanyTypesString : List String :=
  ["Corporations", "NonProfit", "Cooperative", "Sole Proprietorship"]

/-- `CompanyTypeFromString`. -/
def CompanyTypeFromString (s : String) : CompanyType :=
  if s = "Corporations" then Corporation
  else if s = "NonProfit" then NonProfit
  else if s = "Cooperative" then Cooperative
  else if s = "Sole Proprietorship" then SoleProprietorship
  else ""

end enum

namespace binding

/-- `validateCompanyType` of `internal/transport/http/binding/json.go`, applied to
the string `fl.Field().String()` of the validated field. -/
def validateCompanyType (companyType : String) : Bool :=
  enum.CompanyTypeFromString companyType != ""

end binding

/-- The result of a Go call that may end in a run-time panic instead of returning. -/
inductive Panics (α : Type) where
  | returns (a : α)
  | panic
  deriving DecidableEq, Repr

namespace strings

/-- `strings.Join`. -/
def Join : List String → String → String
  | [], _ => ""
  | [a], _ => a
  | a :: b :: rest, sep => a ++ sep ++ Join (b :: rest) sep

/-- The scan of `strings.Split` for a non-empty separator: `skip` counts the
characters of a separator occurrence still to be passed over, `cur` holds the
characters of the current piece in reverse. -/
def splitAux (sep : List Char) : List Char → List Char → Nat → List String
  | [], cur, _ => [String.mk cur.reverse]
  | _ :: cs, cur, skip + 1 => splitAux sep cs cur skip
  | c :: cs, cur, 0 =>
    if sep.isPrefixOf (c :: cs) then
      String.mk cur.reverse :: splitAux sep cs [] (sep.length - 1)
    else splitAux sep cs (c :: cur) 0

/-- `strings.Split` for a non-empty separator. -/
def Split (s sep : String) : List String := splitAux sep.data s.data [] 0

/-- `unicode.IsSpace`. -/
def isSpace (c : Char) : Bool :=
  c = '\t' || c = '\n' || c.toNat = 11 || c.toNat = 12 || c = '\r' || c = ' ' ||
  c.toNat = 0x85 || c.toNat = 0xA0 || c.toNat = 0x1680 ||
  (0x2000 ≤ c.toNat && c.toNat ≤ 0x200A) || c.toNat = 0x2028 || c.toNat = 0x2029 ||
  c.toNat = 0x202F || c.toNat = 0x205F || c.toNat = 0x3000

/-- `strings.TrimSpace`. -/
def TrimSpace (s : String) : String :=
  String.mk (((s.data.dropWhile isSpace).reverse.dropWhile isSpace).reverse)

end strings

namespace json

/-- What `json.NewDecoder(r.Body).Decode(&v)` does when `v` is an interface value
holding a non-nil pointer to a struct of type `β`: it fails; or the input is the
literal `null` and the interface `v` itself is set to nil; or the struct is
filled from the first JSON value of the body. -/
inductive Decoded (β : Type) where
  | error (msg : String)
  | null
  | value (v : β)
  deriving DecidableEq, Repr

end json

namespace validator

/-- A `validator.FieldError` of `github.com/go-playground/validator/v10`: the
namespace, the field name (the JSON name, by the registered tag-name function), the
failed tag, its parameter, and the text of the reflected type of the field (`Type_`). -/
structure FieldError where
  Namespace : String
  Field : String
  Tag : String
  Param : String := ""
  Type_ : String
  deriving DecidableEq, Repr

/-- `(*fieldError).Error`. -/
def FieldError.Error (fe : FieldError) : String :=
  "Key: '" ++ fe.Namespace ++ "' Error:Field validation for '" ++ fe.Field ++
    "' failed on the '" ++ fe.Tag ++ "' tag"

/-- `validator.ValidationErrors`: a slice of field errors. -/
abbrev ValidationErrors := List FieldError

/-- `ValidationErrors.Error`: the texts of all field errors, one per line. -/
def ValidationErrors.Error (ve : ValidationErrors) : String :=
  strings.TrimSpace (String.join (ve.map fun fe => fe.Error ++ "\n"))

/-- The non-nil errors `Validate.Struct` returns. -/
inductive StructError where
  /-- `*InvalidValidationError`: the argument is not a struct or a pointer to one. -/
  | invalid
  /-- `ValidationErrors`, one entry per failed field, in field order. -/
  | fields (ve : ValidationErrors)
  deriving DecidableEq, Repr

end validator

namespace schemas

/-- The struct `CreateCompanyRequest` of
`internal/transport/http/schemas/requests.go`; a nil pointer is `none`. -/
structure CreateCompanyRequest where
  Name : String := ""
  Description : String := ""
  AmountEmployees : Option Int := none
  Registered : Option Bool := none
  Type_ : String := ""
  deriving DecidableEq, Repr

/-- `type UpdateCompanyRequest CreateCompanyRequest`. -/
abbrev UpdateCompanyRequest := CreateCompanyRequest

end schemas

namespace validator

/-- `validate.Struct(v)` for `v` a pointer to a `CreateCompanyRequest` (or to an
`UpdateCompanyRequest`; `structName` is the name of the type), with the validator
`DecodeJSONBody` builds: the fields are visited in order, each field runs its tags
in order and reports the first that fails. `required` fails on the empty string and
on a nil pointer, and passes on a pointer to a zero value; `customOneOf` is
`validateCompanyType`; `Description` has no tag. -/
def StructCompanyRequest (structName : String) (v : schemas.CreateCompanyRequest) :
    ValidationErrors :=
  (if v.Name = "" then
      [{ Namespace := structName ++ ".name", Field := "name", Tag := "required",
         Type_ := "string" }]
    else []) ++
  (if v.AmountEmployees.isNone then
      [{ Namespace := structName ++ ".amount_employees", Field := "amount_employees",
         Tag := "required", Type_ := "*int" }]
    else []) ++
  (if v.Registered.isNone then
      [{ Namespace := structName ++ ".registered", Field := "registered",
         Tag := "required", Type_ := "*bool" }]
    else []) ++
  (if v.Type_ = "" then
      [{ Namespace := structName ++ ".type", Field := "type", Tag := "required",
         Type_ := "string" }]
    else if !binding.validateCompanyType v.Type_ then
      [{ Namespace := structName ++ ".type", Field := "type", Tag := "customOneOf",
         Type_ := "string" }]
    else [])

end validator

namespace binding

/-- `handleBindingErrors` of `internal/transport/http/binding/error.go`. The type
assertion panics on an error that is not a `ValidationErrors`, and the index
expression panics on an empty slice. -/
def handleBindingErrors (err : validator.StructError) (g : Sentinels) :
    Panics GoError × Sentinels :=
  match err with
  | .invalid => (.panic, g)
  | .fields [] => (.panic, g)
  | .fields (validationErr :: rest) =>
    let fieldName := validationErr.Field
    let apiError := Sentinel.ErrInvalidBody
    let g :=
      if validationErr.Tag = "required" then
        setMessage g apiError (fieldName ++ " is required and must be a " ++ validationErr.Type_)
      else if validationErr.Tag = "oneof" then
        setMessage g apiError (fieldName ++ " must be one of: " ++
          strings.Join (strings.Split validationErr.Param " ") ", ")
      else if validationErr.Tag = "customOneOf" then
        setMessage g apiError (fieldName ++ " must be one of: " ++
          strings.Join enum.AllCompanyTypesString ", ")
      else if validationErr.Tag = "email" then
        setMessage g apiError (fieldName ++ " must be a valid email address")
      else
        setMessage g apiError
          (validator.ValidationErrors.Error (validationErr :: rest))
    (.returns (.api apiError), g)

/-- `DecodeJSONBody` of `internal/transport/http/binding/json.go` for a target of
type `β`. `decode` is the JSON decoding of the body into the target, `Struct` is
`validate.Struct` on a pointer to the target (`[]` for a nil error). After the
literal `null` the interface `v` is nil, for which `validate.Struct` returns an
`*InvalidValidationError`. -/
def DecodeJSONBody {β : Type} (decode : String → json.Decoded β)
    (Struct : β → validator.ValidationErrors) (r : Request) (g : Sentinels) :
    Panics (Except GoError β) × Sentinels :=
  match decode r.Body with
  | .error msg => (.returns (.error (.plain msg)), g)
  | .null =>
    match handleBindingErrors .invalid g with
    | (.panic, g) => (.panic, g)
    | (.returns err, g) => (.returns (.error err), g)
  | .value v =>
    match Struct v with
    | [] => (.returns (.ok v), g)
    | fe :: rest =>
      match handleBindingErrors (.fields (fe :: rest)) g with
      | (.panic, g) => (.panic, g)
      | (.returns err, g) => (.returns (.error err), g)

end binding

namespace uuid

/-- The UTF-8 encoding of a character: the bytes a Go string holds for it. -/
def utf8 (c : Char) : List Nat :=
  let v := c.toNat
  if v < 0x80 then [v]
  else if v < 0x800 then [0xC0 + v / 0x40, 0x80 + v % 0x40]
  else if v < 0x10000 then [0xE0 + v / 0x1000, 0x80 + v / 0x40 % 0x40, 0x80 + v % 0x40]
  else [0xF0 + v / 0x40000, 0x80 + v / 0x1000 % 0x40, 0x80 + v / 0x40 % 0x40,
        0x80 + v % 0x40]

/-- The bytes of a Go string, which `len(s)` counts and `s[i]` indexes. -/
def bytes (s : String) : List Nat := s.data.flatMap utf8

/-- The table `xvalues` of `github.com/google/uuid`: the value of a hexadecimal
digit, 255 for every other byte. -/
def xvalue (x : Nat) : Nat :=
  if 48 ≤ x ∧ x ≤ 57 then x - 48
  else if 65 ≤ x ∧ x ≤ 70 then x - 55
  else if 97 ≤ x ∧ x ≤ 102 then x - 87
  else 255

/-- `xtob`: the byte written by two hexadecimal digits, if both are digits. -/
def xtob (x1 x2 : Nat) : Option (Fin 256) :=
  if xvalue x1 ≠ 255 ∧ xvalue x2 ≠ 255 then some (Fin.ofNat (xvalue x1 * 16 + xvalue x2))
  else none

/-- The offsets of the sixteen digit pairs in the hyphenated form. -/
def offsets : List Nat := [0, 2, 4, 6, 9, 11, 14, 16, 19, 21, 24, 26, 28, 30, 32, 34]

/-- A list of sixteen bytes as a `UUID`. -/
def ofList (l : List (Fin 256)) : Option UUID :=
  if h : l.length = 16 then some ⟨l, h⟩ else none

/-- The loop over the digit pairs: the bytes read at the given offsets, or nothing as
soon as one pair is not made of two hexadecimal digits. -/
def collect (f : Nat → Option (Fin 256)) : List Nat → Option (List (Fin 256))
  | [] => some []
  | x :: xs =>
    match f x, collect f xs with
    | some b, some bs => some (b :: bs)
    | _, _ => none

/-- The tail of `Parse`: `s` holds at least 36 bytes and must have the form
xxxxxxxx-xxxx-xxxx-xxxx-xxxxxxxxxxxx in its first 36. -/
def parseHyphenated (s : List Nat) : Option UUID :=
  if s.getD 8 0 ≠ 45 ∨ s.getD 13 0 ≠ 45 ∨ s.getD 18 0 ≠ 45 ∨ s.getD 23 0 ≠ 45 then none
  else (collect (fun x => xtob (s.getD x 0) (s.getD (x + 1) 0)) offsets).bind ofList

/-- The form without hyphens: thirty-two hexadecimal digits. -/
def parsePlain (s : List Nat) : Option UUID :=
  (collect (fun i => xtob (s.getD (i * 2) 0) (s.getD (i * 2 + 1) 0)) (List.range 16)).bind
    ofList

/-- ASCII lower case of a byte. -/
def lower (b : Nat) : Nat := if 65 ≤ b ∧ b ≤ 90 then b + 32 else b

/-- `strings.EqualFold(s[:9], "urn:uuid:")` on the first nine bytes: no letter of the
text has a case-folding partner outside ASCII, so the comparison is byte-wise up to
ASCII case. -/
def hasUrnPrefix (s : List Nat) : Bool :=
  (s.take 9).map lower == bytes "urn:uuid:"

/-- `uuid.Parse` of `github.com/google/uuid`; `none` stands for a non-nil error.
The form with 38 bytes drops the first byte without looking at it and never looks
at the last. -/
def Parse (id : String) : Option UUID :=
  let s := bytes id
  if s.length = 36 then parseHyphenated s
  else if s.length = 36 + 9 then
    if !hasUrnPrefix s then none else parseHyphenated (s.drop 9)
  else if s.length = 36 + 2 then parseHyphenated (s.drop 1)
  else if s.length = 32 then parsePlain s
  else none

/-- `uuid.Validate` of `github.com/google/uuid`; `true` stands for a nil error. The
form with 38 bytes must start with an opening and end with a closing brace. -/
def Validate (id : String) : Bool :=
  let s := bytes id
  if s.length = 36 then (parseHyphenated s).isSome
  else if s.length = 36 + 9 then
    if !hasUrnPrefix s then false else (parseHyphenated (s.drop 9)).isSome
  else if s.length = 36 + 2 then
    if s.getD 0 0 ≠ 123 ∨ s.getD 37 0 ≠ 125 then false
    else (parseHyphenated ((s.drop 1).take 36)).isSome
  else if s.length = 32 then (parsePlain s).isSome
  else false

end uuid

namespace inputs

/-- The struct `CreateCompanyInput` of `internal/service/inputs/models.go`; a nil
pointer is `none`. -/
structure CreateCompanyInput where
  Name : String := ""
  Description : String := ""
  AmountEmployees : Option Int := none
  Registered : Option Bool := none
  Type_ : String := ""
  deriving DecidableEq, Repr

/-- `type UpdateCompany CreateCompanyInput`. -/
abbrev UpdateCompany := CreateCompanyInput

end inputs

namespace postgres

/-- The result of `p.client.Exec` for the statement
`INSERT INTO users (id, email, enc_password) VALUES (@id, @email, @enc_password)`:
a failed round trip, an error with the code `pgerrcode.UniqueViolation`, or the
database with the new row. -/
inductive ExecUser where
  | failed (err : String)
  | uniqueViolation (err : String)
  | done (p : Pool)

/-- Modelled from the spec: the schema of the table `users` is not among the sources;
the spec states that the email of a user is unique and that the store enforces
it. This is the statement of `CreateUser` run against the database. -/
def insertUser (user : models.UserModel) (p : Pool) : ExecUser :=
  match p.fault with
  | some err => .failed err
  | none =>
    if p.users.any fun u => decide (u.Email = user.Email) then
      .uniqueViolation "duplicate key value violates unique constraint"
    else .done { p with users := p.users ++ [user] }

/-- The method `(p *postgresDB) CreateUser`. -/
def CreateUser (user : models.UserModel) (p : Pool) (g : Sentinels) :
    Option GoError × Pool × Sentinels :=
  match insertUser user p with
  | .uniqueViolation _ =>
    let apiError := Sentinel.ErrUserAlreadyExists
    let g := setMessage g apiError ("user with email '" ++ user.Email ++ "' already exists")
    (some (.api apiError), p, g)
  | .failed err =>
    let apiError := Sentinel.ErrInternalServer
    let g := setMessage g apiError ("failed to create user: " ++ err)
    (some (.api apiError), p, g)
  | .done p => (none, p, g)

/-- `p.client.Exec` for the statement `INSERT INTO company (...) VALUES (...)`. -/
def insertCompany (company : models.CompanyModel) (p : Pool) : Except String Pool :=
  match p.fault with
  | some err => .error err
  | none =>
    match p.companyCheck p.companies company with
    | some err => .error err
    | none => .ok { p with companies := p.companies ++ [company] }

/-- The method `(p *postgresDB) CreateCompany`. -/
def CreateCompany (company : models.CompanyModel) (p : Pool) (g : Sentinels) :
    Option GoError × Pool × Sentinels :=
  match insertCompany company p with
  | .error err =>
    let apiError := Sentinel.ErrInternalServer
    let g := setMessage g apiError ("failed to create company: " ++ err)
    (some (.api apiError), p, g)
  | .ok p => (none, p, g)

/-- `pgxscan.Select` with the statement `SELECT * FROM company WHERE id = $1 LIMIT 1`.
The argument is sent as text; `uuid_in` is the reading of a text as a value of the
column type by the server, which fails the statement on a text it does not accept. -/
def selectCompanyByID (uuid_in : String → Option uuid.UUID) (p : Pool) (id : String) :
    Except String (List models.CompanyModel) :=
  match p.fault with
  | some err => .error err
  | none =>
    match uuid_in id with
    | none => .error "invalid input syntax for type uuid"
    | some u => .ok ((p.companies.filter fun c => decide (c.ID = u)).take 1)

/-- The method `(p *postgresDB) GetCompanyByID`. -/
def GetCompanyByID (uuid_in : String → Option uuid.UUID) (p : Pool) (id : String)
    (g : Sentinels) : Except GoError models.CompanyModel × Sentinels :=
  match selectCompanyByID uuid_in p id with
  | .error err =>
    let apiError := Sentinel.ErrInternalServer
    let g := setMessage g apiError ("failed to retrieve company by id: " ++ err)
    (.error (.api apiError), g)
  | .ok companies =>
    match companies with
    | [] =>
      let apiError := Sentinel.ErrCompanyNotFound
      let g := setMessage g apiError ("company with id '" ++ id ++ "' not found")
      (.error (.api apiError), g)
    | company :: _ => (.ok company, g)

/-- `p.client.Exec` for the statement `UPDATE company SET name = @name, description =
@description, amount_employees = @amount_employees, registered = @registered, type =
@type WHERE id = @id`: every row with that id keeps its id and takes the five
other columns of `updateCompany`; a statement that matches no row succeeds. -/
def updateCompanyRows (uuid_in : String → Option uuid.UUID) (id : String)
    (updateCompany : models.CompanyModel) (p : Pool) : Except String Pool :=
  match p.fault with
  | some err => .error err
  | none =>
    match uuid_in id with
    | none => .error "invalid input syntax for type uuid"
    | some u =>
      if p.companies.any fun c => decide (c.ID = u) then
        match p.companyCheck (p.companies.filter fun c => decide (c.ID ≠ u))
            { updateCompany with ID := u } with
        | some err => .error err
        | none =>
          .ok { p with companies := p.companies.map fun c =>
                  if c.ID = u then { updateCompany with ID := u } else c }
      else .ok p

/-- The method `(p *postgresDB) UpdateCompany`. -/
def UpdateCompany (uuid_in : String → Option uuid.UUID) (id : String)
    (updateCompany : models.CompanyModel) (p : Pool) (g : Sentinels) :
    Option GoError × Pool × Sentinels :=
  match updateCompanyRows uuid_in id updateCompany p with
  | .error err =>
    let apiError := Sentinel.ErrInternalServer
    let g := setMessage g apiError ("failed to update company by id: " ++ err)
    (some (.api apiError), p, g)
  | .ok p => (none, p, g)

/-- `p.client.Exec` for the statement `DELETE FROM company WHERE id = $1`. -/
def deleteCompanyRows (uuid_in : String → Option uuid.UUID) (id : String) (p : Pool) :
    Except String Pool :=
  match p.fault with
  | some err => .error err
  | none =>
    match uuid_in id with
    | none => .error "invalid input syntax for type uuid"
    | some u => .ok { p with companies := p.companies.filter fun c => decide (c.ID ≠ u) }

/-- The method `(p *postgresDB) DeleteCompany`. -/
def DeleteCompany (uuid_in : String → Option uuid.UUID) (id : String) (p : Pool)
    (g : Sentinels) : Option GoError × Pool × Sentinels :=
  match deleteCompanyRows uuid_in id p with
  | .error err =>
    let apiError := Sentinel.ErrInternalServer
    let g := setMessage g apiError ("failed to delete company by id: " ++ err)
    (some (.api apiError), p, g)
  | .ok p => (none, p, g)

end postgres

namespace auth

/-- The method `(s *auth) Register` of `internal/service/auth/auth.go`. `CreateUser`
is the method of that name of the interface value `s.db`, acting on a store of type
`σ`; `id` is the value of `uuid.New()`. -/
def Register {σ : Type} (H : crypto.Primitives)
    (CreateUser : models.UserModel → σ → Sentinels → Option GoError × σ × Sentinels)
    (id : uuid.UUID) (email password : String) (st : σ) (g : Sentinels) :
    Option GoError × σ × Sentinels :=
  let user : models.UserModel :=
    { ID := id, Email := email, EncPassword := crypto.Md5Hash H password }
  match CreateUser user st g with
  | (some err, st, g) => (some err, st, g)
  | (none, st, g) => (none, st, g)

end auth

namespace company

/-- The method `(s *company) CreateCompany` of
`internal/service/company/company.go`. `dbCreateCompany` is the method
`CreateCompany` of the interface value `s.db`; `id` is the value of `uuid.New()`.
Dereferencing a nil `AmountEmployees` or `Registered` panics. -/
def CreateCompany {σ : Type}
    (dbCreateCompany : models.CompanyModel → σ → Sentinels → Option GoError × σ × Sentinels)
    (id : uuid.UUID) (company : inputs.CreateCompanyInput) (st : σ) (g : Sentinels) :
    Panics (Except GoError models.CompanyModel) × σ × Sentinels :=
  match company.AmountEmployees, company.Registered with
  | some amountEmployees, some registered =>
    let companyModel : models.CompanyModel :=
      { ID := id, Name := company.Name, Description := company.Description,
        AmountEmployees := amountEmployees, Registered := registered,
        Type_ := company.Type_ }
    match dbCreateCompany companyModel st g with
    | (some err, st, g) => (.returns (.error err), st, g)
    | (none, st, g) => (.returns (.ok companyModel), st, g)
  | _, _ => (.panic, st, g)

/-- The method `(s *company) GetCompanyByID`. `dbGetCompanyByID` is the method
`GetCompanyByID` of `s.db`. -/
def GetCompanyByID
    (dbGetCompanyByID : String → Sentinels → Except GoError models.CompanyModel × Sentinels)
    (id : String) (g : Sentinels) : Except GoError models.CompanyModel × Sentinels :=
  match uuid.Parse id with
  | none => (.error (.api .ErrInvalidUUID), g)
  | some _ =>
    match dbGetCompanyByID id g with
    | (.error err, g) => (.error err, g)
    | (.ok company, g) => (.ok company, g)

/-- The method `(s *company) UpdateCompany`. `dbUpdateCompany` is the method
`UpdateCompany` of `s.db`. The id is parsed before the pointers are dereferenced. -/
def UpdateCompany {σ : Type}
    (dbUpdateCompany : String → models.CompanyModel → σ → Sentinels →
      Option GoError × σ × Sentinels)
    (id : String) (company : inputs.UpdateCompany) (st : σ) (g : Sentinels) :
    Panics (Option GoError) × σ × Sentinels :=
  match uuid.Parse id with
  | none => (.returns (some (.api .ErrInvalidUUID)), st, g)
  | some uuid =>
    match company.AmountEmployees, company.Registered with
    | some amountEmployees, some registered =>
      let companyModel : models.CompanyModel :=
        { ID := uuid, Name := company.Name, Description := company.Description,
          AmountEmployees := amountEmployees, Registered := registered,
          Type_ := company.Type_ }
      match dbUpdateCompany id companyModel st g with
      | (some err, st, g) => (.returns (some err), st, g)
      | (none, st, g) => (.returns none, st, g)
    | _, _ => (.panic, st, g)

/-- The method `(s *company) DeleteCompany`. `dbDeleteCompany` is the method
`DeleteCompany` of `s.db`. -/
def DeleteCompany {σ : Type}
    (dbDeleteCompany : String → σ → Sentinels → Option GoError × σ × Sentinels)
    (id : String) (st : σ) (g : Sentinels) : Option GoError × σ × Sentinels :=
  match uuid.Parse id with
  | none => (some (.api .ErrInvalidUUID), st, g)
  | some _ =>
    match dbDeleteCompany id st g with
    | (some err, st, g) => (some err, st, g)
    | (none, st, g) => (none, st, g)

end company

namespace sample

/-- The text of the nil UUID. -/
def nilText : String := "00000000-0000-0000-0000-000000000000"

/-- The UUID 6ba7b810-9dad-11d1-80b4-00c04fd430c8. -/
def otherUUID : uuid.UUID :=
  ⟨[0x6b, 0xa7, 0xb8, 0x10, 0x9d, 0xad, 0x11, 0xd1, 0x80, 0xb4, 0x00, 0xc0, 0x4f, 0xd4,
    0x30, 0xc8], rfl⟩

/-- The text of `otherUUID`. -/
def otherText : String := "6ba7b810-9dad-11d1-80b4-00c04fd430c8"

/-- A stored company with the nil UUID. -/
def acme : models.CompanyModel :=
  { ID := nilUUID, Name := "Acme", Description := "", AmountEmployees := 10,
    Registered := true, Type_ := "Corporations" }

/-- A stored company with the id `otherUUID`. -/
def coop : models.CompanyModel :=
  { ID := otherUUID, Name := "Coop", Description := "shop", AmountEmployees := 3,
    Registered := false, Type_ := "Cooperative" }

/-- A database holding the two companies. -/
def store : postgres.Pool := { users := [], companies := [acme, coop] }

/-- An update input that changes every field. -/
def update : inputs.UpdateCompany :=
  { Name := "Beta", Description := "new", AmountEmployees := some 0,
    Registered := some false, Type_ := "NonProfit" }

/-- The record `update` describes for the nil UUID. -/
def beta : models.CompanyModel :=
  { ID := nilUUID, Name := "Beta", Description := "new", AmountEmployees := 0,
    Registered := false, Type_ := "NonProfit" }

end sample

namespace enum

/-- `type EventType string` of `internal/enum/event.go`. -/
abbrev EventType := String

/-- The constant `EventCreateCompany`. -/
def EventCreateCompany : EventType := "create_company"

/-- The constant `EventUpdateCompany`. -/
def EventUpdateCompany : EventType := "update_company"

/-- The constant `EventDeleteCompany`. -/
def EventDeleteCompany : EventType := "delete_company"

/-- `EventType.String`. -/
def EventType.String (e : EventType) : String := e

/-- `EventType.IsValid`. -/
def EventType.IsValid (e : EventType) : Bool :=
  if e = EventCreateCompany ∨ e = EventUpdateCompany ∨ e = EventDeleteCompany then true
  else false

end enum

namespace events

/-- The struct `Event` of `internal/events/interface.go`. -/
structure Event where
  Type_ : String
  Timestamp : Time
  ID : uuid.UUID
  EntityID : uuid.UUID
  deriving DecidableEq

end events

namespace models

/-- The encoding of a `CompanyModel` by `encoding/json` according to the struct tags;
a `uuid.UUID` is written as its text. -/
def CompanyModel.MarshalJSON (c : CompanyModel) : Object :=
  [("id", .str c.ID.String), ("name", .str c.Name), ("description", .str c.Description),
   ("amount_employees", .num c.AmountEmployees), ("registered", .bool c.Registered),
   ("type", .str c.Type_)]

end models

namespace schemas

/-- The struct `OkResponse` of `internal/transport/http/schemas/responses.go`, as
encoded by `encoding/json`. -/
def OkResponse (message : String) : Object := [("message", .str message)]

end schemas

namespace handler

/-- How a handler of `internal/transport/http/handler.go` ends: the response it wrote
(`none` when it panicked before writing one), the events for which it started
`go h.createEvent(...)`, and the store and error values it leaves. -/
structure Outcome (σ : Type) where
  Response : Option Response
  Events : List events.Event
  Store : σ
  Errors : Sentinels

/-- The steps every handler takes when `DecodeJSONBody` returns an error: overwrite
the message of `ErrInvalidBody` with the text of the error and call `wrapError`. -/
def invalidBody {σ : Type} (r : Request) (err : GoError) (st : σ) (g : Sentinels) :
    Outcome σ :=
  let e := Sentinel.ErrInvalidBody
  let g := setMessage g e ("failed to decode request body: " ++ err.Error g)
  let (resp, g) := wrapError r (.api e) g
  { Response := some resp, Events := [], Store := st, Errors := g }

/-- The method `(h *handler) createCompany`. `decode` is the JSON decoding of the
body, `dbCreateCompany` the method of the storage adapter behind `h.cs`, `id` and
`eventID` the values of the two `uuid.New()` calls and `now` the clock reading for
the event. -/
def createCompany {σ : Type} (decode : String → json.Decoded schemas.CreateCompanyRequest)
    (dbCreateCompany : models.CompanyModel → σ → Sentinels → Option GoError × σ × Sentinels)
    (id eventID : uuid.UUID) (now : Time) (r : Request) (st : σ) (g : Sentinels) :
    Outcome σ :=
  match binding.DecodeJSONBody decode
      (validator.StructCompanyRequest "CreateCompanyRequest") r g with
  | (.panic, g) => { Response := none, Events := [], Store := st, Errors := g }
  | (.returns (.error err), g) => invalidBody r err st g
  | (.returns (.ok body), g) =>
    let input : inputs.CreateCompanyInput :=
      { Name := body.Name, Description := body.Description,
        AmountEmployees := body.AmountEmployees, Registered := body.Registered,
        Type_ := body.Type_ }
    match company.CreateCompany dbCreateCompany id input st g with
    | (.panic, st, g) => { Response := none, Events := [], Store := st, Errors := g }
    | (.returns (.error err), st, g) =>
      let (resp, g) := wrapError r err g
      { Response := some resp, Events := [], Store := st, Errors := g }
    | (.returns (.ok companyModel), st, g) =>
      let evt : events.Event :=
        { Type_ := enum.EventType.String enum.EventCreateCompany, Timestamp := now,
          ID := eventID, EntityID := companyModel.ID }
      { Response := some (render.JSON r companyModel.MarshalJSON), Events := [evt],
        Store := st, Errors := g }

/-- The method `(h *handler) updateCompany`. `uuid.MustParse` panics on an id that
`uuid.Parse` rejects. -/
def updateCompany {σ : Type} (decode : String → json.Decoded schemas.UpdateCompanyRequest)
    (dbUpdateCompany : String → models.CompanyModel → σ → Sentinels →
      Option GoError × σ × Sentinels)
    (eventID : uuid.UUID) (now : Time) (r : Request) (st : σ) (g : Sentinels) :
    Outcome σ :=
  let companyID := r.URLParam "id"
  if companyID = "" then
    let (resp, g) := wrapError r (.api .ErrCompanyIDRequired) g
    { Response := some resp, Events := [], Store := st, Errors := g }
  else if !uuid.Validate companyID then
    let (resp, g) := wrapError r (.api .ErrInvalidUUID) g
    { Response := some resp, Events := [], Store := st, Errors := g }
  else
    match binding.DecodeJSONBody decode
        (validator.StructCompanyRequest "UpdateCompanyRequest") r g with
    | (.panic, g) => { Response := none, Events := [], Store := st, Errors := g }
    | (.returns (.error err), g) => invalidBody r err st g
    | (.returns (.ok body), g) =>
      let input : inputs.UpdateCompany :=
        { Name := body.Name, Description := body.Description,
          AmountEmployees := body.AmountEmployees, Registered := body.Registered,
          Type_ := body.Type_ }
      match company.UpdateCompany dbUpdateCompany companyID input st g with
      | (.panic, st, g) => { Response := none, Events := [], Store := st, Errors := g }
      | (.returns (some err), st, g) =>
        let (resp, g) := wrapError r err g
        { Response := some resp, Events := [], Store := st, Errors := g }
      | (.returns none, st, g) =>
        match uuid.Parse companyID with
        | none => { Response := none, Events := [], Store := st, Errors := g }
        | some entityID =>
          let evt : events.Event :=
            { Type_ := enum.EventType.String enum.EventUpdateCompany, Timestamp := now,
              ID := eventID, EntityID := entityID }
          { Response := some (render.JSON r (schemas.OkResponse "company updated")),
            Events := [evt], Store := st, Errors := g }

end handler

namespace sample

/-- A company body whose type is not in the enum. -/
def llc : schemas.CreateCompanyRequest :=
  { Name := "Acme", AmountEmployees := some 10, Registered := some true, Type_ := "LLC" }

/-- A decoder that reads every body as `llc`. -/
def decodeLLC : String → json.Decoded schemas.CreateCompanyRequest :=
  fun _ => .value llc

/-- A request to `PUT /company/{id}` with the nil UUID as path id. -/
def put : Request :=
  { Header := fun _ => [], StatusCtx := none, Body := "{}",
    URLParam := fun key => if key = "id" then nilText else "" }

end sample

namespace postgres

/-- `p.client.Exec` for the statement
`INSERT INTO events (id, type, timestamp, entity_id) VALUES (...)`. -/
def insertEvent (event : models.EventModel) (p : Pool) : Except String Pool :=
  match p.fault with
  | some err => .error err
  | none =>
    match p.eventCheck p.events event with
    | some err => .error err
    | none => .ok { p with events := p.events ++ [event] }

/-- The method `(p *postgresDB) CreateEvent`. -/
def CreateEvent (event : models.EventModel) (p : Pool) (g : Sentinels) :
    Option GoError × Pool × Sentinels :=
  match insertEvent event p with
  | .error err =>
    let apiError := Sentinel.ErrInternalServer
    let g := setMessage g apiError ("failed to create event: " ++ err)
    (some (.api apiError), p, g)
  | .ok p => (none, p, g)

end postgres

namespace events

/-- The method `(e *eventHandler) Dispatch` of `internal/events/handler.go`.
`dbCreateEvent` is the method `CreateEvent` of the interface value `e.db`. The
delivery to an event bus is a comment in the source. -/
def Dispatch {σ : Type}
    (dbCreateEvent : models.EventModel → σ → Sentinels → Option GoError × σ × Sentinels)
    (event : Event) (st : σ) (g : Sentinels) : Option GoError × σ × Sentinels :=
  let eventModel : models.EventModel :=
    { Type_ := event.Type_, Timestamp := { Time := event.Timestamp, Valid := true },
      ID := event.ID, EntityID := event.EntityID }
  match dbCreateEvent eventModel st g with
  | (some err, st, g) =>
    let e := Sentinel.ErrCreatingEvent
    let g := setMessage g e ("failed to store event in database: " ++ err.Error g)
    (some (.api e), st, g)
  | (none, st, g) => (none, st, g)

end events

namespace schemas

/-- The struct `RegisterRequest` of `internal/transport/http/schemas/requests.go`. -/
structure RegisterRequest where
  Email : String := ""
  Password : String := ""
  deriving DecidableEq, Repr

/-- `type LoginRequest RegisterRequest`. -/
abbrev LoginRequest := RegisterRequest

/-- The struct `LoginResponse`, as encoded by `encoding/json`. -/
def LoginResponse (accessToken : String) : Object := [("access_token", .str accessToken)]

end schemas

namespace validator

/-- `validate.Struct(v)` for `v` a pointer to a `RegisterRequest` (or to a
`LoginRequest`; `structName` is the name of the type): `Email` carries the tags
`required,email`, `Password` the tag `required`. `isEmail` is the library's test
for the tag `email`. -/
def StructRegisterRequest (isEmail : String → Bool) (structName : String)
    (v : schemas.RegisterRequest) : ValidationErrors :=
  (if v.Email = "" then
      [{ Namespace := structName ++ ".email", Field := "email", Tag := "required",
         Type_ := "string" }]
    else if !isEmail v.Email then
      [{ Namespace := structName ++ ".email", Field := "email", Tag := "email",
         Type_ := "string" }]
    else []) ++
  (if v.Password = "" then
      [{ Namespace := structName ++ ".password", Field := "password", Tag := "required",
         Type_ := "string" }]
    else [])

end validator

namespace handler

/-- The method `(h *handler) createEvent`, the body of the goroutine started for an
event: the error of `Dispatch` is logged and dropped. `Dispatch` is the method of
the interface value `h.evtDispatcher`. -/
def createEvent {σ : Type}
    (Dispatch : events.Event → σ → Sentinels → Option GoError × σ × Sentinels)
    (evt : events.Event) (st : σ) (g : Sentinels) : σ × Sentinels :=
  match Dispatch evt st g with
  | (some _, st, g) => (st, g)
  | (none, st, g) => (st, g)

/-- A request served to the end: the handler has returned `out`, and the goroutines
it started run `createEvent`, one after the other. The response is the one the
handler wrote. -/
def settle {σ : Type}
    (Dispatch : events.Event → σ → Sentinels → Option GoError × σ × Sentinels)
    (out : Outcome σ) : Outcome σ :=
  let fin := out.Events.foldl (fun s evt => createEvent Dispatch evt s.1 s.2)
    (out.Store, out.Errors)
  { out with Store := fin.1, Errors := fin.2 }

/-- The method `(h *handler) register`. `CreateUser` is the method of the storage
adapter behind `h.as`, `id` the value of `uuid.New()`. -/
def register {σ : Type} (decode : String → json.Decoded schemas.RegisterRequest)
    (isEmail : String → Bool) (H : crypto.Primitives)
    (CreateUser : models.UserModel → σ → Sentinels → Option GoError × σ × Sentinels)
    (id : uuid.UUID) (r : Request) (st : σ) (g : Sentinels) : Outcome σ :=
  match binding.DecodeJSONBody decode
      (validator.StructRegisterRequest isEmail "RegisterRequest") r g with
  | (.panic, g) => { Response := none, Events := [], Store := st, Errors := g }
  | (.returns (.error err), g) => invalidBody r err st g
  | (.returns (.ok body), g) =>
    match auth.Register H CreateUser id body.Email body.Password st g with
    | (some err, st, g) =>
      let (resp, g) := wrapError r err g
      { Response := some resp, Events := [], Store := st, Errors := g }
    | (none, st, g) =>
      let r := render.Status r 201
      { Response := some (render.JSON r (schemas.OkResponse "user registered")),
        Events := [], Store := st, Errors := g }

/-- The method `(h *handler) login`. `GetUserByEmail` is the method of the storage
adapter behind `h.as`; the store is only read. -/
def login (decode : String → json.Decoded schemas.LoginRequest)
    (isEmail : String → Bool) (P : jwt.Primitives) (H : crypto.Primitives)
    (JwtSecret : String)
    (GetUserByEmail : String → Sentinels → Except GoError models.UserModel × Sentinels)
    (now1 now2 : Time) (r : Request) (g : Sentinels) : Outcome Unit :=
  match binding.DecodeJSONBody decode
      (validator.StructRegisterRequest isEmail "LoginRequest") r g with
  | (.panic, g) => { Response := none, Events := [], Store := (), Errors := g }
  | (.returns (.error err), g) => invalidBody r err () g
  | (.returns (.ok body), g) =>
    match auth.Login P H JwtSecret GetUserByEmail now1 now2 body.Email body.Password g with
    | (.error err, g) =>
      let (resp, g) := wrapError r err g
      { Response := some resp, Events := [], Store := (), Errors := g }
    | (.ok token, g) =>
      { Response := some (render.JSON r (schemas.LoginResponse token)), Events := [],
        Store := (), Errors := g }

/-- The method `(h *handler) getCompany`. `dbGetCompanyByID` is the method of the
storage adapter behind `h.cs`; the store is only read. -/
def getCompany
    (dbGetCompanyByID : String → Sentinels → Except GoError models.CompanyModel × Sentinels)
    (r : Request) (g : Sentinels) : Outcome Unit :=
  let companyID := r.URLParam "id"
  if companyID = "" then
    let (resp, g) := wrapError r (.api .ErrCompanyIDRequired) g
    { Response := some resp, Events := [], Store := (), Errors := g }
  else if !uuid.Validate companyID then
    let (resp, g) := wrapError r (.api .ErrInvalidUUID) g
    { Response := some resp, Events := [], Store := (), Errors := g }
  else
    match company.GetCompanyByID dbGetCompanyByID companyID g with
    | (.error err, g) =>
      let (resp, g) := wrapError r err g
      { Response := some resp, Events := [], Store := (), Errors := g }
    | (.ok company, g) =>
      let r := render.Status r 200
      { Response := some (render.JSON r company.MarshalJSON), Events := [], Store := (),
        Errors := g }

/-- The method `(h *handler) deleteCompany`. `uuid.MustParse` panics on an id that
`uuid.Parse` rejects. -/
def deleteCompany {σ : Type}
    (dbDeleteCompany : String → σ → Sentinels → Option GoError × σ × Sentinels)
    (eventID : uuid.UUID) (now : Time) (r : Request) (st : σ) (g : Sentinels) :
    Outcome σ :=
  let companyID := r.URLParam "id"
  if companyID = "" then
    let (resp, g) := wrapError r (.api .ErrCompanyIDRequired) g
    { Response := some resp, Events := [], Store := st, Errors := g }
  else if !uuid.Validate companyID then
    let (resp, g) := wrapError r (.api .ErrInvalidUUID) g
    { Response := some resp, Events := [], Store := st, Errors := g }
  else
    match company.DeleteCompany dbDeleteCompany companyID st g with
    | (some err, st, g) =>
      let (resp, g) := wrapError r err g
      { Response := some resp, Events := [], Store := st, Errors := g }
    | (none, st, g) =>
      match uuid.Parse companyID with
      | none => { Response := none, Events := [], Store := st, Errors := g }
      | some entityID =>
        let evt : events.Event :=
          { Type_ := enum.EventType.String enum.EventDeleteCompany, Timestamp := now,
            ID := eventID, EntityID := entityID }
        { Response := some (render.JSON r (schemas.OkResponse "company deleted")),
          Events := [evt], Store := st, Errors := g }

end handler

namespace sample

/-- Claims without `exp`. -/
def claimsNoExp : token.Claims :=
  { Email := "noexp", NotBefore := some time.zero, IssuedAt := some (1000 * time.Second),
    ID := "u1" }

/-- The text of a token carrying `claimsNoExp`, signed with "secret" under HS256. -/
def tokenNoExp : String := "HS256.noexp.HS256/secret/HS256.noexp"

/-- The stand-in `prims`, whose decoder also knows `tokenNoExp`. -/
def prims2 : jwt.Primitives :=
  { prims with
    ParseUnverified := fun tok =>
      if tok = tokenNoExp then
        .ok { Method := .HS256, Claims := claimsNoExp, SigningString := "HS256.noexp",
              Signature := "HS256/secret/HS256.noexp" }
      else prims.ParseUnverified tok }

/-- An event about the company `acme`. -/
def event : events.Event :=
  { Type_ := "create_company", Timestamp := 1000 * time.Second, ID := otherUUID,
    EntityID := nilUUID }

/-- A database whose round trips fail. -/
def down : postgres.Pool := { users := [], fault := some "connection refused" }

/-- A company body that passes validation. -/
def valid : schemas.CreateCompanyRequest :=
  { Name := "Acme", AmountEmployees := some 0, Registered := some false,
    Type_ := "NonProfit" }

end sample

namespace sample

/-- A database that stores companies and refuses every row for the table `events`. -/
def noEvents : postgres.Pool :=
  { users := [], eventCheck := fun _ _ => some "violates check constraint" }

/-- The record `valid` describes for the nil UUID. -/
def validModel : models.CompanyModel :=
  { ID := nilUUID, Name := "Acme", Description := "", AmountEmployees := 0,
    Registered := false, Type_ := "NonProfit" }

end sample

namespace handler

/-- Two outcomes of one request, served from the states `g` and `g'` of the error
values, that cannot be told apart: the same response, the same events, the same
store, and error values that agree with the ones the request started from. -/
def Alike {σ : Type} (g g' : Sentinels) (o o' : Outcome σ) : Prop :=
  o'.Response = o.Response ∧ o'.Events = o.Events ∧ o'.Store = o.Store ∧
    Agree o.Errors g ∧ Agree o'.Errors g'

end handler

/-! ## Lemmas on the store and on strings -/

theorem stable_initial : Stable initial := fun _ => ⟨rfl, rfl⟩

theorem setMessage_code (g : Sentinels) (e x : Sentinel) (m : String) :
    (setMessage g e m x).Code = (g x).Code := by
  unfold setMessage
  by_cases h : x = e
  · subst h; simp
  · simp [Function.update_noteq h]

theorem setMessage_status (g : Sentinels) (e x : Sentinel) (m : String) :
    (setMessage g e m x).HTTPStatus = (g x).HTTPStatus := by
  unfold setMessage
  by_cases h : x = e
  · subst h; simp
  · simp [Function.update_noteq h]

theorem setMessage_message (g : Sentinels) (e : Sentinel) (m : String) :
    (setMessage g e m e).Message = m := by
  simp [setMessage]

theorem stable_setMessage {g : Sentinels} (hg : Stable g) (e : Sentinel) (m : String) :
    Stable (setMessage g e m) := fun x =>
  ⟨(setMessage_code g e x m).trans (hg x).1, (setMessage_status g e x m).trans (hg x).2⟩

theorem trimPrefix_bearer (tok : String) :
    strings.TrimPrefix ("Bearer " ++ tok) "Bearer " = tok := by
  have h : ("Bearer " ++ tok).data = 'B' :: 'e' :: 'a' :: 'r' :: 'e' :: 'r' :: ' ' :: tok.data := by
    simp [String.data_append]
  simp [strings.TrimPrefix, strings.HasPrefix, h, List.isPrefixOf]

theorem bearer_ne_empty (tok : String) : "Bearer " ++ tok ≠ "" := by
  intro h
  have h2 := congrArg String.data h
  simp [String.data_append] at h2

theorem marshal_eq (a : APIError) :
    a.MarshalJSON = [("code", .str a.Code), ("message", .str a.Message)] := rfl

/-! ## Decoding of the bearer token -/

/-- With an empty `Authorization` value the decoder returns `ErrTokenNotFound`. -/
theorem decode_no_header (P : jwt.Primitives) (secret : String) (now : Time) (r : Request)
    (g : Sentinels) (h : r.HeaderGet "Authorization" = "") :
    token.DecodeTokenFromRequest P secret now r g =
      (.error (.api .ErrTokenNotFound),
        setMessage g .ErrTokenNotFound "missing Authorization header") := by
  simp [token.DecodeTokenFromRequest, h]

/-- With the value "Bearer " and nothing after it the decoder returns
`ErrTokenNotFound`. -/
theorem decode_no_token (P : jwt.Primitives) (secret : String) (now : Time) (r : Request)
    (g : Sentinels) (h : r.HeaderGet "Authorization" = "Bearer ") :
    token.DecodeTokenFromRequest P secret now r g =
      (.error (.api .ErrTokenNotFound),
        setMessage g .ErrTokenNotFound "missing token in Authorization header") := by
  have ht : strings.TrimPrefix "Bearer " "Bearer " = "" := by decide
  have hn : ("Bearer " : String) ≠ "" := by decide
  simp [token.DecodeTokenFromRequest, h, ht, hn]

/-- With the value "Bearer " followed by a non-empty token the decoder hands that
token to `ValidateAndParseToken` and wraps a failure in `ErrInvalidToken`. -/
theorem decode_bearer (P : jwt.Primitives) (secret : String) (now : Time) (r : Request)
    (g : Sentinels) (tok : String) (h : r.HeaderGet "Authorization" = "Bearer " ++ tok)
    (hne : tok ≠ "") :
    token.DecodeTokenFromRequest P secret now r g =
      match token.ValidateAndParseToken P secret now tok with
      | .error err =>
        (.error (.api .ErrInvalidToken),
          setMessage g .ErrInvalidToken ("invalid token: " ++ P.ErrorText err))
      | .ok claims => (.ok claims, g) := by
  simp only [token.DecodeTokenFromRequest, h, trimPrefix_bearer]
  rw [if_neg (bearer_ne_empty tok), if_neg hne]

/-- What the middleware writes when the decoder fails with a sentinel. -/
theorem middleware_of_decode_error (P : jwt.Primitives) (secret : String)
    (nowParse nowCheck : Time) (r : Request) (g g1 : Sentinels) (e : Sentinel)
    (h : token.DecodeTokenFromRequest P secret nowParse r g = (.error (.api e), g1)) :
    middleware.UserMustBeAuthenticated P secret nowParse nowCheck r g =
      (.rejected { Status := (g1 e).HTTPStatus,
                   Body := [("code", .str (g1 e).Code), ("message", .str (g1 e).Message)] },
        g1) := by
  simp [middleware.UserMustBeAuthenticated, h, render.Status, render.JSON, marshal_eq]

/-- A correctly signed token whose `exp` is not after the clock reading of the parser
fails claims validation with the expiry error among the reasons. -/
theorem parse_expired (P : jwt.Primitives) (secret tok : String) (now : Time)
    (t : jwt.Unverified) (exp : Time)
    (hp : P.ParseUnverified tok = .ok t)
    (hv : jwt.Verify P t.Method t.SigningString t.Signature secret = true)
    (he : t.Claims.ExpiresAt = some exp) (hx : exp ≤ now) :
    jwt.ParseWithClaims P tok secret now =
        .error (.InvalidClaims (jwt.Validate t.Claims now)) ∧
      jwt.ClaimFailure.Expired ∈ jwt.Validate t.Claims now := by
  have hval : jwt.Validate t.Claims now =
      jwt.ClaimFailure.Expired :: jwt.verifyNotBefore t.Claims now := by
    have hb : ¬ now < exp := not_lt.mpr hx
    simp [jwt.Validate, jwt.verifyExpiresAt, he, time.Before, hb]
  refine ⟨?_, by simp [hval]⟩
  simp only [jwt.ParseWithClaims, hp, hv, if_true]
  rw [hval]

/-! ## The claims -/

/-- C1 (behaviour of the code on the untyped branch): for every request that carries
no status in its context and every error that is not an `*APIError`, `wrapError`
writes the body `{code, message}` of the internal-server sentinel with the original
error text as message, and the response status is 200: `render.Status` is not
called on this branch. -/
theorem wrapError_untyped_status (r : Request) (msg : String) (g : Sentinels) :
    (handler.wrapError { r with StatusCtx := none } (.plain msg) g).1 =
      { Status := 200,
        Body := [("code", .str (g .ErrInternalServer).Code), ("message", .str msg)] } := by
  simp [handler.wrapError, render.JSON, marshal_eq, setMessage_code, setMessage_message]

/-- C2 (behaviour of the code on an expired token): for every token that decodes, is
correctly signed with the configured secret and whose `exp` is not after the clock
reading of the parser, a request carrying it as `Bearer <token>` is rejected by the
middleware without calling the next handler, with status 401 and code
`INVALID_TOKEN` (not `TOKEN_EXPIRED`): the token already fails inside
`DecodeTokenFromRequest`. -/
theorem expired_token_rejected_as_invalid (P : jwt.Primitives) (secret tok : String)
    (nowParse nowCheck : Time) (r : Request) (g : Sentinels) (t : jwt.Unverified)
    (exp : Time) (hg : Stable g)
    (hh : r.HeaderGet "Authorization" = "Bearer " ++ tok) (hne : tok ≠ "")
    (hp : P.ParseUnverified tok = .ok t)
    (hv : jwt.Verify P t.Method t.SigningString t.Signature secret = true)
    (he : t.Claims.ExpiresAt = some exp) (hx : exp ≤ nowParse) :
    ∃ msg, (middleware.UserMustBeAuthenticated P secret nowParse nowCheck r g).1 =
      .rejected { Status := 401,
                  Body := [("code", .str "INVALID_TOKEN"), ("message", .str msg)] } := by
  have hpe := (parse_expired P secret tok nowParse t exp hp hv he hx).1
  have hd := decode_bearer P secret nowParse r g tok hh hne
  simp only [token.ValidateAndParseToken, hpe] at hd
  rw [middleware_of_decode_error P secret nowParse nowCheck r g _ _ hd]
  have hs := stable_setMessage hg .ErrInvalidToken
    ("invalid token: " ++ P.ErrorText (.InvalidClaims (jwt.Validate t.Claims nowParse)))
  refine ⟨"invalid token: " ++
    P.ErrorText (.InvalidClaims (jwt.Validate t.Claims nowParse)), ?_⟩
  simp only [(hs .ErrInvalidToken).1, (hs .ErrInvalidToken).2, setMessage_message]
  rfl

theorem expired_token_rejected_as_invalid_witness :
    ∃ msg, (middleware.UserMustBeAuthenticated sample.prims "secret" (1700 * time.Second)
        (1700 * time.Second) (sample.request ("Bearer " ++ sample.tokenHS256)) initial).1 =
      .rejected { Status := 401,
                  Body := [("code", .str "INVALID_TOKEN"), ("message", .str msg)] } :=
  expired_token_rejected_as_invalid sample.prims "secret" sample.tokenHS256
    (1700 * time.Second) (1700 * time.Second) (sample.request ("Bearer " ++ sample.tokenHS256))
    initial
    { Method := .HS256, Claims := sample.claims, SigningString := "HS256.a@b.c",
      Signature := "HS256/secret/HS256.a@b.c" }
    (1600 * time.Second) stable_initial (by decide) (by decide) (by decide) (by decide)
    (by decide) (by decide)

/-- C3 (as stated, refuted): it is not the case that every decodable, correctly
signed token with `exp` in the past is returned by `ValidateAndParseToken`. The
sample token signed with "secret" under HS256, whose `exp` is 1600 s, parsed at
1700 s, is answered with the invalid-claims error. -/
theorem validateAndParse_expired_counterexample :
    ¬ ∀ (P : jwt.Primitives) (secret tok : String) (now : Time) (t : jwt.Unverified)
        (exp : Time),
        P.ParseUnverified tok = .ok t →
        jwt.Verify P t.Method t.SigningString t.Signature secret = true →
        t.Claims.ExpiresAt = some exp → exp < now →
        token.ValidateAndParseToken P secret now tok = .ok t.Claims := by
  intro h
  have h1 := h sample.prims "secret" sample.tokenHS256 (1700 * time.Second)
    { Method := .HS256, Claims := sample.claims, SigningString := "HS256.a@b.c",
      Signature := "HS256/secret/HS256.a@b.c" }
    (1600 * time.Second) (by decide) (by decide) (by decide) (by decide)
  revert h1
  decide

/-- C3 (amended): `ValidateAndParseToken` enforces expiry itself. For every token
that decodes, is correctly signed with the configured secret and whose `exp` is not
after the clock reading of the parser, it returns the invalid-claims error with the
expiry error among its reasons, and no claims. -/
theorem validateAndParse_enforces_expiry (P : jwt.Primitives) (secret tok : String)
    (now : Time) (t : jwt.Unverified) (exp : Time)
    (hp : P.ParseUnverified tok = .ok t)
    (hv : jwt.Verify P t.Method t.SigningString t.Signature secret = true)
    (he : t.Claims.ExpiresAt = some exp) (hx : exp ≤ now) :
    ∃ errs, token.ValidateAndParseToken P secret now tok = .error (.InvalidClaims errs) ∧
      jwt.ClaimFailure.Expired ∈ errs :=
  ⟨_, parse_expired P secret tok now t exp hp hv he hx⟩

theorem validateAndParse_enforces_expiry_witness :
    ∃ errs, token.ValidateAndParseToken sample.prims "secret" (1600 * time.Second)
        sample.tokenHS256 = .error (.InvalidClaims errs) ∧
      jwt.ClaimFailure.Expired ∈ errs :=
  validateAndParse_enforces_expiry sample.prims "secret" sample.tokenHS256
    (1600 * time.Second)
    { Method := .HS256, Claims := sample.claims, SigningString := "HS256.a@b.c",
      Signature := "HS256/secret/HS256.a@b.c" }
    (1600 * time.Second) (by decide) (by decide) (by decide) (by decide)

/-- C4: for every protected request whose `Authorization` header is absent or empty
(`Header.Get` returns the empty string) or is exactly "Bearer ",
`DecodeTokenFromRequest` fails with `ErrTokenNotFound`, and the middleware writes
status 400 with code `TOKEN_NOT_FOUND` and does not call the next handler. -/
theorem missing_token_rejected (P : jwt.Primitives) (secret : String)
    (nowParse nowCheck : Time) (r : Request) (g : Sentinels) (hg : Stable g)
    (h : r.HeaderGet "Authorization" = "" ∨ r.HeaderGet "Authorization" = "Bearer ") :
    (token.DecodeTokenFromRequest P secret nowParse r g).1 = .error (.api .ErrTokenNotFound) ∧
    ∃ msg, (middleware.UserMustBeAuthenticated P secret nowParse nowCheck r g).1 =
      .rejected { Status := 400,
                  Body := [("code", .str "TOKEN_NOT_FOUND"), ("message", .str msg)] } := by
  have key : ∀ m, token.DecodeTokenFromRequest P secret nowParse r g =
      (.error (.api .ErrTokenNotFound), setMessage g .ErrTokenNotFound m) →
      (token.DecodeTokenFromRequest P secret nowParse r g).1 =
        .error (.api .ErrTokenNotFound) ∧
      ∃ msg, (middleware.UserMustBeAuthenticated P secret nowParse nowCheck r g).1 =
        .rejected { Status := 400,
                    Body := [("code", .str "TOKEN_NOT_FOUND"), ("message", .str msg)] } := by
    intro m hd
    refine ⟨by rw [hd], m, ?_⟩
    rw [middleware_of_decode_error P secret nowParse nowCheck r g _ _ hd]
    have hs := stable_setMessage hg .ErrTokenNotFound m
    simp only [(hs .ErrTokenNotFound).1, (hs .ErrTokenNotFound).2, setMessage_message]
    rfl
  rcases h with h | h
  · exact key _ (decode_no_header P secret nowParse r g h)
  · exact key _ (decode_no_token P secret nowParse r g h)

theorem missing_token_rejected_witness :
    (token.DecodeTokenFromRequest sample.prims "secret" 0 (sample.request "Bearer ")
        initial).1 = .error (.api .ErrTokenNotFound) ∧
    ∃ msg, (middleware.UserMustBeAuthenticated sample.prims "secret" 0 0
        (sample.request "Bearer ") initial).1 =
      .rejected { Status := 400,
                  Body := [("code", .str "TOKEN_NOT_FOUND"), ("message", .str msg)] } :=
  missing_token_rejected sample.prims "secret" 0 0 (sample.request "Bearer ") initial
    stable_initial (Or.inr (by decide))

/-- C5 (as stated, refuted): it is not the case that every non-empty token signed
with a method other than HS256 is refused by `ValidateAndParseToken`. The sample
token signed with the configured secret under HS512, parsed before its `exp`, is
accepted and its claims are returned. -/
theorem other_algorithm_counterexample :
    ¬ ∀ (P : jwt.Primitives) (secret tok : String) (now : Time) (t : jwt.Unverified),
        tok ≠ "" → P.ParseUnverified tok = .ok t → t.Method ≠ .HS256 →
        ∃ f, token.ValidateAndParseToken P secret now tok = .error f := by
  intro h
  obtain ⟨f, hf⟩ := h sample.prims "secret" sample.tokenHS512 (1100 * time.Second)
    { Method := .HS512, Claims := sample.claims, SigningString := "HS512.a@b.c",
      Signature := "HS512/secret/HS512.a@b.c" }
    (by decide) (by decide) (by decide)
  have hok : token.ValidateAndParseToken sample.prims "secret" (1100 * time.Second)
      sample.tokenHS512 = .ok sample.claims := by decide
  rw [hok] at hf
  cases hf

/-- C5 (amended): for every non-empty bearer token that is malformed (does not
decode), or whose signature is not the MAC of its signing string under the
configured secret with the method its own header names (a different key, a
tampered token), or whose header names a method that is not an HMAC method (`none`
or an asymmetric one), `ValidateAndParseToken` returns an error and no claims, and
`DecodeTokenFromRequest` returns `ErrInvalidToken` with code `INVALID_TOKEN` and
status 401. -/
theorem unverifiable_token_is_invalid (P : jwt.Primitives) (secret tok : String)
    (now : Time) (r : Request) (g : Sentinels) (hg : Stable g)
    (hh : r.HeaderGet "Authorization" = "Bearer " ++ tok) (hne : tok ≠ "")
    (hf : (∃ f, P.ParseUnverified tok = .error f) ∨
      ∃ t, P.ParseUnverified tok = .ok t ∧
        (t.Signature ≠ P.hmac t.Method secret t.SigningString ∨ t.Method = .none ∨
          ∃ alg, t.Method = .asymmetric alg)) :
    (∃ f, token.ValidateAndParseToken P secret now tok = .error f) ∧
    (token.DecodeTokenFromRequest P secret now r g).1 = .error (.api .ErrInvalidToken) ∧
    ((token.DecodeTokenFromRequest P secret now r g).2 .ErrInvalidToken).Code =
      "INVALID_TOKEN" ∧
    ((token.DecodeTokenFromRequest P secret now r g).2 .ErrInvalidToken).HTTPStatus = 401 := by
  have hv : ∃ f, token.ValidateAndParseToken P secret now tok = .error f := by
    rcases hf with ⟨f, hf⟩ | ⟨t, hp, ht⟩
    · exact ⟨f, by simp [token.ValidateAndParseToken, jwt.ParseWithClaims, hf]⟩
    · have hver : jwt.Verify P t.Method t.SigningString t.Signature secret = false := by
        rcases ht with hs | hn | ⟨alg, ha⟩
        · cases hm : t.Method <;> simp [jwt.Verify] <;> (rw [hm] at hs; exact hs)
        · simp [jwt.Verify, hn]
        · simp [jwt.Verify, ha]
      exact ⟨.SignatureInvalid t.Method,
        by simp [token.ValidateAndParseToken, jwt.ParseWithClaims, hp, hver]⟩
  obtain ⟨f, hfe⟩ := hv
  have hd := decode_bearer P secret now r g tok hh hne
  simp only [hfe] at hd
  have hs := stable_setMessage hg .ErrInvalidToken ("invalid token: " ++ P.ErrorText f)
  refine ⟨⟨f, hfe⟩, by rw [hd], ?_, ?_⟩
  · rw [hd]; exact (hs .ErrInvalidToken).1
  · rw [hd]; exact (hs .ErrInvalidToken).2

theorem unverifiable_token_is_invalid_witness :
    (∃ f, token.ValidateAndParseToken sample.prims "secret" (1100 * time.Second)
      "HS256.a@b.c.HS256/other/HS256.a@b.c" = .error f) ∧
    (token.DecodeTokenFromRequest sample.prims "secret" (1100 * time.Second)
      (sample.request "Bearer HS256.a@b.c.HS256/other/HS256.a@b.c") initial).1 =
        .error (.api .ErrInvalidToken) ∧
    ((token.DecodeTokenFromRequest sample.prims "secret" (1100 * time.Second)
      (sample.request "Bearer HS256.a@b.c.HS256/other/HS256.a@b.c") initial).2
        .ErrInvalidToken).Code = "INVALID_TOKEN" ∧
    ((token.DecodeTokenFromRequest sample.prims "secret" (1100 * time.Second)
      (sample.request "Bearer HS256.a@b.c.HS256/other/HS256.a@b.c") initial).2
        .ErrInvalidToken).HTTPStatus = 401 :=
  unverifiable_token_is_invalid sample.prims "secret" "HS256.a@b.c.HS256/other/HS256.a@b.c"
    (1100 * time.Second) (sample.request "Bearer HS256.a@b.c.HS256/other/HS256.a@b.c")
    initial stable_initial (by decide) (by decide)
    (Or.inr ⟨{ Method := .HS256, Claims := sample.claims, SigningString := "HS256.a@b.c",
               Signature := "HS256/other/HS256.a@b.c" }, by decide, Or.inl (by decide)⟩)

/-! ## Issuing tokens -/

/-- The claims `GenerateToken` returns are the ones it builds from its arguments. -/
theorem generateToken_claims (P : jwt.Primitives) (secret : String) (now1 now2 : Time)
    (id email tok : String) (c : token.Claims)
    (h : token.GenerateToken P secret now1 now2 id email = .ok (tok, c)) :
    c = { Email := email
          ExpiresAt := some (jwt.NewNumericDate (time.Add now1 (time.Minute * 10)))
          NotBefore := some time.zero
          IssuedAt := some (jwt.NewNumericDate now2)
          ID := id } := by
  unfold token.GenerateToken at h
  simp only [] at h
  split at h
  · cases h
  · injection h with h
    injection h with _ h2
    exact h2.symm

/-- The token `GenerateToken` returns is the signing string of its claims, a dot, and
the encoded HS256 MAC of that string under the secret. -/
theorem generateToken_token (P : jwt.Primitives) (secret : String) (now1 now2 : Time)
    (id email tok : String) (c : token.Claims)
    (h : token.GenerateToken P secret now1 now2 id email = .ok (tok, c)) :
    ∃ sstr, P.SigningString .HS256 c = .ok sstr ∧
      tok = sstr ++ "." ++ P.EncodeSegment (P.hmac .HS256 secret sstr) := by
  have hc := generateToken_claims P secret now1 now2 id email tok c h
  unfold token.GenerateToken at h
  simp only [] at h
  rw [← hc] at h
  unfold jwt.SignedString at h
  cases hs : P.SigningString .HS256 c with
  | error err => rw [hs] at h; simp at h
  | ok sstr =>
    rw [hs] at h
    simp only [jwt.Sign] at h
    injection h with h
    injection h with h1 _
    exact ⟨sstr, rfl, h1.symm⟩

/-- Less than 599 s after the first clock reading the truncated expiry instant has
not been reached. -/
theorem issue_window (a n : Int) (h1 : a ≤ n) (h2 : n < a + 599 * time.Second) :
    n < jwt.NewNumericDate (time.Add a (time.Minute * 10)) := by
  simp only [jwt.NewNumericDate, time.Truncate, time.Add, jwt.TimePrecision, time.Minute,
    time.Second] at *
  omega

/-- An instant not before the zero time is not before the `nbf` of issued tokens. -/
theorem after_zero (a n : Int) (h0 : time.zero ≤ a) (h1 : a ≤ n) : ¬ n < time.zero := by
  simp only [time.zero, time.Second] at *
  omega

/-- C6 (behaviour of the code): in the claims returned by `GenerateToken(id, email)`
the field `Id` (JSON key "id") is the empty string for every `id`; the identity is
stored in the embedded `RegisteredClaims.ID` (JSON key "jti"). `Email` equals
`email`. -/
theorem generateToken_id_claim (P : jwt.Primitives) (secret : String) (now1 now2 : Time)
    (id email tok : String) (c : token.Claims)
    (h : token.GenerateToken P secret now1 now2 id email = .ok (tok, c)) :
    c.Id = "" ∧ c.ID = id ∧ c.Email = email := by
  rw [generateToken_claims P secret now1 now2 id email tok c h]
  exact ⟨rfl, rfl, rfl⟩

theorem generateToken_id_claim_witness :
    sample.claims.Id = "" ∧ sample.claims.ID = "u1" ∧ sample.claims.Email = "a@b.c" :=
  generateToken_id_claim sample.prims "secret" (1000 * time.Second) (1000 * time.Second)
    "u1" "a@b.c" sample.tokenHS256 sample.claims (by decide)

/-- C7: round trip. For every id and email, when the library decodes the token it
has just encoded (the decoder inverts the encoder on the signing string and
signature of these claims), `ValidateAndParseToken` applied with the same secret
less than 599 s after issuance to the token returned by `GenerateToken(id, email)`
succeeds and yields the generated claims, whose `Email` equals `email`. -/
theorem generate_then_parse (P : jwt.Primitives) (secret : String) (now1 now2 now : Time)
    (id email tok : String) (c : token.Claims)
    (hgen : token.GenerateToken P secret now1 now2 id email = .ok (tok, c))
    (hrt : ∀ sstr, P.SigningString .HS256 c = .ok sstr →
      P.ParseUnverified (sstr ++ "." ++ P.EncodeSegment (P.hmac .HS256 secret sstr)) =
        .ok { Method := .HS256, Claims := c, SigningString := sstr,
              Signature := P.hmac .HS256 secret sstr })
    (h0 : time.zero ≤ now1) (h1 : now1 ≤ now) (h2 : now < now1 + 599 * time.Second) :
    token.ValidateAndParseToken P secret now tok = .ok c ∧ c.Email = email := by
  obtain ⟨sstr, hs, htok⟩ := generateToken_token P secret now1 now2 id email tok c hgen
  have hc := generateToken_claims P secret now1 now2 id email tok c hgen
  have hp := hrt sstr hs
  rw [← htok] at hp
  have hexp : c.ExpiresAt = some (jwt.NewNumericDate (time.Add now1 (time.Minute * 10))) := by
    rw [hc]
  have hnbf : c.NotBefore = some time.zero := by rw [hc]
  have hem : c.Email = email := by rw [hc]
  have hlt : now < jwt.NewNumericDate (time.Add now1 (time.Minute * 10)) :=
    issue_window now1 now h1 h2
  have hnb : ¬ now < time.zero := after_zero now1 now h0 h1
  have hval : jwt.Validate c now = [] := by
    simp [jwt.Validate, jwt.verifyExpiresAt, jwt.verifyNotBefore, hexp, hnbf, time.Before,
      hlt, hnb]
  refine ⟨?_, hem⟩
  simp [token.ValidateAndParseToken, jwt.ParseWithClaims, hp, jwt.Verify, hval]

theorem generate_then_parse_witness :
    token.ValidateAndParseToken sample.prims "secret" (1001 * time.Second) sample.tokenHS256 =
      .ok sample.claims ∧ sample.claims.Email = "a@b.c" :=
  generate_then_parse sample.prims "secret" (1000 * time.Second) (1000 * time.Second)
    (1001 * time.Second) "u1" "a@b.c" sample.tokenHS256 sample.claims (by decide)
    (by
      intro sstr h
      have hs : sstr = "HS256.a@b.c" := by
        have h3 : (Except.ok "HS256.a@b.c" : Except jwt.Failure String) = .ok sstr := h
        injection h3 with h3
        exact h3.symm
      subst hs
      decide)
    (by decide) (by decide) (by decide)

/-- Truncation to whole seconds commutes with adding ten minutes, and is monotone. -/
theorem truncate_add_ten_minutes (a b : Int) :
    jwt.NewNumericDate (time.Add a (time.Minute * 10)) =
        jwt.NewNumericDate a + 600 * time.Second ∧
      (a ≤ b → jwt.NewNumericDate a ≤ jwt.NewNumericDate b) := by
  simp only [jwt.NewNumericDate, time.Truncate, time.Add, jwt.TimePrecision, time.Minute,
    time.Second]
  refine ⟨?_, fun h => ?_⟩
  · show @Eq Int _ _
    omega
  · show @LE.le Int _ _ _
    omega

/-- C8 (as stated, refuted): it is not the case that for every pair of clock
readings `expiresAt` is `issuedAt` plus 600 s. With the first reading at
0.999999999 s and the second at 1 s, `expiresAt` is 600 s and `issuedAt` is 1 s. -/
theorem lifetime_counterexample :
    ¬ ∀ (P : jwt.Primitives) (secret : String) (now1 now2 : Time) (id email tok : String)
        (c : token.Claims), now1 ≤ now2 →
        token.GenerateToken P secret now1 now2 id email = .ok (tok, c) →
        ∃ iat, c.IssuedAt = some iat ∧ c.ExpiresAt = some (iat + 600 * time.Second) := by
  intro h
  obtain ⟨iat, h1, h2⟩ := h sample.prims "secret" 999999999 1000000000 "u1" "a@b.c"
    sample.tokenHS256
    { Email := "a@b.c", ExpiresAt := some (600 * time.Second), NotBefore := some time.zero,
      IssuedAt := some (1 * time.Second), ID := "u1" }
    (by decide) (by decide)
  have h3 : iat = 1 * time.Second := by
    injection h1 with h1
    exact h1.symm
  subst h3
  revert h2
  decide

/-- C8 (amended): for every token issued by `GenerateToken`, `expiresAt` is the
first clock reading truncated to whole seconds plus 600 s and `issuedAt` is the
second clock reading truncated to whole seconds. Hence `expiresAt` is exactly
`issuedAt` plus 600 s when both readings fall into the same second, and is at most
`issuedAt` plus 600 s when the first reading is not after the second. -/
theorem generateToken_lifetime (P : jwt.Primitives) (secret : String) (now1 now2 : Time)
    (id email tok : String) (c : token.Claims)
    (h : token.GenerateToken P secret now1 now2 id email = .ok (tok, c)) :
    ∃ exp iat, c.ExpiresAt = some exp ∧ c.IssuedAt = some iat ∧
      exp = time.Truncate now1 time.Second + 600 * time.Second ∧
      iat = time.Truncate now2 time.Second ∧
      (time.Truncate now1 time.Second = time.Truncate now2 time.Second →
        exp = iat + 600 * time.Second) ∧
      (now1 ≤ now2 → exp ≤ iat + 600 * time.Second) := by
  have hc := generateToken_claims P secret now1 now2 id email tok c h
  have ht := truncate_add_ten_minutes now1 now2
  refine ⟨jwt.NewNumericDate (time.Add now1 (time.Minute * 10)), jwt.NewNumericDate now2,
    by rw [hc], by rw [hc], ht.1, rfl, ?_, ?_⟩
  · intro hsame
    rw [ht.1]
    exact congrArg (fun x : Int => x + 600 * time.Second) hsame
  · intro hle
    rw [ht.1]
    exact Int.add_le_add_right (ht.2 hle) _

theorem generateToken_lifetime_witness :
    ∃ exp iat, sample.claims.ExpiresAt = some exp ∧ sample.claims.IssuedAt = some iat ∧
      exp = time.Truncate (1000 * time.Second) time.Second + 600 * time.Second ∧
      iat = time.Truncate (1000 * time.Second) time.Second ∧
      (time.Truncate (1000 * time.Second) time.Second =
          time.Truncate (1000 * time.Second) time.Second →
        exp = iat + 600 * time.Second) ∧
      ((1000 * time.Second : Int) ≤ 1000 * time.Second → exp ≤ iat + 600 * time.Second) :=
  generateToken_lifetime sample.prims "secret" (1000 * time.Second) (1000 * time.Second)
    "u1" "a@b.c" sample.tokenHS256 sample.claims (by decide)

/-! ## Login -/

/-- The row `GetUserByEmail` returns on a working database is a row of the table with
the requested email. -/
theorem getUserByEmail_ok (pool : postgres.Pool) (email : String) (g g1 : Sentinels)
    (user : models.UserModel)
    (h : postgres.GetUserByEmail pool email g = (.ok user, g1)) :
    user ∈ pool.users ∧ user.Email = email ∧ g1 = g := by
  unfold postgres.GetUserByEmail postgres.selectUserByEmail at h
  cases hf : pool.fault with
  | some err => rw [hf] at h; simp at h
  | none =>
    rw [hf] at h
    simp only [] at h
    cases hl : (pool.users.filter fun u => decide (u.Email = email)).take 1 with
    | nil => rw [hl] at h; simp at h
    | cons u rest =>
      rw [hl] at h
      simp only [Prod.mk.injEq, Except.ok.injEq] at h
      have hmem : u ∈ (pool.users.filter fun u => decide (u.Email = email)).take 1 := by
        rw [hl]; exact List.mem_cons_self _ _
      have hmem2 := List.mem_of_mem_take hmem
      rw [List.mem_filter] at hmem2
      rw [← h.1]
      exact ⟨hmem2.1, by simpa using hmem2.2, h.2.symm⟩

/-- On a working database without a row for the email, `GetUserByEmail` returns
`ErrUserNotFound` with the message naming the email. -/
theorem getUserByEmail_absent (pool : postgres.Pool) (email : String) (g : Sentinels)
    (hf : pool.fault = none) (hn : ∀ u ∈ pool.users, u.Email ≠ email) :
    postgres.GetUserByEmail pool email g =
      (.error (.api .ErrUserNotFound),
        setMessage g .ErrUserNotFound ("user with email '" ++ email ++ "' not found")) := by
  have hnil : (pool.users.filter fun u => decide (u.Email = email)) = [] := by
    rw [List.filter_eq_nil_iff]
    intro u hu
    simpa using hn u hu
  simp [postgres.GetUserByEmail, postgres.selectUserByEmail, hf, hnil]

/-- On a working database with a row for the email, `GetUserByEmail` returns such a
row and leaves the store as it is. -/
theorem getUserByEmail_present (pool : postgres.Pool) (email : String) (g : Sentinels)
    (hf : pool.fault = none) (hex : ∃ u ∈ pool.users, u.Email = email) :
    ∃ user, postgres.GetUserByEmail pool email g = (.ok user, g) ∧
      user ∈ pool.users ∧ user.Email = email := by
  obtain ⟨u, hu, hue⟩ := hex
  have hmem : u ∈ pool.users.filter fun u => decide (u.Email = email) := by
    rw [List.mem_filter]
    exact ⟨hu, by simpa using hue⟩
  cases hl : pool.users.filter fun u => decide (u.Email = email) with
  | nil => rw [hl] at hmem; cases hmem
  | cons v rest =>
    have hv : v ∈ pool.users.filter fun u => decide (u.Email = email) := by
      rw [hl]; exact List.mem_cons_self _ _
    rw [List.mem_filter] at hv
    refine ⟨v, ?_, hv.1, by simpa using hv.2⟩
    simp [postgres.GetUserByEmail, postgres.selectUserByEmail, hf, hl]

/-- `Login` when the database returns a user whose stored digest differs from the
digest of the supplied password. -/
theorem login_mismatch (P : jwt.Primitives) (H : crypto.Primitives) (secret : String)
    (db : String → Sentinels → Except GoError models.UserModel × Sentinels)
    (now1 now2 : Time) (email password : String) (g g1 : Sentinels)
    (user : models.UserModel) (hdb : db email g = (.ok user, g1))
    (hne : user.EncPassword ≠ crypto.Md5Hash H password) :
    auth.Login P H secret db now1 now2 email password g =
      (.error (.api .ErrInvalidCredentials), g1) := by
  simp [auth.Login, hdb, hne]

/-- `Login` when the database returns an error: the error is passed on. -/
theorem login_db_error (P : jwt.Primitives) (H : crypto.Primitives) (secret : String)
    (db : String → Sentinels → Except GoError models.UserModel × Sentinels)
    (now1 now2 : Time) (email password : String) (g g1 : Sentinels) (err : GoError)
    (hdb : db email g = (.error err, g1)) :
    auth.Login P H secret db now1 now2 email password g = (.error err, g1) := by
  simp [auth.Login, hdb]

/-- C9: for every registered user (the storage adapter returns the user's row for
the email) and every supplied password whose digest differs from the stored
digest, `Login` returns `ErrInvalidCredentials` (code `INVALID_CREDENTIALS`,
status 401) and no token; and whenever `Login` returns a token,
`Md5Hash(password)` equals the stored digest. -/
theorem login_wrong_password (P : jwt.Primitives) (H : crypto.Primitives) (secret : String)
    (db : String → Sentinels → Except GoError models.UserModel × Sentinels)
    (now1 now2 : Time) (email password : String) (g g1 : Sentinels)
    (user : models.UserModel) (hdb : db email g = (.ok user, g1)) (hg : Stable g1) :
    (user.EncPassword ≠ crypto.Md5Hash H password →
      auth.Login P H secret db now1 now2 email password g =
        (.error (.api .ErrInvalidCredentials), g1) ∧
      (g1 .ErrInvalidCredentials).Code = "INVALID_CREDENTIALS" ∧
      (g1 .ErrInvalidCredentials).HTTPStatus = 401) ∧
    (∀ tok g2, auth.Login P H secret db now1 now2 email password g = (.ok tok, g2) →
      user.EncPassword = crypto.Md5Hash H password) := by
  refine ⟨fun hne => ⟨login_mismatch P H secret db now1 now2 email password g g1 user hdb hne,
    (hg .ErrInvalidCredentials).1, (hg .ErrInvalidCredentials).2⟩, ?_⟩
  intro tok g2 hl
  by_contra hne
  rw [login_mismatch P H secret db now1 now2 email password g g1 user hdb hne] at hl
  cases hl

theorem login_wrong_password_witness :
    (crypto.Md5Hash sample.hash "password" ≠ crypto.Md5Hash sample.hash "invalid" →
      auth.Login sample.prims sample.hash "secret" (postgres.GetUserByEmail sample.pool)
          (1000 * time.Second) (1000 * time.Second) "a@b.c" "invalid" initial =
        (.error (.api .ErrInvalidCredentials), initial) ∧
      (initial .ErrInvalidCredentials).Code = "INVALID_CREDENTIALS" ∧
      (initial .ErrInvalidCredentials).HTTPStatus = 401) ∧
    (∀ tok g2, auth.Login sample.prims sample.hash "secret"
          (postgres.GetUserByEmail sample.pool) (1000 * time.Second) (1000 * time.Second)
          "a@b.c" "invalid" initial = (.ok tok, g2) →
      crypto.Md5Hash sample.hash "password" = crypto.Md5Hash sample.hash "invalid") :=
  login_wrong_password sample.prims sample.hash "secret" (postgres.GetUserByEmail sample.pool)
    (1000 * time.Second) (1000 * time.Second) "a@b.c" "invalid" initial initial
    { ID := sample.nilUUID, Email := "a@b.c",
      EncPassword := crypto.Md5Hash sample.hash "password" }
    rfl stable_initial

/-- C10 (as stated, refuted): it is not the case that `Login` returns the same error
for a registered email with a wrong password and for an email that is not
registered. On the sample database, "a@b.c" with the password "invalid" gives
`ErrInvalidCredentials` and "x@y.z" gives `ErrUserNotFound`. -/
theorem login_error_counterexample :
    ¬ ∀ (P : jwt.Primitives) (H : crypto.Primitives) (secret : String) (pool : postgres.Pool)
        (now1 now2 : Time) (registered unregistered password : String) (g : Sentinels),
        pool.fault = none →
        (∃ u ∈ pool.users, u.Email = registered) →
        (∀ u ∈ pool.users, u.Email = registered →
          u.EncPassword ≠ crypto.Md5Hash H password) →
        (∀ u ∈ pool.users, u.Email ≠ unregistered) →
        (auth.Login P H secret (postgres.GetUserByEmail pool) now1 now2 registered
            password g).1 =
          (auth.Login P H secret (postgres.GetUserByEmail pool) now1 now2 unregistered
            password g).1 := by
  intro h
  have h1 := h sample.prims sample.hash "secret" sample.pool (1000 * time.Second)
    (1000 * time.Second) "a@b.c" "x@y.z" "invalid" initial rfl (by decide) (by decide)
    (by decide)
  have ha : (auth.Login sample.prims sample.hash "secret"
      (postgres.GetUserByEmail sample.pool) (1000 * time.Second) (1000 * time.Second)
      "a@b.c" "invalid" initial).1 = .error (.api .ErrInvalidCredentials) := by decide
  have hb : (auth.Login sample.prims sample.hash "secret"
      (postgres.GetUserByEmail sample.pool) (1000 * time.Second) (1000 * time.Second)
      "x@y.z" "invalid" initial).1 = .error (.api .ErrUserNotFound) := by decide
  rw [ha, hb] at h1
  cases h1

/-- C10 (amended): a failed login does reveal whether the email exists. On a working
database, for every password, `Login` for a registered email whose stored digest
differs from the digest of the password returns `ErrInvalidCredentials` (code
`INVALID_CREDENTIALS`, status 401), and `Login` for an email that is not registered
returns `ErrUserNotFound` (code `USER_NOT_FOUND`, status 400) with a message naming
the email; the two errors differ in kind, code and status. -/
theorem login_errors_distinguish (P : jwt.Primitives) (H : crypto.Primitives)
    (secret : String) (pool : postgres.Pool) (now1 now2 : Time)
    (registered unregistered password : String) (g : Sentinels) (hg : Stable g)
    (hf : pool.fault = none)
    (hex : ∃ u ∈ pool.users, u.Email = registered)
    (hw : ∀ u ∈ pool.users, u.Email = registered →
      u.EncPassword ≠ crypto.Md5Hash H password)
    (hn : ∀ u ∈ pool.users, u.Email ≠ unregistered) :
    auth.Login P H secret (postgres.GetUserByEmail pool) now1 now2 registered password g =
      (.error (.api .ErrInvalidCredentials), g) ∧
    (g .ErrInvalidCredentials).Code = "INVALID_CREDENTIALS" ∧
    (g .ErrInvalidCredentials).HTTPStatus = 401 ∧
    ∃ g2, auth.Login P H secret (postgres.GetUserByEmail pool) now1 now2 unregistered
        password g = (.error (.api .ErrUserNotFound), g2) ∧
      (g2 .ErrUserNotFound).Code = "USER_NOT_FOUND" ∧
      (g2 .ErrUserNotFound).HTTPStatus = 400 ∧
      (g2 .ErrUserNotFound).Message = "user with email '" ++ unregistered ++ "' not found" := by
  obtain ⟨user, hget, hmem, hemail⟩ := getUserByEmail_present pool registered g hf hex
  have hs := stable_setMessage hg .ErrUserNotFound
    ("user with email '" ++ unregistered ++ "' not found")
  refine ⟨login_mismatch P H secret _ now1 now2 registered password g g user hget
      (hw user hmem hemail),
    (hg .ErrInvalidCredentials).1, (hg .ErrInvalidCredentials).2, _,
    login_db_error P H secret _ now1 now2 unregistered password g _ _
      (getUserByEmail_absent pool unregistered g hf hn),
    (hs .ErrUserNotFound).1, (hs .ErrUserNotFound).2, setMessage_message _ _ _⟩

theorem login_errors_distinguish_witness :
    auth.Login sample.prims sample.hash "secret" (postgres.GetUserByEmail sample.pool)
        (1000 * time.Second) (1000 * time.Second) "a@b.c" "invalid" initial =
      (.error (.api .ErrInvalidCredentials), initial) ∧
    (initial .ErrInvalidCredentials).Code = "INVALID_CREDENTIALS" ∧
    (initial .ErrInvalidCredentials).HTTPStatus = 401 ∧
    ∃ g2, auth.Login sample.prims sample.hash "secret" (postgres.GetUserByEmail sample.pool)
        (1000 * time.Second) (1000 * time.Second) "x@y.z" "invalid" initial =
          (.error (.api .ErrUserNotFound), g2) ∧
      (g2 .ErrUserNotFound).Code = "USER_NOT_FOUND" ∧
      (g2 .ErrUserNotFound).HTTPStatus = 400 ∧
      (g2 .ErrUserNotFound).Message = "user with email '" ++ "x@y.z" ++ "' not found" :=
  login_errors_distinguish sample.prims sample.hash "secret" sample.pool
    (1000 * time.Second) (1000 * time.Second) "a@b.c" "x@y.z" "invalid" initial
    stable_initial rfl (by decide) (by decide) (by decide)

/-! ## Company types -/

/-- The four accepted strings, each the value `CompanyTypeFromString` gives back. -/
theorem companyTypeFromString_cases (s : String) :
    (s ∈ enum.AllCompanyTypesString ∧ enum.CompanyTypeFromString s = s) ∨
    (s ∉ enum.AllCompanyTypesString ∧ enum.CompanyTypeFromString s = "") := by
  unfold enum.CompanyTypeFromString enum.AllCompanyTypesString
  by_cases h1 : s = "Corporations"
  · left; subst h1; exact ⟨by decide, by decide⟩
  by_cases h2 : s = "NonProfit"
  · left; subst h2; exact ⟨by decide, by decide⟩
  by_cases h3 : s = "Cooperative"
  · left; subst h3; exact ⟨by decide, by decide⟩
  by_cases h4 : s = "Sole Proprietorship"
  · left; subst h4; exact ⟨by decide, by decide⟩
  right
  simp [h1, h2, h3, h4]

/-- The constraint accepts exactly the members of `AllCompanyTypesString`. -/
theorem validateCompanyType_iff (s : String) :
    binding.validateCompanyType s = true ↔ s ∈ enum.AllCompanyTypesString := by
  unfold binding.validateCompanyType
  rcases companyTypeFromString_cases s with ⟨hm, he⟩ | ⟨hm, he⟩
  · have hne : s ≠ "" := by
      intro h0; subst h0; revert hm; decide
    rw [he]
    simp [hm, hne]
  · rw [he]
    simp [hm]

/-- `IsValid` holds exactly for the members of `AllCompanyTypesString`. -/
theorem isValid_iff (s : String) :
    enum.CompanyType.IsValid s = true ↔ s ∈ enum.AllCompanyTypesString := by
  simp [enum.CompanyType.IsValid, enum.AllCompanyTypesString, enum.Corporation,
    enum.NonProfit, enum.Cooperative, enum.SoleProprietorship]

/-- C18: the company-type constraint accepts a string if and only if it is exactly
one of "Corporations", "NonProfit", "Cooperative", "Sole Proprietorship", and the
definitions of that closed set agree: for every string `s`, `validateCompanyType`
accepts `s` iff `CompanyTypeFromString(s)` is non-empty iff `CompanyType(s).IsValid()`
iff `s` occurs in `AllCompanyTypesString()`; for such `s`,
`CompanyTypeFromString(s).String()` equals `s`. -/
theorem company_type_definitions_agree (s : String) :
    (binding.validateCompanyType s = true ↔
      s = "Corporations" ∨ s = "NonProfit" ∨ s = "Cooperative" ∨
        s = "Sole Proprietorship") ∧
    (binding.validateCompanyType s = true ↔ enum.CompanyTypeFromString s ≠ "") ∧
    (enum.CompanyTypeFromString s ≠ "" ↔ enum.CompanyType.IsValid s = true) ∧
    (enum.CompanyType.IsValid s = true ↔ s ∈ enum.AllCompanyTypesString) ∧
    (s ∈ enum.AllCompanyTypesString →
      enum.CompanyType.String (enum.CompanyTypeFromString s) = s) := by
  have hv := validateCompanyType_iff s
  have hi := isValid_iff s
  have hvf : binding.validateCompanyType s = true ↔ enum.CompanyTypeFromString s ≠ "" := by
    simp [binding.validateCompanyType]
  refine ⟨?_, hvf, ?_, hi, ?_⟩
  · rw [hv]; simp [enum.AllCompanyTypesString]
  · rw [← hvf, hv, hi]
  · intro hm
    rcases companyTypeFromString_cases s with ⟨_, he⟩ | ⟨hn, _⟩
    · exact he
    · exact absurd hm hn

/-! ## Binding and validation -/

/-- The validation of a company body finds nothing exactly when the name is
non-empty, both pointers are set and the type is one of the enum. -/
theorem structCompanyRequest_nil_iff (structName : String)
    (b : schemas.CreateCompanyRequest) :
    validator.StructCompanyRequest structName b = [] ↔
      b.Name ≠ "" ∧ b.AmountEmployees.isSome = true ∧ b.Registered.isSome = true ∧
        enum.CompanyType.IsValid b.Type_ = true := by
  have hv := validateCompanyType_iff b.Type_
  have hi := isValid_iff b.Type_
  have hne : b.Type_ ∈ enum.AllCompanyTypesString → b.Type_ ≠ "" := by
    intro hm h0
    rw [h0] at hm
    revert hm
    decide
  unfold validator.StructCompanyRequest
  rw [hi]
  cases hA : b.AmountEmployees <;> cases hR : b.Registered <;>
    by_cases h1 : b.Name = "" <;> by_cases h4 : b.Type_ = "" <;>
    by_cases h5 : binding.validateCompanyType b.Type_ = true <;>
    simp_all

/-- What `handleBindingErrors` returns on a non-empty list of violations. -/
theorem handleBindingErrors_fields (fe : validator.FieldError)
    (rest : validator.ValidationErrors) (g : Sentinels) :
    ∃ m, binding.handleBindingErrors (.fields (fe :: rest)) g =
      (.returns (.api .ErrInvalidBody), setMessage g .ErrInvalidBody m) := by
  unfold binding.handleBindingErrors
  simp only []
  split_ifs <;> exact ⟨_, rfl⟩

/-- C17: a decoded create/update company body passes validation (and
`DecodeJSONBody` returns nil with that body) if and only if name is non-empty,
amount_employees is present, registered is present and type is one of the closed
enum; in particular a body with amount_employees = 0 and registered = false
passes if and only if its name is non-empty and its type is in the enum. -/
theorem company_body_validation (decode : String → json.Decoded schemas.CreateCompanyRequest)
    (structName : String) (r : Request) (g : Sentinels) (b : schemas.CreateCompanyRequest)
    (hd : decode r.Body = .value b) :
    ((binding.DecodeJSONBody decode (validator.StructCompanyRequest structName) r g).1 =
        .returns (.ok b) ↔
      b.Name ≠ "" ∧ b.AmountEmployees.isSome = true ∧ b.Registered.isSome = true ∧
        enum.CompanyType.IsValid b.Type_ = true) ∧
    (validator.StructCompanyRequest structName
        { b with AmountEmployees := some 0, Registered := some false } = [] ↔
      b.Name ≠ "" ∧ enum.CompanyType.IsValid b.Type_ = true) := by
  refine ⟨?_, ?_⟩
  · rw [← structCompanyRequest_nil_iff structName b]
    unfold binding.DecodeJSONBody
    rw [hd]
    simp only []
    cases hs : validator.StructCompanyRequest structName b with
    | nil => simp
    | cons fe rest =>
      obtain ⟨m, hm⟩ := handleBindingErrors_fields fe rest g
      simp [hm]
  · rw [structCompanyRequest_nil_iff]
    simp

theorem company_body_validation_witness :
    ((binding.DecodeJSONBody
          (fun _ => json.Decoded.value
            ({ Name := "Acme", AmountEmployees := some 0, Registered := some false,
               Type_ := "NonProfit" } : schemas.CreateCompanyRequest))
          (validator.StructCompanyRequest "CreateCompanyRequest") sample.bare initial).1 =
        .returns (.ok { Name := "Acme", AmountEmployees := some 0, Registered := some false,
                        Type_ := "NonProfit" }) ↔
      ("Acme" : String) ≠ "" ∧ (some (0 : Int)).isSome = true ∧
        (some false).isSome = true ∧ enum.CompanyType.IsValid "NonProfit" = true) ∧
    (validator.StructCompanyRequest "CreateCompanyRequest"
        { Name := "Acme", AmountEmployees := some 0, Registered := some false,
          Type_ := "NonProfit" } = [] ↔
      ("Acme" : String) ≠ "" ∧ enum.CompanyType.IsValid "NonProfit" = true) :=
  company_body_validation _ "CreateCompanyRequest" sample.bare initial
    { Name := "Acme", AmountEmployees := some 0, Registered := some false,
      Type_ := "NonProfit" } rfl

/-- C19 (as stated, refuted): it is not the case that later violations never affect
the result. For a first violation with the tag "min", the message written for the
list with a second violation differs from the message written for the first
violation alone. -/
theorem binding_error_counterexample :
    ¬ ∀ (fe : validator.FieldError) (rest1 rest2 : validator.ValidationErrors)
        (g : Sentinels),
        ((binding.handleBindingErrors (.fields (fe :: rest1)) g).2 .ErrInvalidBody).Message =
          ((binding.handleBindingErrors (.fields (fe :: rest2)) g).2 .ErrInvalidBody).Message := by
  intro h
  have h1 := h { Namespace := "T.age", Field := "age", Tag := "min", Param := "1",
                 Type_ := "int" }
    [] [{ Namespace := "T.name", Field := "name", Tag := "required", Type_ := "string" }]
    initial
  revert h1
  decide

/-- C19 (amended): for every non-empty list of validation violations,
`handleBindingErrors` returns the `ErrInvalidBody` sentinel (code `INVALID_BODY`,
status 400); its message names the field of the first violation and is chosen by
the tag of the first violation (required, oneof, customOneOf, email), and for any
other tag it is the `Error()` text of the whole list, every violation included.
For the four named tags later violations do not affect the message. -/
theorem binding_error_message (fe : validator.FieldError)
    (rest : validator.ValidationErrors) (g : Sentinels) (hg : Stable g) :
    (binding.handleBindingErrors (.fields (fe :: rest)) g).1 =
      .returns (.api .ErrInvalidBody) ∧
    ((binding.handleBindingErrors (.fields (fe :: rest)) g).2 .ErrInvalidBody).Code =
      "INVALID_BODY" ∧
    ((binding.handleBindingErrors (.fields (fe :: rest)) g).2 .ErrInvalidBody).HTTPStatus =
      400 ∧
    ((binding.handleBindingErrors (.fields (fe :: rest)) g).2 .ErrInvalidBody).Message =
      (if fe.Tag = "required" then fe.Field ++ " is required and must be a " ++ fe.Type_
       else if fe.Tag = "oneof" then
         fe.Field ++ " must be one of: " ++ strings.Join (strings.Split fe.Param " ") ", "
       else if fe.Tag = "customOneOf" then
         fe.Field ++ " must be one of: " ++
           "Corporations, NonProfit, Cooperative, Sole Proprietorship"
       else if fe.Tag = "email" then fe.Field ++ " must be a valid email address"
       else validator.ValidationErrors.Error (fe :: rest)) ∧
    (fe.Tag = "required" ∨ fe.Tag = "oneof" ∨ fe.Tag = "customOneOf" ∨ fe.Tag = "email" →
      ∀ rest2, binding.handleBindingErrors (.fields (fe :: rest2)) g =
        binding.handleBindingErrors (.fields (fe :: rest)) g) := by
  have hj : strings.Join enum.AllCompanyTypesString ", " =
      "Corporations, NonProfit, Cooperative, Sole Proprietorship" := by decide
  obtain ⟨m, hm⟩ := handleBindingErrors_fields fe rest g
  have hs := stable_setMessage hg .ErrInvalidBody m
  refine ⟨by rw [hm], by rw [hm]; exact (hs .ErrInvalidBody).1,
    by rw [hm]; exact (hs .ErrInvalidBody).2, ?_, ?_⟩
  · unfold binding.handleBindingErrors
    simp only []
    split_ifs <;> simp [setMessage_message, hj]
  · intro ht rest2
    unfold binding.handleBindingErrors
    simp only []
    rcases ht with ht | ht | ht | ht <;> simp [ht]

theorem binding_error_message_witness :
    (binding.handleBindingErrors (.fields
        [{ Namespace := "CreateCompanyRequest.amount_employees", Field := "amount_employees",
           Tag := "required", Type_ := "*int" }]) initial).1 =
      .returns (.api .ErrInvalidBody) ∧
    ((binding.handleBindingErrors (.fields
        [{ Namespace := "CreateCompanyRequest.amount_employees", Field := "amount_employees",
           Tag := "required", Type_ := "*int" }]) initial).2 .ErrInvalidBody).Code =
      "INVALID_BODY" ∧
    ((binding.handleBindingErrors (.fields
        [{ Namespace := "CreateCompanyRequest.amount_employees", Field := "amount_employees",
           Tag := "required", Type_ := "*int" }]) initial).2 .ErrInvalidBody).HTTPStatus =
      400 ∧
    ((binding.handleBindingErrors (.fields
        [{ Namespace := "CreateCompanyRequest.amount_employees", Field := "amount_employees",
           Tag := "required", Type_ := "*int" }]) initial).2 .ErrInvalidBody).Message =
      (if ("required" : String) = "required" then
         "amount_employees" ++ " is required and must be a " ++ "*int"
       else if ("required" : String) = "oneof" then
         "amount_employees" ++ " must be one of: " ++ strings.Join (strings.Split "" " ") ", "
       else if ("required" : String) = "customOneOf" then
         "amount_employees" ++ " must be one of: " ++
           "Corporations, NonProfit, Cooperative, Sole Proprietorship"
       else if ("required" : String) = "email" then
         "amount_employees" ++ " must be a valid email address"
       else validator.ValidationErrors.Error
         [{ Namespace := "CreateCompanyRequest.amount_employees", Field := "amount_employees",
            Tag := "required", Type_ := "*int" }]) ∧
    (("required" : String) = "required" ∨ ("required" : String) = "oneof" ∨
        ("required" : String) = "customOneOf" ∨ ("required" : String) = "email" →
      ∀ rest2, binding.handleBindingErrors (.fields
          ({ Namespace := "CreateCompanyRequest.amount_employees",
             Field := "amount_employees", Tag := "required", Type_ := "*int" } :: rest2))
          initial =
        binding.handleBindingErrors (.fields
          [{ Namespace := "CreateCompanyRequest.amount_employees",
             Field := "amount_employees", Tag := "required", Type_ := "*int" }]) initial) :=
  binding_error_message
    { Namespace := "CreateCompanyRequest.amount_employees", Field := "amount_employees",
      Tag := "required", Type_ := "*int" } [] initial stable_initial

/-! ## Registration -/

/-- `Register` is one application of the adapter's `CreateUser`. -/
theorem register_eq {σ : Type} (H : crypto.Primitives)
    (CreateUser : models.UserModel → σ → Sentinels → Option GoError × σ × Sentinels)
    (id : uuid.UUID) (email password : String) (st : σ) (g : Sentinels) :
    auth.Register H CreateUser id email password st g =
      CreateUser { ID := id, Email := email, EncPassword := crypto.Md5Hash H password }
        st g := by
  unfold auth.Register
  simp only []
  rcases h : CreateUser
      { ID := id, Email := email, EncPassword := crypto.Md5Hash H password } st g with
    ⟨e, st1, g1⟩
  cases e <;> rfl

/-- `CreateUser` on a working database without a row for the email appends the row. -/
theorem createUser_fresh (user : models.UserModel) (p : postgres.Pool) (g : Sentinels)
    (hf : p.fault = none) (hn : ∀ u ∈ p.users, u.Email ≠ user.Email) :
    postgres.CreateUser user p g = (none, { p with users := p.users ++ [user] }, g) := by
  have hany : (p.users.any fun u => decide (u.Email = user.Email)) = false := by
    rw [List.any_eq_false]
    intro u hu
    simpa using hn u hu
  simp [postgres.CreateUser, postgres.insertUser, hf, hany]

/-- `CreateUser` on a working database with a row for the email returns
`ErrUserAlreadyExists` and stores nothing. -/
theorem createUser_conflict (user : models.UserModel) (p : postgres.Pool) (g : Sentinels)
    (hf : p.fault = none) (hex : ∃ u ∈ p.users, u.Email = user.Email) :
    postgres.CreateUser user p g =
      (some (.api .ErrUserAlreadyExists), p,
        setMessage g .ErrUserAlreadyExists
          ("user with email '" ++ user.Email ++ "' already exists")) := by
  have hany : (p.users.any fun u => decide (u.Email = user.Email)) = true := by
    rw [List.any_eq_true]
    obtain ⟨u, hu, he⟩ := hex
    exact ⟨u, hu, by simpa using he⟩
  simp [postgres.CreateUser, postgres.insertUser, hf, hany]

/-- `CreateUser` when the round trip fails returns `ErrInternalServer`. -/
theorem createUser_fault (user : models.UserModel) (p : postgres.Pool) (g : Sentinels)
    (err : String) (hf : p.fault = some err) :
    postgres.CreateUser user p g =
      (some (.api .ErrInternalServer), p,
        setMessage g .ErrInternalServer ("failed to create user: " ++ err)) := by
  simp [postgres.CreateUser, postgres.insertUser, hf]

/-- C11: for every email and password, `Register` makes exactly one `CreateUser`
call, with a user whose `Email` equals email and whose `EncPassword` equals
`Md5Hash(password)` (equal passwords give equal digests), and returns exactly what
the store returns. On the database: nil on success, so that registering the same
email a second time (with any password and id) fails with `ErrUserAlreadyExists`
(code `USER_ALREADY_EXISTS`, status 400) and stores nothing; `ErrInternalServer`
(status 500) when the round trip fails. -/
theorem register_contract (H : crypto.Primitives) (p : postgres.Pool) (g : Sentinels)
    (id1 id2 : uuid.UUID) (email password1 password2 : String) (hg : Stable g) :
    (∀ (σ : Type)
        (CreateUser : models.UserModel → σ → Sentinels → Option GoError × σ × Sentinels)
        (st : σ),
      auth.Register H CreateUser id1 email password1 st g =
        CreateUser { ID := id1, Email := email,
                     EncPassword := crypto.Md5Hash H password1 } st g) ∧
    (password1 = password2 → crypto.Md5Hash H password1 = crypto.Md5Hash H password2) ∧
    (p.fault = none → (∀ u ∈ p.users, u.Email ≠ email) →
      ∃ p1, auth.Register H postgres.CreateUser id1 email password1 p g = (none, p1, g) ∧
        p1.users = p.users ++ [{ ID := id1, Email := email,
                                 EncPassword := crypto.Md5Hash H password1 }] ∧
        ∃ g2, auth.Register H postgres.CreateUser id2 email password2 p1 g =
            (some (.api .ErrUserAlreadyExists), p1, g2) ∧
          (g2 .ErrUserAlreadyExists).Code = "USER_ALREADY_EXISTS" ∧
          (g2 .ErrUserAlreadyExists).HTTPStatus = 400) ∧
    (∀ err, p.fault = some err →
      ∃ g2, auth.Register H postgres.CreateUser id1 email password1 p g =
          (some (.api .ErrInternalServer), p, g2) ∧
        (g2 .ErrInternalServer).Code = "INTERNAL_SERVER_ERROR" ∧
        (g2 .ErrInternalServer).HTTPStatus = 500) := by
  refine ⟨fun σ CreateUser st => register_eq H CreateUser id1 email password1 st g,
    fun h => by rw [h], ?_, ?_⟩
  · intro hf hn
    refine ⟨{ p with users := p.users ++
        [{ ID := id1, Email := email, EncPassword := crypto.Md5Hash H password1 }] },
      ?_, rfl, ?_⟩
    · rw [register_eq]
      exact createUser_fresh _ p g hf hn
    · have hs := stable_setMessage hg .ErrUserAlreadyExists
        ("user with email '" ++ email ++ "' already exists")
      refine ⟨_, ?_, (hs .ErrUserAlreadyExists).1, (hs .ErrUserAlreadyExists).2⟩
      rw [register_eq]
      exact createUser_conflict _ _ g hf
        ⟨{ ID := id1, Email := email, EncPassword := crypto.Md5Hash H password1 },
          by simp, rfl⟩
  · intro err hf
    have hs := stable_setMessage hg .ErrInternalServer ("failed to create user: " ++ err)
    refine ⟨_, ?_, (hs .ErrInternalServer).1, (hs .ErrInternalServer).2⟩
    rw [register_eq]
    exact createUser_fault _ p g err hf

theorem register_contract_witness :
    (∀ (σ : Type)
        (CreateUser : models.UserModel → σ → Sentinels → Option GoError × σ × Sentinels)
        (st : σ),
      auth.Register sample.hash CreateUser sample.nilUUID "x@y.z" "password" st initial =
        CreateUser { ID := sample.nilUUID, Email := "x@y.z",
                     EncPassword := crypto.Md5Hash sample.hash "password" } st initial) ∧
    (("password" : String) = "password" →
      crypto.Md5Hash sample.hash "password" = crypto.Md5Hash sample.hash "password") ∧
    (sample.pool.fault = none → (∀ u ∈ sample.pool.users, u.Email ≠ "x@y.z") →
      ∃ p1, auth.Register sample.hash postgres.CreateUser sample.nilUUID "x@y.z" "password"
          sample.pool initial = (none, p1, initial) ∧
        p1.users = sample.pool.users ++
          [{ ID := sample.nilUUID, Email := "x@y.z",
             EncPassword := crypto.Md5Hash sample.hash "password" }] ∧
        ∃ g2, auth.Register sample.hash postgres.CreateUser sample.nilUUID "x@y.z" "password"
            p1 initial = (some (.api .ErrUserAlreadyExists), p1, g2) ∧
          (g2 .ErrUserAlreadyExists).Code = "USER_ALREADY_EXISTS" ∧
          (g2 .ErrUserAlreadyExists).HTTPStatus = 400) ∧
    (∀ err, sample.pool.fault = some err →
      ∃ g2, auth.Register sample.hash postgres.CreateUser sample.nilUUID "x@y.z" "password"
          sample.pool initial = (some (.api .ErrInternalServer), sample.pool, g2) ∧
        (g2 .ErrInternalServer).Code = "INTERNAL_SERVER_ERROR" ∧
        (g2 .ErrInternalServer).HTTPStatus = 500) :=
  register_contract sample.hash sample.pool initial sample.nilUUID sample.nilUUID "x@y.z"
    "password" "password" stable_initial

/-! ## The company resolver -/

set_option maxRecDepth 100000 in
/-- The two digits `UUID.String` writes for a byte are ASCII, and `xtob` reads the
byte back from them. -/
theorem hex_pair (b : Fin 256) :
    uuid.utf8 (uuid.hexDigit (b.val / 16)) = [(uuid.hexDigit (b.val / 16)).toNat] ∧
    uuid.utf8 (uuid.hexDigit (b.val % 16)) = [(uuid.hexDigit (b.val % 16)).toNat] ∧
    uuid.xtob (uuid.hexDigit (b.val / 16)).toNat (uuid.hexDigit (b.val % 16)).toNat =
      some b := by
  revert b
  decide

/-- `uuid.Parse` reads back what `UUID.String` writes. -/
theorem parse_string (u : uuid.UUID) : uuid.Parse u.String = some u := by
  obtain ⟨l, hl⟩ := u
  match l, hl with
  | [b0, b1, b2, b3, b4, b5, b6, b7, b8, b9, b10, b11, b12, b13, b14, b15], _ =>
    have hd : uuid.utf8 '-' = [45] := by decide
    simp only [uuid.Parse, uuid.UUID.String, uuid.bytes, uuid.encodeHex, List.take, List.drop,
      List.flatMap_cons, List.flatMap_nil, List.append_nil, List.cons_append, List.nil_append,
      List.append_assoc, (hex_pair _).1, (hex_pair _).2.1, hd, List.length_cons,
      List.length_nil]
    simp [uuid.parseHyphenated, uuid.offsets, uuid.collect, (hex_pair _).2.2, uuid.ofList]

/-- A successful `CreateCompany` of the adapter ran on a working database and
appended the row. -/
theorem pg_createCompany_ok (m : models.CompanyModel) (p p1 : postgres.Pool)
    (g g1 : Sentinels) (h : postgres.CreateCompany m p g = (none, p1, g1)) :
    p.fault = none ∧ p1 = { p with companies := p.companies ++ [m] } ∧ g1 = g := by
  unfold postgres.CreateCompany postgres.insertCompany at h
  cases hf : p.fault with
  | some err => rw [hf] at h; simp at h
  | none =>
    rw [hf] at h
    simp only [] at h
    cases hc : p.companyCheck p.companies m with
    | some err => rw [hc] at h; simp at h
    | none =>
      rw [hc] at h
      simp only [Prod.mk.injEq, true_and] at h
      exact ⟨rfl, h.1.symm, h.2.symm⟩

/-- `GetCompanyByID` of the adapter on a working database, for an id the server
reads: the first row with that id, or `ErrCompanyNotFound`. -/
theorem pg_getCompany (uuid_in : String → Option uuid.UUID) (p : postgres.Pool)
    (id : String) (u : uuid.UUID) (g : Sentinels) (hf : p.fault = none)
    (hin : uuid_in id = some u) :
    postgres.GetCompanyByID uuid_in p id g =
      match p.companies.filter fun c => decide (c.ID = u) with
      | [] => (.error (.api .ErrCompanyNotFound),
          setMessage g .ErrCompanyNotFound ("company with id '" ++ id ++ "' not found"))
      | c :: _ => (.ok c, g) := by
  unfold postgres.GetCompanyByID postgres.selectCompanyByID
  rw [hf, hin]
  simp only []
  cases p.companies.filter fun c => decide (c.ID = u) <;> rfl

/-- The resolver's `GetCompanyByID` for an id that parses is the adapter's. -/
theorem getCompanyByID_parsed
    (dbGet : String → Sentinels → Except GoError models.CompanyModel × Sentinels)
    (id : String) (g : Sentinels) (h : uuid.Parse id ≠ none) :
    company.GetCompanyByID dbGet id g = dbGet id g := by
  unfold company.GetCompanyByID
  cases hp : uuid.Parse id with
  | none => exact absurd hp h
  | some u =>
    simp only []
    rcases hd : dbGet id g with ⟨r, g1⟩
    cases r <;> rfl

/-- C13: create/get round trip. For every input whose `AmountEmployees` and
`Registered` are present, `CreateCompany` hands to the adapter exactly the record
made of the generated id and the five fields of the input, and when the adapter
succeeds returns that record. On the database, with an id no stored company has
and that the server reads back from its text, the record is appended to the table
and a following `GetCompanyByID` on the text of the returned id yields the same
record: the same ID and the same five fields. -/
theorem create_then_get (uuid_in : String → Option uuid.UUID) (p p1 : postgres.Pool)
    (id : uuid.UUID) (input : inputs.CreateCompanyInput) (g g1 : Sentinels) (n : Int)
    (b : Bool) (m : models.CompanyModel)
    (hA : input.AmountEmployees = some n) (hR : input.Registered = some b)
    (hfresh : ∀ c ∈ p.companies, c.ID ≠ id) (hin : uuid_in id.String = some id)
    (hc : company.CreateCompany postgres.CreateCompany id input p g =
      (.returns (.ok m), p1, g1)) :
    m = { ID := id, Name := input.Name, Description := input.Description,
          AmountEmployees := n, Registered := b, Type_ := input.Type_ } ∧
    (∀ (σ : Type)
        (db : models.CompanyModel → σ → Sentinels → Option GoError × σ × Sentinels) (st : σ),
      company.CreateCompany db id input st g =
        match db m st g with
        | (some err, st, g) => (.returns (.error err), st, g)
        | (none, st, g) => (.returns (.ok m), st, g)) ∧
    p1.companies = p.companies ++ [m] ∧
    company.GetCompanyByID (postgres.GetCompanyByID uuid_in p1) m.ID.String g1 =
      (.ok m, g1) := by
  have hm : m = { ID := id, Name := input.Name, Description := input.Description,
                  AmountEmployees := n, Registered := b, Type_ := input.Type_ } ∧
      postgres.CreateCompany m p g = (none, p1, g1) := by
    unfold company.CreateCompany at hc
    rw [hA, hR] at hc
    simp only [] at hc
    rcases hdb : postgres.CreateCompany
        { ID := id, Name := input.Name, Description := input.Description,
          AmountEmployees := n, Registered := b, Type_ := input.Type_ } p g with
      ⟨e, p2, g2⟩
    rw [hdb] at hc
    cases e with
    | some err => simp at hc
    | none =>
      simp only [Prod.mk.injEq, Panics.returns.injEq, Except.ok.injEq] at hc
      obtain ⟨h1, h2, h3⟩ := hc
      subst h1 h2 h3
      exact ⟨rfl, hdb⟩
  obtain ⟨hm1, hm2⟩ := hm
  obtain ⟨hf, hp1, _⟩ := pg_createCompany_ok m p p1 g g1 hm2
  have hid : m.ID = id := by rw [hm1]
  refine ⟨hm1, ?_, by rw [hp1], ?_⟩
  · intro σ db st
    unfold company.CreateCompany
    rw [hA, hR, hm1]
  · rw [getCompanyByID_parsed _ _ _ (by rw [parse_string]; simp)]
    have hf1 : p1.fault = none := by rw [hp1]; exact hf
    rw [hid, pg_getCompany uuid_in p1 id.String id g1 hf1 hin]
    have hfil : (p1.companies.filter fun c => decide (c.ID = id)) = [m] := by
      rw [hp1]
      have h0 : (p.companies.filter fun c => decide (c.ID = id)) = [] := by
        rw [List.filter_eq_nil_iff]
        intro c hc2
        simpa using hfresh c hc2
      simp [List.filter_append, h0, hid]
    rw [hfil]

theorem create_then_get_witness :
    (⟨sample.nilUUID, "Acme", "", 10, true, "Corporations"⟩ : models.CompanyModel) =
      { ID := sample.nilUUID, Name := "Acme", Description := "",
        AmountEmployees := 10, Registered := true, Type_ := "Corporations" } ∧
    (∀ (σ : Type)
        (db : models.CompanyModel → σ → Sentinels → Option GoError × σ × Sentinels) (st : σ),
      company.CreateCompany db sample.nilUUID
          { Name := "Acme", AmountEmployees := some 10, Registered := some true,
            Type_ := "Corporations" } st initial =
        match db ⟨sample.nilUUID, "Acme", "", 10, true, "Corporations"⟩ st initial with
        | (some err, st, g) => (.returns (.error err), st, g)
        | (none, st, g) =>
          (.returns (.ok ⟨sample.nilUUID, "Acme", "", 10, true, "Corporations"⟩), st, g)) ∧
    ({ sample.pool with
        companies := sample.pool.companies ++
          [⟨sample.nilUUID, "Acme", "", 10, true, "Corporations"⟩] } : postgres.Pool).companies =
      sample.pool.companies ++ [⟨sample.nilUUID, "Acme", "", 10, true, "Corporations"⟩] ∧
    company.GetCompanyByID
        (postgres.GetCompanyByID uuid.Parse
          { sample.pool with
            companies := sample.pool.companies ++
              [⟨sample.nilUUID, "Acme", "", 10, true, "Corporations"⟩] })
        (uuid.UUID.String sample.nilUUID) initial =
      (.ok ⟨sample.nilUUID, "Acme", "", 10, true, "Corporations"⟩, initial) :=
  create_then_get uuid.Parse sample.pool
    { sample.pool with
      companies := sample.pool.companies ++
        [⟨sample.nilUUID, "Acme", "", 10, true, "Corporations"⟩] }
    sample.nilUUID
    { Name := "Acme", AmountEmployees := some 10, Registered := some true,
      Type_ := "Corporations" }
    initial initial 10 true ⟨sample.nilUUID, "Acme", "", 10, true, "Corporations"⟩
    rfl rfl (by decide) (parse_string _) rfl

/-- Replacing the rows with an id no row has changes nothing. -/
theorem map_replace_absent (l : List models.CompanyModel) (u : uuid.UUID)
    (m : models.CompanyModel) (h : ∀ c ∈ l, c.ID ≠ u) :
    (l.map fun c => if c.ID = u then m else c) = l := by
  induction l with
  | nil => rfl
  | cons a t ih =>
    have ha : a.ID ≠ u := h a (List.mem_cons_self _ _)
    have ht := ih fun c hc => h c (List.mem_cons_of_mem _ hc)
    simp [ha, ht]

/-- After replacing the rows with the id `u` by `m`, whose id is `u`, the rows with
that id are copies of `m`, and there is one if there was one before. -/
theorem filter_map_replace (l : List models.CompanyModel) (u : uuid.UUID)
    (m : models.CompanyModel) (hm : m.ID = u) (hex : ∃ c ∈ l, c.ID = u) :
    ∃ rest, ((l.map fun c => if c.ID = u then m else c).filter
      fun c => decide (c.ID = u)) = m :: rest := by
  have hmem : m ∈ (l.map fun c => if c.ID = u then m else c).filter
      fun c => decide (c.ID = u) := by
    obtain ⟨c0, hc0, hc0u⟩ := hex
    rw [List.mem_filter]
    exact ⟨List.mem_map.mpr ⟨c0, hc0, by simp [hc0u]⟩, by simp [hm]⟩
  have hall : ∀ x ∈ (l.map fun c => if c.ID = u then m else c).filter
      fun c => decide (c.ID = u), x = m := by
    intro x hx
    rw [List.mem_filter, List.mem_map] at hx
    obtain ⟨⟨c, _, hcx⟩, hxu⟩ := hx
    by_cases hcu : c.ID = u
    · rw [if_pos hcu] at hcx; exact hcx.symm
    · rw [if_neg hcu] at hcx
      subst hcx
      exact absurd (by simpa using hxu) hcu
  cases hl : (l.map fun c => if c.ID = u then m else c).filter
      fun c => decide (c.ID = u) with
  | nil => rw [hl] at hmem; cases hmem
  | cons x rest =>
    have hx := hall x (by rw [hl]; exact List.mem_cons_self _ _)
    exact ⟨rest, by rw [hx]⟩

/-- A successful `UpdateCompany` of the adapter, for an id the server reads, ran on
a working database and replaced the five columns of every row with that id. -/
theorem pg_updateCompany_ok (uuid_in : String → Option uuid.UUID) (cid : String)
    (u : uuid.UUID) (m : models.CompanyModel) (p p1 : postgres.Pool) (g g1 : Sentinels)
    (hin : uuid_in cid = some u)
    (h : postgres.UpdateCompany uuid_in cid m p g = (none, p1, g1)) :
    p.fault = none ∧ g1 = g ∧
      p1 = { p with companies := p.companies.map fun c =>
               if c.ID = u then { m with ID := u } else c } := by
  obtain ⟨users, fault, companies, check, evts, evtCheck⟩ := p
  unfold postgres.UpdateCompany postgres.updateCompanyRows at h
  simp only [hin] at h
  cases fault with
  | some err => simp at h
  | none =>
    simp only [] at h
    by_cases hany : (companies.any fun c => decide (c.ID = u)) = true
    · rw [if_pos hany] at h
      cases hc : check (companies.filter fun c => decide (c.ID ≠ u)) { m with ID := u } with
      | some err => rw [hc] at h; simp at h
      | none =>
        rw [hc] at h
        simp only [Prod.mk.injEq, true_and] at h
        exact ⟨rfl, h.2.symm, h.1.symm⟩
    · rw [if_neg hany] at h
      simp only [Prod.mk.injEq, true_and] at h
      refine ⟨rfl, h.2.symm, ?_⟩
      have hall : ∀ c ∈ companies, c.ID ≠ u := by
        intro c hc heq
        exact hany (List.any_eq_true.mpr ⟨c, hc, by simpa using heq⟩)
      rw [← h.1]
      simp only [map_replace_absent companies u _ hall]

/-- What a returning `UpdateCompany` of the resolver did: the id parsed, both
pointers were set, and the adapter was called once with the record built from the
parsed id and the input. -/
theorem updateCompany_returns {σ : Type}
    (db : String → models.CompanyModel → σ → Sentinels → Option GoError × σ × Sentinels)
    (cid : String) (input : inputs.UpdateCompany) (st st1 : σ) (g g1 : Sentinels)
    (n : Int) (b : Bool) (hA : input.AmountEmployees = some n)
    (hR : input.Registered = some b) (e : Option GoError)
    (h : company.UpdateCompany db cid input st g = (.returns e, st1, g1))
    (hne : e ≠ some (.api .ErrInvalidUUID) ∨ uuid.Parse cid ≠ none) :
    ∃ v, uuid.Parse cid = some v ∧
      db cid
          { ID := v, Name := input.Name, Description := input.Description,
            AmountEmployees := n, Registered := b, Type_ := input.Type_ } st g =
        (e, st1, g1) := by
  unfold company.UpdateCompany at h
  cases hp : uuid.Parse cid with
  | none =>
    rw [hp] at h
    simp only [Prod.mk.injEq, Panics.returns.injEq] at h
    rcases hne with hne | hne
    · exact absurd h.1.symm hne
    · exact absurd hp hne
  | some v =>
    rw [hp, hA, hR] at h
    simp only [] at h
    refine ⟨v, rfl, ?_⟩
    rcases hdb : db cid
        { ID := v, Name := input.Name, Description := input.Description,
          AmountEmployees := n, Registered := b, Type_ := input.Type_ } st g with
      ⟨e2, st2, g2⟩
    rw [hdb] at h
    cases e2 <;> simp only [Prod.mk.injEq, Panics.returns.injEq] at h <;>
      obtain ⟨h1, h2, h3⟩ := h <;> subst h1 h2 h3 <;> rfl

/-- C14: update is a full replace that keeps identity. For every id that the server
reads as the id of a stored company and every update input (both pointers set),
after `UpdateCompany(id, input)` succeeds, `GetCompanyByID(id)` returns the record
with that company's ID whose Name, Description, AmountEmployees, Registered and
Type are those of the input; the rows of other companies are unchanged, in place. -/
theorem update_then_get (uuid_in : String → Option uuid.UUID) (p p1 : postgres.Pool)
    (cid : String) (u : uuid.UUID) (input : inputs.UpdateCompany) (g g1 : Sentinels)
    (n : Int) (b : Bool)
    (hA : input.AmountEmployees = some n) (hR : input.Registered = some b)
    (hin : uuid_in cid = some u) (hex : ∃ c ∈ p.companies, c.ID = u)
    (hu : company.UpdateCompany (postgres.UpdateCompany uuid_in) cid input p g =
      (.returns none, p1, g1)) :
    company.GetCompanyByID (postgres.GetCompanyByID uuid_in p1) cid g1 =
      (.ok { ID := u, Name := input.Name, Description := input.Description,
             AmountEmployees := n, Registered := b, Type_ := input.Type_ }, g1) ∧
    p1.companies = p.companies.map (fun c =>
      if c.ID = u then
        { ID := u, Name := input.Name, Description := input.Description,
          AmountEmployees := n, Registered := b, Type_ := input.Type_ }
      else c) ∧
    (∀ c ∈ p.companies, c.ID ≠ u → c ∈ p1.companies) := by
  obtain ⟨v, hpv, hdb⟩ := updateCompany_returns _ cid input p p1 g g1 n b hA hR none hu
    (Or.inl (by simp))
  obtain ⟨hf, _, hp1⟩ := pg_updateCompany_ok uuid_in cid u _ p p1 g g1 hin hdb
  have hcomp : p1.companies = p.companies.map (fun c =>
      if c.ID = u then
        (⟨u, input.Name, input.Description, n, b, input.Type_⟩ : models.CompanyModel)
      else c) := by rw [hp1]
  have hf1 : p1.fault = none := by rw [hp1]; exact hf
  refine ⟨?_, hcomp, ?_⟩
  · rw [getCompanyByID_parsed _ _ _ (by rw [hpv]; simp),
      pg_getCompany uuid_in p1 cid u g1 hf1 hin, hcomp]
    obtain ⟨rest, hrest⟩ := filter_map_replace p.companies u
      ⟨u, input.Name, input.Description, n, b, input.Type_⟩ rfl hex
    rw [hrest]
  · intro c hc hcu
    rw [hcomp]
    exact List.mem_map.mpr ⟨c, hc, by simp [hcu]⟩

theorem update_then_get_witness :
    company.GetCompanyByID
        (postgres.GetCompanyByID uuid.Parse
          { sample.store with companies := [sample.beta, sample.coop] })
        sample.nilText initial =
      (.ok { ID := sample.nilUUID, Name := sample.update.Name,
             Description := sample.update.Description, AmountEmployees := 0,
             Registered := false, Type_ := sample.update.Type_ }, initial) ∧
    ({ sample.store with companies := [sample.beta, sample.coop] } : postgres.Pool).companies =
      sample.store.companies.map (fun c =>
        if c.ID = sample.nilUUID then
          { ID := sample.nilUUID, Name := sample.update.Name,
            Description := sample.update.Description, AmountEmployees := 0,
            Registered := false, Type_ := sample.update.Type_ }
        else c) ∧
    (∀ c ∈ sample.store.companies, c.ID ≠ sample.nilUUID →
      c ∈ ({ sample.store with companies := [sample.beta, sample.coop] } :
        postgres.Pool).companies) :=
  update_then_get uuid.Parse sample.store
    { sample.store with companies := [sample.beta, sample.coop] }
    sample.nilText sample.nilUUID sample.update initial initial 0 false rfl rfl
    (by decide) ⟨sample.acme, by decide, rfl⟩ rfl

/-- A successful `DeleteCompany` of the adapter, for an id the server reads, ran on
a working database and removed every row with that id. -/
theorem pg_deleteCompany_ok (uuid_in : String → Option uuid.UUID) (cid : String)
    (u : uuid.UUID) (p p1 : postgres.Pool) (g g1 : Sentinels)
    (hin : uuid_in cid = some u)
    (h : postgres.DeleteCompany uuid_in cid p g = (none, p1, g1)) :
    p.fault = none ∧ g1 = g ∧
      p1 = { p with companies := p.companies.filter fun c => decide (c.ID ≠ u) } := by
  obtain ⟨users, fault, companies, check, evts, evtCheck⟩ := p
  unfold postgres.DeleteCompany postgres.deleteCompanyRows at h
  simp only [hin] at h
  cases fault with
  | some err => simp at h
  | none =>
    simp only [Prod.mk.injEq, true_and] at h
    exact ⟨rfl, h.2.symm, h.1.symm⟩

/-- The resolver's `DeleteCompany` for an id that parses is the adapter's. -/
theorem deleteCompany_parsed {σ : Type}
    (db : String → σ → Sentinels → Option GoError × σ × Sentinels)
    (cid : String) (st : σ) (g : Sentinels) (h : uuid.Parse cid ≠ none) :
    company.DeleteCompany db cid st g = db cid st g := by
  unfold company.DeleteCompany
  cases hp : uuid.Parse cid with
  | none => exact absurd hp h
  | some u =>
    simp only []
    rcases hd : db cid st g with ⟨e, st1, g1⟩
    cases e <;> rfl

/-- C15: for every id that the server reads as a company id (that of a stored
company in particular), after `DeleteCompany(id)` succeeds, `GetCompanyByID(id)` fails with `ErrCompanyNotFound`
(code `COMPANY_NOT_FOUND`, status 400); the rows of every other company are still
stored, and `GetCompanyByID` for any id that reads as another company's answers as
it did before. -/
theorem delete_then_get (uuid_in : String → Option uuid.UUID) (p p1 : postgres.Pool)
    (cid : String) (u : uuid.UUID) (g g1 : Sentinels) (hg : Stable g)
    (hin : uuid_in cid = some u)
    (hd : company.DeleteCompany (postgres.DeleteCompany uuid_in) cid p g = (none, p1, g1)) :
    (∃ g2, company.GetCompanyByID (postgres.GetCompanyByID uuid_in p1) cid g1 =
        (.error (.api .ErrCompanyNotFound), g2) ∧
      (g2 .ErrCompanyNotFound).Code = "COMPANY_NOT_FOUND" ∧
      (g2 .ErrCompanyNotFound).HTTPStatus = 400) ∧
    p1.companies = p.companies.filter (fun c => decide (c.ID ≠ u)) ∧
    (∀ cid2 u2, uuid_in cid2 = some u2 → u2 ≠ u →
      company.GetCompanyByID (postgres.GetCompanyByID uuid_in p1) cid2 g1 =
        company.GetCompanyByID (postgres.GetCompanyByID uuid_in p) cid2 g1) := by
  have hparse : uuid.Parse cid ≠ none := by
    intro hp
    simp [company.DeleteCompany, hp] at hd
  rw [deleteCompany_parsed _ _ _ _ hparse] at hd
  obtain ⟨hf, hg1, hp1⟩ := pg_deleteCompany_ok uuid_in cid u p p1 g g1 hin hd
  have hf1 : p1.fault = none := by rw [hp1]; exact hf
  have hcomp : p1.companies = p.companies.filter (fun c => decide (c.ID ≠ u)) := by rw [hp1]
  refine ⟨?_, hcomp, ?_⟩
  · have hs := stable_setMessage (hg1 ▸ hg) .ErrCompanyNotFound
      ("company with id '" ++ cid ++ "' not found")
    refine ⟨_, ?_, (hs .ErrCompanyNotFound).1, (hs .ErrCompanyNotFound).2⟩
    rw [getCompanyByID_parsed _ _ _ hparse, pg_getCompany uuid_in p1 cid u g1 hf1 hin, hcomp]
    have hnil : ((p.companies.filter fun c => decide (c.ID ≠ u)).filter
        fun c => decide (c.ID = u)) = [] := by
      rw [List.filter_eq_nil_iff]
      intro c hc
      rw [List.mem_filter] at hc
      simpa using hc.2
    rw [hnil]
  · intro cid2 u2 hin2 hne
    have hsame : (p1.companies.filter fun c => decide (c.ID = u2)) =
        p.companies.filter fun c => decide (c.ID = u2) := by
      rw [hcomp, List.filter_filter]
      apply List.filter_congr
      intro c _
      by_cases hc : c.ID = u2
      · simp [hc, hne]
      · simp [hc]
    unfold company.GetCompanyByID
    rw [pg_getCompany uuid_in p1 cid2 u2 g1 hf1 hin2,
      pg_getCompany uuid_in p cid2 u2 g1 hf hin2, hsame]

theorem delete_then_get_witness :
    (∃ g2, company.GetCompanyByID
          (postgres.GetCompanyByID uuid.Parse { sample.store with companies := [sample.coop] })
          sample.nilText initial =
        (.error (.api .ErrCompanyNotFound), g2) ∧
      (g2 .ErrCompanyNotFound).Code = "COMPANY_NOT_FOUND" ∧
      (g2 .ErrCompanyNotFound).HTTPStatus = 400) ∧
    ({ sample.store with companies := [sample.coop] } : postgres.Pool).companies =
      sample.store.companies.filter (fun c => decide (c.ID ≠ sample.nilUUID)) ∧
    (∀ cid2 u2, uuid.Parse cid2 = some u2 → u2 ≠ sample.nilUUID →
      company.GetCompanyByID
          (postgres.GetCompanyByID uuid.Parse { sample.store with companies := [sample.coop] })
          cid2 initial =
        company.GetCompanyByID (postgres.GetCompanyByID uuid.Parse sample.store) cid2
          initial) :=
  delete_then_get uuid.Parse sample.store { sample.store with companies := [sample.coop] }
    sample.nilText sample.nilUUID initial initial stable_initial (by decide) rfl

/-- C16: for every id that parses and that the server reads as an id no stored
company has, on a working database `UpdateCompany` and `DeleteCompany` return nil
rather than `ErrCompanyNotFound` and leave the store and the error values as they
were. Neither checks prior existence: for an id that parses, `DeleteCompany` is
the adapter's `DeleteCompany` and `UpdateCompany` returns what the adapter's
`UpdateCompany` returns for the record built from the parsed id and the input. -/
theorem absent_id_is_noop (uuid_in : String → Option uuid.UUID) (p : postgres.Pool)
    (cid : String) (u v : uuid.UUID) (input : inputs.UpdateCompany) (g : Sentinels)
    (n : Int) (b : Bool)
    (hA : input.AmountEmployees = some n) (hR : input.Registered = some b)
    (hparse : uuid.Parse cid = some v) (hin : uuid_in cid = some u)
    (hf : p.fault = none) (hab : ∀ c ∈ p.companies, c.ID ≠ u) :
    company.UpdateCompany (postgres.UpdateCompany uuid_in) cid input p g =
      (.returns none, p, g) ∧
    company.DeleteCompany (postgres.DeleteCompany uuid_in) cid p g = (none, p, g) ∧
    (∀ (σ : Type) (db : String → σ → Sentinels → Option GoError × σ × Sentinels) (st : σ),
      company.DeleteCompany db cid st g = db cid st g) ∧
    (∀ (σ : Type)
        (db : String → models.CompanyModel → σ → Sentinels → Option GoError × σ × Sentinels)
        (st : σ),
      company.UpdateCompany db cid input st g =
        (.returns (db cid ⟨v, input.Name, input.Description, n, b, input.Type_⟩ st g).1,
          (db cid ⟨v, input.Name, input.Description, n, b, input.Type_⟩ st g).2)) := by
  have hgen : ∀ (σ : Type)
      (db : String → models.CompanyModel → σ → Sentinels → Option GoError × σ × Sentinels)
      (st : σ),
      company.UpdateCompany db cid input st g =
        (.returns (db cid ⟨v, input.Name, input.Description, n, b, input.Type_⟩ st g).1,
          (db cid ⟨v, input.Name, input.Description, n, b, input.Type_⟩ st g).2) := by
    intro σ db st
    unfold company.UpdateCompany
    rw [hparse, hA, hR]
    simp only []
    rcases hd : db cid ⟨v, input.Name, input.Description, n, b, input.Type_⟩ st g with
      ⟨e, st1, g1⟩
    cases e <;> rfl
  have hdel : ∀ (σ : Type) (db : String → σ → Sentinels → Option GoError × σ × Sentinels)
      (st : σ), company.DeleteCompany db cid st g = db cid st g :=
    fun σ db st => deleteCompany_parsed db cid st g (by rw [hparse]; simp)
  have hany : (p.companies.any fun c => decide (c.ID = u)) = false := by
    rw [List.any_eq_false]
    intro c hc
    simpa using hab c hc
  have hfil : (p.companies.filter fun c => decide (c.ID ≠ u)) = p.companies := by
    rw [List.filter_eq_self]
    intro c hc
    simpa using hab c hc
  refine ⟨?_, ?_, hdel, hgen⟩
  · rw [hgen]
    simp [postgres.UpdateCompany, postgres.updateCompanyRows, hf, hin, hany]
  · rw [hdel]
    obtain ⟨users, fault, companies, check, evts, evtCheck⟩ := p
    simp only at hf hfil
    subst hf
    simp only [postgres.DeleteCompany, postgres.deleteCompanyRows, hin]
    have hfil2 : (companies.filter fun c => !decide (c.ID = u)) = companies := by
      rw [← hfil]
      congr 1
      funext c
      simp
    simp [hfil2]

theorem absent_id_is_noop_witness :
    company.UpdateCompany (postgres.UpdateCompany uuid.Parse) sample.otherText sample.update
        sample.pool initial = (.returns none, sample.pool, initial) ∧
    company.DeleteCompany (postgres.DeleteCompany uuid.Parse) sample.otherText sample.pool
        initial = (none, sample.pool, initial) ∧
    (∀ (σ : Type) (db : String → σ → Sentinels → Option GoError × σ × Sentinels) (st : σ),
      company.DeleteCompany db sample.otherText st initial = db sample.otherText st initial) ∧
    (∀ (σ : Type)
        (db : String → models.CompanyModel → σ → Sentinels → Option GoError × σ × Sentinels)
        (st : σ),
      company.UpdateCompany db sample.otherText sample.update st initial =
        (.returns (db sample.otherText
            ⟨sample.otherUUID, sample.update.Name, sample.update.Description, 0, false,
              sample.update.Type_⟩ st initial).1,
          (db sample.otherText
            ⟨sample.otherUUID, sample.update.Name, sample.update.Description, 0, false,
              sample.update.Type_⟩ st initial).2)) :=
  absent_id_is_noop uuid.Parse sample.pool sample.otherText sample.otherUUID sample.otherUUID
    sample.update initial 0 false rfl rfl (by decide) (by decide) rfl (by decide)

/-! ## The company handlers -/

/-- When `DecodeJSONBody` returns nil, the body was decoded and passed validation. -/
theorem decodeJSONBody_ok {β : Type} (decode : String → json.Decoded β)
    (Struct : β → validator.ValidationErrors) (r : Request) (g g1 : Sentinels) (body : β)
    (h : binding.DecodeJSONBody decode Struct r g = (.returns (.ok body), g1)) :
    decode r.Body = .value body ∧ Struct body = [] ∧ g1 = g := by
  unfold binding.DecodeJSONBody at h
  cases hd : decode r.Body with
  | error msg => rw [hd] at h; simp at h
  | null => rw [hd] at h; simp [binding.handleBindingErrors] at h
  | value v =>
    rw [hd] at h
    simp only [] at h
    cases hs : Struct v with
    | nil =>
      rw [hs] at h
      simp only [Prod.mk.injEq, Panics.returns.injEq, Except.ok.injEq] at h
      obtain ⟨h1, h2⟩ := h
      subst h1
      exact ⟨rfl, hs, h2.symm⟩
    | cons fe rest =>
      rw [hs] at h
      obtain ⟨m, hm⟩ := handleBindingErrors_fields fe rest g
      simp only [hm] at h
      simp at h

/-- When the decoded body fails validation, `DecodeJSONBody` returns
`ErrInvalidBody`. -/
theorem decodeJSONBody_invalid {β : Type} (decode : String → json.Decoded β)
    (Struct : β → validator.ValidationErrors) (r : Request) (g : Sentinels) (body : β)
    (hd : decode r.Body = .value body) (hs : Struct body ≠ []) :
    ∃ m, binding.DecodeJSONBody decode Struct r g =
      (.returns (.error (.api .ErrInvalidBody)), setMessage g .ErrInvalidBody m) := by
  unfold binding.DecodeJSONBody
  rw [hd]
  simp only []
  cases hl : Struct body with
  | nil => exact absurd hl hs
  | cons fe rest =>
    obtain ⟨m, hm⟩ := handleBindingErrors_fields fe rest g
    exact ⟨m, by simp only [hm]⟩

/-- What a handler writes after `DecodeJSONBody` has returned `ErrInvalidBody`. -/
theorem invalidBody_outcome {σ : Type} (r : Request) (st : σ) (g : Sentinels)
    (hg : Stable g) :
    ∃ msg g2, handler.invalidBody r (.api .ErrInvalidBody) st g =
      { Response := some { Status := 400,
                           Body := [("code", .str "INVALID_BODY"), ("message", .str msg)] },
        Events := [], Store := st, Errors := g2 } := by
  have hs := stable_setMessage hg .ErrInvalidBody
    ("failed to decode request body: " ++ GoError.Error g (.api .ErrInvalidBody))
  refine ⟨"failed to decode request body: " ++ GoError.Error g (.api .ErrInvalidBody),
    setMessage g .ErrInvalidBody
      ("failed to decode request body: " ++ GoError.Error g (.api .ErrInvalidBody)), ?_⟩
  simp only [handler.invalidBody, handler.wrapError, render.Status, render.JSON, marshal_eq,
    (hs .ErrInvalidBody).1, (hs .ErrInvalidBody).2, setMessage_message]
  rfl

/-- C20: every company record that the createCompany and updateCompany handlers
hand to the storage adapter has a `Type` that is one of the four enum values: the
outcome of either handler is the same for any two adapters that agree on the
records with a valid type. A request that reaches the binding step (for
updateCompany: whose path id is non-empty and passes `uuid.Validate`) and whose
decoded type is any other string is answered with status 400 and code
`INVALID_BODY`; the store is left as it was and no event is started. -/
theorem company_type_invariant {σ : Type}
    (decode : String → json.Decoded schemas.CreateCompanyRequest)
    (cid eventID : uuid.UUID) (now : Time) (r : Request) (st : σ) (g : Sentinels)
    (hg : Stable g) :
    (∀ db1 db2 : models.CompanyModel → σ → Sentinels → Option GoError × σ × Sentinels,
      (∀ m, enum.CompanyType.IsValid m.Type_ = true → db1 m = db2 m) →
      handler.createCompany decode db1 cid eventID now r st g =
        handler.createCompany decode db2 cid eventID now r st g) ∧
    (∀ db1 db2 : String → models.CompanyModel → σ → Sentinels →
        Option GoError × σ × Sentinels,
      (∀ i m, enum.CompanyType.IsValid m.Type_ = true → db1 i m = db2 i m) →
      handler.updateCompany decode db1 eventID now r st g =
        handler.updateCompany decode db2 eventID now r st g) ∧
    (∀ (db : models.CompanyModel → σ → Sentinels → Option GoError × σ × Sentinels) b,
      decode r.Body = .value b → enum.CompanyType.IsValid b.Type_ = false →
      ∃ msg g2, handler.createCompany decode db cid eventID now r st g =
        { Response := some { Status := 400,
                             Body := [("code", .str "INVALID_BODY"), ("message", .str msg)] },
          Events := [], Store := st, Errors := g2 }) ∧
    (∀ (db : String → models.CompanyModel → σ → Sentinels → Option GoError × σ × Sentinels) b,
      r.URLParam "id" ≠ "" → uuid.Validate (r.URLParam "id") = true →
      decode r.Body = .value b → enum.CompanyType.IsValid b.Type_ = false →
      ∃ msg g2, handler.updateCompany decode db eventID now r st g =
        { Response := some { Status := 400,
                             Body := [("code", .str "INVALID_BODY"), ("message", .str msg)] },
          Events := [], Store := st, Errors := g2 }) := by
  have hbad : ∀ (name : String) (b : schemas.CreateCompanyRequest),
      enum.CompanyType.IsValid b.Type_ = false →
      validator.StructCompanyRequest name b ≠ [] := by
    intro name b hb hnil
    rw [structCompanyRequest_nil_iff] at hnil
    rw [hnil.2.2.2] at hb
    cases hb
  refine ⟨?_, ?_, ?_, ?_⟩
  · intro db1 db2 hdb
    unfold handler.createCompany
    rcases hdec : binding.DecodeJSONBody decode
        (validator.StructCompanyRequest "CreateCompanyRequest") r g with ⟨res, g1⟩
    cases res with
    | panic => rfl
    | returns e =>
      cases e with
      | error err => rfl
      | ok body =>
        obtain ⟨_, hs, _⟩ := decodeJSONBody_ok _ _ r g g1 body hdec
        have hv := ((structCompanyRequest_nil_iff _ body).mp hs).2.2.2
        simp only [company.CreateCompany]
        cases body.AmountEmployees <;> cases body.Registered <;> simp only []
        rw [hdb _ hv]
  · intro db1 db2 hdb
    unfold handler.updateCompany
    simp only []
    split_ifs
    · rfl
    · rfl
    · rcases hdec : binding.DecodeJSONBody decode
          (validator.StructCompanyRequest "UpdateCompanyRequest") r g with ⟨res, g1⟩
      cases res with
      | panic => rfl
      | returns e =>
        cases e with
        | error err => rfl
        | ok body =>
          obtain ⟨_, hs, _⟩ := decodeJSONBody_ok _ _ r g g1 body hdec
          have hv := ((structCompanyRequest_nil_iff _ body).mp hs).2.2.2
          simp only [company.UpdateCompany]
          cases uuid.Parse (r.URLParam "id") <;> simp only []
          cases body.AmountEmployees <;> cases body.Registered <;> simp only []
          rw [hdb _ _ hv]
  · intro db b hd hb
    obtain ⟨m, hm⟩ := decodeJSONBody_invalid decode
      (validator.StructCompanyRequest "CreateCompanyRequest") r g b hd (hbad _ b hb)
    unfold handler.createCompany
    rw [hm]
    exact invalidBody_outcome r st _ (stable_setMessage hg _ _)
  · intro db b hid hval hd hb
    obtain ⟨m, hm⟩ := decodeJSONBody_invalid decode
      (validator.StructCompanyRequest "UpdateCompanyRequest") r g b hd (hbad _ b hb)
    unfold handler.updateCompany
    simp only [hid, hval, if_false, Bool.not_true]
    rw [hm]
    exact invalidBody_outcome r st _ (stable_setMessage hg _ _)

theorem company_type_invariant_witness :
    (∀ db1 db2 : models.CompanyModel → postgres.Pool → Sentinels →
        Option GoError × postgres.Pool × Sentinels,
      (∀ m, enum.CompanyType.IsValid m.Type_ = true → db1 m = db2 m) →
      handler.createCompany sample.decodeLLC db1 sample.nilUUID sample.otherUUID 0 sample.put
          sample.store initial =
        handler.createCompany sample.decodeLLC db2 sample.nilUUID sample.otherUUID 0
          sample.put sample.store initial) ∧
    (∀ db1 db2 : String → models.CompanyModel → postgres.Pool → Sentinels →
        Option GoError × postgres.Pool × Sentinels,
      (∀ i m, enum.CompanyType.IsValid m.Type_ = true → db1 i m = db2 i m) →
      handler.updateCompany sample.decodeLLC db1 sample.otherUUID 0 sample.put sample.store
          initial =
        handler.updateCompany sample.decodeLLC db2 sample.otherUUID 0 sample.put sample.store
          initial) ∧
    (∀ (db : models.CompanyModel → postgres.Pool → Sentinels →
          Option GoError × postgres.Pool × Sentinels) b,
      sample.decodeLLC sample.put.Body = .value b →
      enum.CompanyType.IsValid b.Type_ = false →
      ∃ msg g2, handler.createCompany sample.decodeLLC db sample.nilUUID sample.otherUUID 0
          sample.put sample.store initial =
        { Response := some { Status := 400,
                             Body := [("code", .str "INVALID_BODY"), ("message", .str msg)] },
          Events := [], Store := sample.store, Errors := g2 }) ∧
    (∀ (db : String → models.CompanyModel → postgres.Pool → Sentinels →
          Option GoError × postgres.Pool × Sentinels) b,
      sample.put.URLParam "id" ≠ "" → uuid.Validate (sample.put.URLParam "id") = true →
      sample.decodeLLC sample.put.Body = .value b →
      enum.CompanyType.IsValid b.Type_ = false →
      ∃ msg g2, handler.updateCompany sample.decodeLLC db sample.otherUUID 0 sample.put
          sample.store initial =
        { Response := some { Status := 400,
                             Body := [("code", .str "INVALID_BODY"), ("message", .str msg)] },
          Events := [], Store := sample.store, Errors := g2 }) :=
  company_type_invariant sample.decodeLLC sample.nilUUID sample.otherUUID 0 sample.put
    sample.store initial stable_initial

/-! ## Event dispatch -/

/-- C21: for every event, `Dispatch` makes exactly one `CreateEvent` call, with the
record whose `Type`, `ID` and `EntityID` are the event's and whose `Timestamp` is
the event's time marked valid, and leaves the store as that call leaves it. It
returns nil iff that call returns nil, and otherwise returns `ErrCreatingEvent`
(code `CREATING_EVENT`, status 500) with a message that quotes the error of the
call; no other step of `Dispatch` can fail. -/
theorem dispatch_contract {σ : Type}
    (db : models.EventModel → σ → Sentinels → Option GoError × σ × Sentinels)
    (event : events.Event) (st : σ) (g : Sentinels)
    (hg : Stable (db ⟨event.Type_, ⟨event.Timestamp, 0, true⟩, event.ID, event.EntityID⟩
      st g).2.2) :
    ((events.Dispatch db event st g).1 = none ↔
      (db ⟨event.Type_, ⟨event.Timestamp, 0, true⟩, event.ID, event.EntityID⟩ st g).1 =
        none) ∧
    (events.Dispatch db event st g).2.1 =
      (db ⟨event.Type_, ⟨event.Timestamp, 0, true⟩, event.ID, event.EntityID⟩ st g).2.1 ∧
    ((db ⟨event.Type_, ⟨event.Timestamp, 0, true⟩, event.ID, event.EntityID⟩ st g).1 =
        none →
      events.Dispatch db event st g =
        db ⟨event.Type_, ⟨event.Timestamp, 0, true⟩, event.ID, event.EntityID⟩ st g) ∧
    (∀ err,
      (db ⟨event.Type_, ⟨event.Timestamp, 0, true⟩, event.ID, event.EntityID⟩ st g).1 =
        some err →
      (events.Dispatch db event st g).1 = some (.api .ErrCreatingEvent) ∧
      ((events.Dispatch db event st g).2.2 .ErrCreatingEvent).Code = "CREATING_EVENT" ∧
      ((events.Dispatch db event st g).2.2 .ErrCreatingEvent).HTTPStatus = 500 ∧
      ((events.Dispatch db event st g).2.2 .ErrCreatingEvent).Message =
        "failed to store event in database: " ++
          err.Error (db ⟨event.Type_, ⟨event.Timestamp, 0, true⟩, event.ID,
            event.EntityID⟩ st g).2.2) := by
  unfold events.Dispatch
  simp only []
  rcases hdb : db ⟨event.Type_, ⟨event.Timestamp, 0, true⟩, event.ID, event.EntityID⟩ st g with
    ⟨e, st1, g1⟩
  rw [hdb] at hg
  cases e with
  | none => simp
  | some err =>
    have hs := stable_setMessage hg .ErrCreatingEvent
      ("failed to store event in database: " ++ err.Error g1)
    simp only [reduceCtorEq, false_iff, not_false_eq_true, true_and, false_implies,
      Option.some.injEq, forall_eq', (hs .ErrCreatingEvent).1, (hs .ErrCreatingEvent).2,
      setMessage_message, and_true]
    exact ⟨rfl, rfl⟩

theorem dispatch_contract_witness :
    ((events.Dispatch postgres.CreateEvent sample.event sample.down initial).1 = none ↔
      (postgres.CreateEvent
        ⟨sample.event.Type_, ⟨sample.event.Timestamp, 0, true⟩, sample.event.ID,
          sample.event.EntityID⟩ sample.down initial).1 = none) ∧
    (events.Dispatch postgres.CreateEvent sample.event sample.down initial).2.1 =
      (postgres.CreateEvent
        ⟨sample.event.Type_, ⟨sample.event.Timestamp, 0, true⟩, sample.event.ID,
          sample.event.EntityID⟩ sample.down initial).2.1 ∧
    ((postgres.CreateEvent
        ⟨sample.event.Type_, ⟨sample.event.Timestamp, 0, true⟩, sample.event.ID,
          sample.event.EntityID⟩ sample.down initial).1 = none →
      events.Dispatch postgres.CreateEvent sample.event sample.down initial =
        postgres.CreateEvent
          ⟨sample.event.Type_, ⟨sample.event.Timestamp, 0, true⟩, sample.event.ID,
            sample.event.EntityID⟩ sample.down initial) ∧
    (∀ err,
      (postgres.CreateEvent
        ⟨sample.event.Type_, ⟨sample.event.Timestamp, 0, true⟩, sample.event.ID,
          sample.event.EntityID⟩ sample.down initial).1 = some err →
      (events.Dispatch postgres.CreateEvent sample.event sample.down initial).1 =
        some (.api .ErrCreatingEvent) ∧
      ((events.Dispatch postgres.CreateEvent sample.event sample.down initial).2.2
        .ErrCreatingEvent).Code = "CREATING_EVENT" ∧
      ((events.Dispatch postgres.CreateEvent sample.event sample.down initial).2.2
        .ErrCreatingEvent).HTTPStatus = 500 ∧
      ((events.Dispatch postgres.CreateEvent sample.event sample.down initial).2.2
        .ErrCreatingEvent).Message =
        "failed to store event in database: " ++
          err.Error (postgres.CreateEvent
            ⟨sample.event.Type_, ⟨sample.event.Timestamp, 0, true⟩, sample.event.ID,
              sample.event.EntityID⟩ sample.down initial).2.2) :=
  dispatch_contract postgres.CreateEvent sample.event sample.down initial
    (stable_setMessage stable_initial _ _)

/-! ## The error values -/

/-- C24: the predefined error values follow the taxonomy: `ErrInvalidBody`,
`ErrInvalidUUID`, `ErrCompanyIDRequired`, `ErrUserNotFound`,
`ErrUserAlreadyExists`, `ErrCompanyNotFound` and `ErrTokenNotFound` have status
400; `ErrInvalidCredentials`, `ErrInvalidToken`, `ErrUnauthorized` and
`ErrTokenExpired` have 401; `ErrInternalServer` and `ErrCreatingEvent` have 500;
the codes are pairwise distinct; and the JSON form of every `APIError` has exactly
the members code and message, with the values of `Code` and `Message`. -/
theorem error_taxonomy :
    (∀ e : Sentinel, (initial e).HTTPStatus =
      match e with
      | .ErrInvalidBody | .ErrInvalidUUID | .ErrCompanyIDRequired | .ErrUserNotFound
      | .ErrUserAlreadyExists | .ErrCompanyNotFound | .ErrTokenNotFound => 400
      | .ErrInvalidCredentials | .ErrInvalidToken | .ErrUnauthorized | .ErrTokenExpired => 401
      | .ErrInternalServer | .ErrCreatingEvent => 500) ∧
    (∀ e1 e2 : Sentinel, (initial e1).Code = (initial e2).Code → e1 = e2) ∧
    (∀ a : APIError, a.MarshalJSON = [("code", .str a.Code), ("message", .str a.Message)] ∧
      a.MarshalJSON.map Prod.fst = ["code", "message"]) := by
  refine ⟨fun e => by cases e <;> rfl, ?_, fun a => ⟨rfl, rfl⟩⟩
  intro e1 e2 h
  cases e1 <;> cases e2 <;> first | rfl | exact absurd h (by decide)

/-! ## Panics on the request path -/

/-- C27: `DecodeJSONBody` is not total. For a body that `encoding/json` decodes as
the literal `null`, the interface handed to `validate.Struct` is nil, the validator
returns an `*InvalidValidationError`, and the unchecked type assertion in
`handleBindingErrors` panics: `DecodeJSONBody` returns neither nil nor an error,
and the handlers `register` and `createCompany` write no response. -/
theorem decodeJSONBody_null_panics {β : Type} (decode : String → json.Decoded β)
    (Struct : β → validator.ValidationErrors) (r : Request) (g : Sentinels)
    (h : decode r.Body = .null) :
    binding.DecodeJSONBody decode Struct r g = (.panic, g) ∧
    (∀ (σ : Type) (isEmail : String → Bool) (H : crypto.Primitives)
        (CreateUser : models.UserModel → σ → Sentinels → Option GoError × σ × Sentinels)
        (id : uuid.UUID) (st : σ) (dec : String → json.Decoded schemas.RegisterRequest),
      dec r.Body = .null →
      (handler.register dec isEmail H CreateUser id r st g).Response = none) ∧
    (∀ (σ : Type)
        (db : models.CompanyModel → σ → Sentinels → Option GoError × σ × Sentinels)
        (id eventID : uuid.UUID) (now : Time) (st : σ)
        (dec : String → json.Decoded schemas.CreateCompanyRequest),
      dec r.Body = .null →
      (handler.createCompany dec db id eventID now r st g).Response = none) := by
  refine ⟨?_, ?_, ?_⟩
  · simp [binding.DecodeJSONBody, h, binding.handleBindingErrors]
  · intro σ isEmail H CreateUser id st dec hd
    simp [handler.register, binding.DecodeJSONBody, hd, binding.handleBindingErrors]
  · intro σ db id eventID now st dec hd
    simp [handler.createCompany, binding.DecodeJSONBody, hd, binding.handleBindingErrors]

theorem decodeJSONBody_null_panics_witness :
    binding.DecodeJSONBody (fun _ => (json.Decoded.null : json.Decoded schemas.RegisterRequest))
        (validator.StructRegisterRequest (fun _ => true) "RegisterRequest")
        { sample.bare with Body := "null" } initial = (.panic, initial) :=
  (decodeJSONBody_null_panics (fun _ => json.Decoded.null)
    (validator.StructRegisterRequest (fun _ => true) "RegisterRequest")
    { sample.bare with Body := "null" } initial rfl).1

/-- C28: whenever `DecodeJSONBody` returned nil for the body of a company request,
the pointers `AmountEmployees` and `Registered` of the decoded body are non-nil, so
`CreateCompany` and `UpdateCompany`, called with the input the handlers build from
that body, do not panic on the dereferences. -/
theorem company_pointers_non_nil {σ : Type}
    (decode : String → json.Decoded schemas.CreateCompanyRequest) (structName : String)
    (r : Request) (g g1 : Sentinels) (body : schemas.CreateCompanyRequest)
    (h : binding.DecodeJSONBody decode (validator.StructCompanyRequest structName) r g =
      (.returns (.ok body), g1)) :
    body.AmountEmployees ≠ none ∧ body.Registered ≠ none ∧
    (∀ (db : models.CompanyModel → σ → Sentinels → Option GoError × σ × Sentinels)
        (id : uuid.UUID) (st : σ),
      (company.CreateCompany db id
        { Name := body.Name, Description := body.Description,
          AmountEmployees := body.AmountEmployees, Registered := body.Registered,
          Type_ := body.Type_ } st g1).1 ≠ .panic) ∧
    (∀ (db : String → models.CompanyModel → σ → Sentinels → Option GoError × σ × Sentinels)
        (cid : String) (st : σ),
      (company.UpdateCompany db cid
        { Name := body.Name, Description := body.Description,
          AmountEmployees := body.AmountEmployees, Registered := body.Registered,
          Type_ := body.Type_ } st g1).1 ≠ .panic) := by
  obtain ⟨-, hs, -⟩ := decodeJSONBody_ok decode _ r g g1 body h
  obtain ⟨-, hA, hR, -⟩ := (structCompanyRequest_nil_iff structName body).mp hs
  obtain ⟨n, hn⟩ := Option.isSome_iff_exists.mp hA
  obtain ⟨b, hb⟩ := Option.isSome_iff_exists.mp hR
  refine ⟨by simp [hn], by simp [hb], ?_, ?_⟩
  · intro db id st
    simp only [company.CreateCompany, hn, hb]
    rcases db _ st g1 with ⟨e, st2, g2⟩
    cases e <;> simp
  · intro db cid st
    simp only [company.UpdateCompany, hn, hb]
    cases uuid.Parse cid with
    | none => simp
    | some u =>
      simp only []
      rcases db cid _ st g1 with ⟨e, st2, g2⟩
      cases e <;> simp

theorem company_pointers_non_nil_witness :
    sample.valid.AmountEmployees ≠ none ∧ sample.valid.Registered ≠ none ∧
    (∀ (db : models.CompanyModel → postgres.Pool → Sentinels →
          Option GoError × postgres.Pool × Sentinels)
        (id : uuid.UUID) (st : postgres.Pool),
      (company.CreateCompany db id
        { Name := sample.valid.Name, Description := sample.valid.Description,
          AmountEmployees := sample.valid.AmountEmployees,
          Registered := sample.valid.Registered,
          Type_ := sample.valid.Type_ } st initial).1 ≠ .panic) ∧
    (∀ (db : String → models.CompanyModel → postgres.Pool → Sentinels →
          Option GoError × postgres.Pool × Sentinels)
        (cid : String) (st : postgres.Pool),
      (company.UpdateCompany db cid
        { Name := sample.valid.Name, Description := sample.valid.Description,
          AmountEmployees := sample.valid.AmountEmployees,
          Registered := sample.valid.Registered,
          Type_ := sample.valid.Type_ } st initial).1 ≠ .panic) :=
  company_pointers_non_nil (fun _ => .value sample.valid) "CreateCompanyRequest"
    sample.put initial initial sample.valid rfl

/-- C29: a token that `ValidateAndParseToken` accepts need not carry `exp`. For a
token with a valid signature, no `exp` claim and an `nbf` that is absent or not in
the future, `ValidateAndParseToken` returns the claims with a nil `ExpiresAt`, and
the middleware, given that token as bearer, dereferences the nil pointer: the
request ends neither in a written rejection nor in a call to the next handler. -/
theorem token_without_exp_panics (P : jwt.Primitives) (secret tok : String)
    (nowParse nowCheck : Time) (t : jwt.Unverified) (r : Request) (g : Sentinels)
    (hne : tok ≠ "")
    (hh : r.HeaderGet "Authorization" = "Bearer " ++ tok)
    (hp : P.ParseUnverified tok = .ok t)
    (hv : jwt.Verify P t.Method t.SigningString t.Signature secret = true)
    (he : t.Claims.ExpiresAt = none)
    (hn : jwt.verifyNotBefore t.Claims nowParse = []) :
    token.ValidateAndParseToken P secret nowParse tok = .ok t.Claims ∧
    middleware.UserMustBeAuthenticated P secret nowParse nowCheck r g = (.panic, g) := by
  have hval : jwt.Validate t.Claims nowParse = [] := by
    simp [jwt.Validate, jwt.verifyExpiresAt, he, hn]
  have hacc : token.ValidateAndParseToken P secret nowParse tok = .ok t.Claims := by
    simp [token.ValidateAndParseToken, jwt.ParseWithClaims, hp, hv, hval]
  refine ⟨hacc, ?_⟩
  have hd := decode_bearer P secret nowParse r g tok hh hne
  rw [hacc] at hd
  simp only [middleware.UserMustBeAuthenticated, hd, he]

theorem token_without_exp_panics_witness :
    token.ValidateAndParseToken sample.prims2 "secret" (1100 * time.Second)
        sample.tokenNoExp = .ok sample.claimsNoExp ∧
    middleware.UserMustBeAuthenticated sample.prims2 "secret" (1100 * time.Second)
        (1100 * time.Second) (sample.request ("Bearer " ++ sample.tokenNoExp)) initial =
      (.panic, initial) :=
  token_without_exp_panics sample.prims2 "secret" sample.tokenNoExp (1100 * time.Second)
    (1100 * time.Second)
    { Method := .HS256, Claims := sample.claimsNoExp, SigningString := "HS256.noexp",
      Signature := "HS256/secret/HS256.noexp" }
    (sample.request ("Bearer " ++ sample.tokenNoExp)) initial
    (by decide) (by decide) (by decide) (by decide) rfl (by decide)

/-- C30: `DecodeTokenFromRequest` does not require the scheme `Bearer`. For a
non-empty token `t` that does not itself start with "Bearer " and that
`ValidateAndParseToken` accepts, the header `t` and the header "Bearer " followed
by `t` yield the same claims and leave the error values alone; and the header
"Bearer" without a space is handed to the parser as the token "Bearer", so that,
the parser rejecting it, the result is `ErrInvalidToken` and not
`ErrTokenNotFound`. -/
theorem bearer_scheme_optional (P : jwt.Primitives) (secret t : String) (now : Time)
    (c : token.Claims) (r1 r2 r3 : Request) (g : Sentinels)
    (hne : t ≠ "") (hpre : strings.HasPrefix t "Bearer " = false)
    (hacc : token.ValidateAndParseToken P secret now t = .ok c)
    (h1 : r1.HeaderGet "Authorization" = t)
    (h2 : r2.HeaderGet "Authorization" = "Bearer " ++ t)
    (h3 : r3.HeaderGet "Authorization" = "Bearer")
    (hrej : ∀ c3, token.ValidateAndParseToken P secret now "Bearer" ≠ .ok c3) :
    token.DecodeTokenFromRequest P secret now r1 g = (.ok c, g) ∧
    token.DecodeTokenFromRequest P secret now r2 g = (.ok c, g) ∧
    (∃ err, token.ValidateAndParseToken P secret now "Bearer" = .error err ∧
      token.DecodeTokenFromRequest P secret now r3 g =
        (.error (.api .ErrInvalidToken),
          setMessage g .ErrInvalidToken ("invalid token: " ++ P.ErrorText err))) := by
  refine ⟨?_, ?_, ?_⟩
  · have ht : strings.TrimPrefix t "Bearer " = t := by
      simp [strings.TrimPrefix, hpre]
    simp only [token.DecodeTokenFromRequest, h1, ht]
    rw [if_neg hne, if_neg hne, hacc]
  · have hd := decode_bearer P secret now r2 g t h2 hne
    rw [hacc] at hd
    exact hd
  · have ht : strings.TrimPrefix "Bearer" "Bearer " = "Bearer" := by decide
    have hb : ("Bearer" : String) ≠ "" := by decide
    cases hx : token.ValidateAndParseToken P secret now "Bearer" with
    | ok c3 => exact absurd hx (hrej c3)
    | error err =>
      refine ⟨err, rfl, ?_⟩
      simp only [token.DecodeTokenFromRequest, h3, ht]
      rw [if_neg hb, if_neg hb, hx]

theorem bearer_scheme_optional_witness :
    token.DecodeTokenFromRequest sample.prims "secret" (1100 * time.Second)
        (sample.request sample.tokenHS256) initial = (.ok sample.claims, initial) ∧
    token.DecodeTokenFromRequest sample.prims "secret" (1100 * time.Second)
        (sample.request ("Bearer " ++ sample.tokenHS256)) initial =
      (.ok sample.claims, initial) ∧
    (∃ err, token.ValidateAndParseToken sample.prims "secret" (1100 * time.Second)
        "Bearer" = .error err ∧
      token.DecodeTokenFromRequest sample.prims "secret" (1100 * time.Second)
          (sample.request "Bearer") initial =
        (.error (.api .ErrInvalidToken),
          setMessage initial .ErrInvalidToken
            ("invalid token: " ++ sample.prims.ErrorText err))) :=
  bearer_scheme_optional sample.prims "secret" sample.tokenHS256 (1100 * time.Second)
    sample.claims (sample.request sample.tokenHS256)
    (sample.request ("Bearer " ++ sample.tokenHS256)) (sample.request "Bearer") initial
    (by decide) (by decide) (by decide) (by decide) (by decide) (by decide)
    (fun c3 h => by
      have h2 : token.ValidateAndParseToken sample.prims "secret" (1100 * time.Second)
          "Bearer" = .error (.Malformed "token contains an invalid number of segments") :=
        rfl
      rw [h2] at h
      cases h)

/-! ## The two checks of a path id -/

/-- The hyphenated form is read from the first 36 bytes only. -/
theorem parseHyphenated_take (l : List Nat) :
    uuid.parseHyphenated (l.take 36) = uuid.parseHyphenated l := by
  simp [uuid.parseHyphenated, uuid.collect, uuid.offsets, List.getD_eq_getElem?_getD,
    List.getElem?_take]

/-- An id that `uuid.Validate` accepts is one that `uuid.Parse` accepts. -/
theorem validate_parse (id : String) (h : uuid.Validate id = true) :
    uuid.Parse id ≠ none := by
  unfold uuid.Validate at h
  unfold uuid.Parse
  simp only [] at h ⊢
  split_ifs at h ⊢ with h1 h2 h3 h4 h5 h6
  all_goals first
    | exact absurd h Bool.false_ne_true
    | exact Option.isSome_iff_ne_none.mp h
    | (rw [parseHyphenated_take] at h; exact Option.isSome_iff_ne_none.mp h)

/-- An id that `uuid.Parse` accepts and `uuid.Validate` rejects has 38 bytes and is
not enclosed in braces. -/
theorem parse_not_validate (id : String) (hp : uuid.Parse id ≠ none)
    (hv : uuid.Validate id = false) :
    (uuid.bytes id).length = 38 ∧
      ((uuid.bytes id).getD 0 0 ≠ 123 ∨ (uuid.bytes id).getD 37 0 ≠ 125) := by
  unfold uuid.Validate at hv
  unfold uuid.Parse at hp
  simp only [] at hv hp
  split_ifs at hv hp with h1 h2 h3 h4 h5 h6
  all_goals first
    | exact absurd rfl hp
    | exact ⟨h4, h5⟩
    | exact absurd ((Option.isSome_iff_ne_none.mpr hp).symm.trans hv) Bool.noConfusion
    | (rw [parseHyphenated_take] at hv
       exact absurd ((Option.isSome_iff_ne_none.mpr hp).symm.trans hv) Bool.noConfusion)

/-- After `DecodeJSONBody` has returned nil for a company body, both pointers of the
body are set. -/
theorem company_pointers_of_decode
    (decode : String → json.Decoded schemas.CreateCompanyRequest) (structName : String)
    (r : Request) (g g1 : Sentinels) (body : schemas.CreateCompanyRequest)
    (h : binding.DecodeJSONBody decode (validator.StructCompanyRequest structName) r g =
      (.returns (.ok body), g1)) :
    (∃ n, body.AmountEmployees = some n) ∧ (∃ b, body.Registered = some b) ∧
      body.Name ≠ "" ∧ enum.CompanyType.IsValid body.Type_ = true := by
  obtain ⟨-, hs, -⟩ := decodeJSONBody_ok decode _ r g g1 body h
  obtain ⟨hN, hA, hR, hT⟩ := (structCompanyRequest_nil_iff structName body).mp hs
  exact ⟨Option.isSome_iff_exists.mp hA, Option.isSome_iff_exists.mp hR, hN, hT⟩

/-- C25 (as stated, refuted): it is not the case that `uuid.Validate` rejects an id
exactly when `uuid.Parse` rejects it. The 38-byte id
x6ba7b810-9dad-11d1-80b4-00c04fd430c8y is rejected by `uuid.Validate`, which looks
for the braces, and accepted by `uuid.Parse`, which drops the first byte and never
looks at the last. -/
theorem id_checks_counterexample :
    ¬ ∀ id : String, (uuid.Validate id = false ↔ uuid.Parse id = none) := by
  intro h
  have h1 := h "x6ba7b810-9dad-11d1-80b4-00c04fd430c8y"
  revert h1
  decide

/-- C25 (amended): every id that the handler's check `uuid.Validate` accepts is
accepted by the resolver's check `uuid.Parse`; an id that `uuid.Parse` accepts and
`uuid.Validate` rejects has 38 bytes and is not enclosed in braces. Both layers
report a rejection as `ErrInvalidUUID`. The delete handler always writes a
response, and the update handler writes none only when `DecodeJSONBody` panics: the
`uuid.MustParse` of the two handlers is reached only for ids that parse. -/
theorem id_checks_agreement (id : String) :
    (uuid.Validate id = true → uuid.Parse id ≠ none) ∧
    (uuid.Parse id ≠ none → uuid.Validate id = false →
      (uuid.bytes id).length = 38 ∧
        ((uuid.bytes id).getD 0 0 ≠ 123 ∨ (uuid.bytes id).getD 37 0 ≠ 125)) ∧
    (∀ (dbGet : String → Sentinels → Except GoError models.CompanyModel × Sentinels)
        (g : Sentinels),
      uuid.Parse id = none →
      (company.GetCompanyByID dbGet id g).1 = .error (.api .ErrInvalidUUID)) ∧
    (∀ (dbGet : String → Sentinels → Except GoError models.CompanyModel × Sentinels)
        (r : Request) (g : Sentinels),
      r.URLParam "id" = id → id ≠ "" → uuid.Validate id = false →
      (handler.getCompany dbGet r g).Response =
        some (handler.wrapError r (.api .ErrInvalidUUID) g).1) ∧
    (∀ (σ : Type) (dbDel : String → σ → Sentinels → Option GoError × σ × Sentinels)
        (eventID : uuid.UUID) (now : Time) (r : Request) (st : σ) (g : Sentinels),
      r.URLParam "id" = id →
      (handler.deleteCompany dbDel eventID now r st g).Response ≠ none) ∧
    (∀ (σ : Type) (decode : String → json.Decoded schemas.UpdateCompanyRequest)
        (dbUpd : String → models.CompanyModel → σ → Sentinels →
          Option GoError × σ × Sentinels)
        (eventID : uuid.UUID) (now : Time) (r : Request) (st : σ) (g : Sentinels),
      r.URLParam "id" = id →
      (handler.updateCompany decode dbUpd eventID now r st g).Response = none →
      (binding.DecodeJSONBody decode
        (validator.StructCompanyRequest "UpdateCompanyRequest") r g).1 = .panic) := by
  refine ⟨validate_parse id, parse_not_validate id, ?_, ?_, ?_, ?_⟩
  · intro dbGet g hp
    simp [company.GetCompanyByID, hp]
  · intro dbGet r g hr hne hv
    simp [handler.getCompany, hr, hne, hv]
  · intro σ dbDel eventID now r st g hr
    unfold handler.deleteCompany
    simp only [hr]
    by_cases h0 : id = ""
    · simp [h0]
    · rw [if_neg h0]
      cases hv : uuid.Validate id with
      | false => simp
      | true =>
        obtain ⟨u, hu⟩ := Option.ne_none_iff_exists'.mp (validate_parse id hv)
        rw [deleteCompany_parsed dbDel id st g (by simp [hu])]
        rcases dbDel id st g with ⟨e, st1, g1⟩
        cases e <;> simp [hu]
  · intro σ decode dbUpd eventID now r st g hr
    unfold handler.updateCompany
    simp only [hr]
    by_cases h0 : id = ""
    · simp [h0]
    · rw [if_neg h0]
      cases hv : uuid.Validate id with
      | false => simp
      | true =>
        obtain ⟨u, hu⟩ := Option.ne_none_iff_exists'.mp (validate_parse id hv)
        simp only [Bool.not_true, Bool.false_eq_true, if_false]
        rcases hd : binding.DecodeJSONBody decode
          (validator.StructCompanyRequest "UpdateCompanyRequest") r g with ⟨res, g1⟩
        cases res with
        | panic => simp
        | returns x =>
          cases x with
          | error err => simp [handler.invalidBody]
          | ok body =>
            obtain ⟨hA, hR, -, hU⟩ :=
              company_pointers_of_decode decode "UpdateCompanyRequest" r g g1 body hd
            intro hresp
            exfalso
            revert hresp
            simp only []
            obtain ⟨n, hn⟩ := hA
            obtain ⟨b, hb⟩ := hR
            simp only [company.UpdateCompany, hu, hn, hb]
            rcases dbUpd id _ st g1 with ⟨e, st1, g2⟩
            cases e <;> simp

theorem id_checks_agreement_witness :
    (uuid.Validate "x6ba7b810-9dad-11d1-80b4-00c04fd430c8y" = true →
      uuid.Parse "x6ba7b810-9dad-11d1-80b4-00c04fd430c8y" ≠ none) ∧
    (uuid.Parse "x6ba7b810-9dad-11d1-80b4-00c04fd430c8y" ≠ none →
      uuid.Validate "x6ba7b810-9dad-11d1-80b4-00c04fd430c8y" = false →
      (uuid.bytes "x6ba7b810-9dad-11d1-80b4-00c04fd430c8y").length = 38 ∧
        ((uuid.bytes "x6ba7b810-9dad-11d1-80b4-00c04fd430c8y").getD 0 0 ≠ 123 ∨
          (uuid.bytes "x6ba7b810-9dad-11d1-80b4-00c04fd430c8y").getD 37 0 ≠ 125)) :=
  ⟨(id_checks_agreement "x6ba7b810-9dad-11d1-80b4-00c04fd430c8y").1,
    (id_checks_agreement "x6ba7b810-9dad-11d1-80b4-00c04fd430c8y").2.1⟩

/-! ## Events started by the handlers -/

/-- What `createCompany` leaves after the resolver call has succeeded. -/
theorem createCompany_success {σ : Type}
    (decode : String → json.Decoded schemas.CreateCompanyRequest)
    (db : models.CompanyModel → σ → Sentinels → Option GoError × σ × Sentinels)
    (id eventID : uuid.UUID) (now : Time) (r : Request) (st st2 : σ) (g g1 g2 : Sentinels)
    (body : schemas.CreateCompanyRequest) (c : models.CompanyModel)
    (hd : binding.DecodeJSONBody decode
      (validator.StructCompanyRequest "CreateCompanyRequest") r g = (.returns (.ok body), g1))
    (hc : company.CreateCompany db id
      { Name := body.Name, Description := body.Description,
        AmountEmployees := body.AmountEmployees, Registered := body.Registered,
        Type_ := body.Type_ } st g1 = (.returns (.ok c), st2, g2)) :
    handler.createCompany decode db id eventID now r st g =
      { Response := some (render.JSON r c.MarshalJSON),
        Events := [⟨"create_company", now, eventID, c.ID⟩], Store := st2, Errors := g2 } := by
  unfold handler.createCompany
  simp only [hd, hc]
  rfl

/-- An event started by `createCompany` comes after a successful resolver call. -/
theorem createCompany_events {σ : Type}
    (decode : String → json.Decoded schemas.CreateCompanyRequest)
    (db : models.CompanyModel → σ → Sentinels → Option GoError × σ × Sentinels)
    (id eventID : uuid.UUID) (now : Time) (r : Request) (st : σ) (g : Sentinels)
    (h : (handler.createCompany decode db id eventID now r st g).Events ≠ []) :
    ∃ body g1 c st2 g2,
      binding.DecodeJSONBody decode
        (validator.StructCompanyRequest "CreateCompanyRequest") r g =
          (.returns (.ok body), g1) ∧
      company.CreateCompany db id
        { Name := body.Name, Description := body.Description,
          AmountEmployees := body.AmountEmployees, Registered := body.Registered,
          Type_ := body.Type_ } st g1 = (.returns (.ok c), st2, g2) := by
  unfold handler.createCompany at h
  rcases hd : binding.DecodeJSONBody decode
    (validator.StructCompanyRequest "CreateCompanyRequest") r g with ⟨res, g1⟩
  rw [hd] at h
  cases res with
  | panic => exact absurd rfl h
  | returns x =>
    cases x with
    | error err => exact absurd rfl h
    | ok body =>
      simp only [] at h
      rcases hc : company.CreateCompany db id
        { Name := body.Name, Description := body.Description,
          AmountEmployees := body.AmountEmployees, Registered := body.Registered,
          Type_ := body.Type_ } st g1 with ⟨res2, st2, g2⟩
      rw [hc] at h
      cases res2 with
      | panic => exact absurd rfl h
      | returns y =>
        cases y with
        | error e => exact absurd rfl h
        | ok c => exact ⟨body, g1, c, st2, g2, rfl, hc⟩

/-- What `updateCompany` leaves after the resolver call has succeeded. -/
theorem updateCompany_success {σ : Type}
    (decode : String → json.Decoded schemas.UpdateCompanyRequest)
    (db : String → models.CompanyModel → σ → Sentinels → Option GoError × σ × Sentinels)
    (eventID : uuid.UUID) (now : Time) (r : Request) (st st2 : σ) (g g1 g2 : Sentinels)
    (body : schemas.UpdateCompanyRequest)
    (h0 : r.URLParam "id" ≠ "") (hv : uuid.Validate (r.URLParam "id") = true)
    (hd : binding.DecodeJSONBody decode
      (validator.StructCompanyRequest "UpdateCompanyRequest") r g = (.returns (.ok body), g1))
    (hc : company.UpdateCompany db (r.URLParam "id")
      { Name := body.Name, Description := body.Description,
        AmountEmployees := body.AmountEmployees, Registered := body.Registered,
        Type_ := body.Type_ } st g1 = (.returns none, st2, g2)) :
    ∃ u, uuid.Parse (r.URLParam "id") = some u ∧
      handler.updateCompany decode db eventID now r st g =
        { Response := some (render.JSON r (schemas.OkResponse "company updated")),
          Events := [⟨"update_company", now, eventID, u⟩], Store := st2, Errors := g2 } := by
  obtain ⟨u, hu⟩ := Option.ne_none_iff_exists'.mp (validate_parse _ hv)
  refine ⟨u, hu, ?_⟩
  unfold handler.updateCompany
  simp only [if_neg h0, hv, hd, hc, hu]
  rfl

/-- An event started by `updateCompany` comes after a successful resolver call. -/
theorem updateCompany_events {σ : Type}
    (decode : String → json.Decoded schemas.UpdateCompanyRequest)
    (db : String → models.CompanyModel → σ → Sentinels → Option GoError × σ × Sentinels)
    (eventID : uuid.UUID) (now : Time) (r : Request) (st : σ) (g : Sentinels)
    (h : (handler.updateCompany decode db eventID now r st g).Events ≠ []) :
    r.URLParam "id" ≠ "" ∧ uuid.Validate (r.URLParam "id") = true ∧
    ∃ body g1 st2 g2,
      binding.DecodeJSONBody decode
        (validator.StructCompanyRequest "UpdateCompanyRequest") r g =
          (.returns (.ok body), g1) ∧
      company.UpdateCompany db (r.URLParam "id")
        { Name := body.Name, Description := body.Description,
          AmountEmployees := body.AmountEmployees, Registered := body.Registered,
          Type_ := body.Type_ } st g1 = (.returns none, st2, g2) := by
  unfold handler.updateCompany at h
  simp only [] at h
  by_cases h0 : r.URLParam "id" = ""
  · rw [if_pos h0] at h; exact absurd rfl h
  · rw [if_neg h0] at h
    cases hv : uuid.Validate (r.URLParam "id") with
    | false => rw [hv] at h; exact absurd rfl h
    | true =>
      rw [hv] at h
      simp only [Bool.not_true, Bool.false_eq_true, if_false] at h
      refine ⟨h0, rfl, ?_⟩
      rcases hd : binding.DecodeJSONBody decode
        (validator.StructCompanyRequest "UpdateCompanyRequest") r g with ⟨res, g1⟩
      rw [hd] at h
      cases res with
      | panic => exact absurd rfl h
      | returns x =>
        cases x with
        | error err => exact absurd rfl h
        | ok body =>
          simp only [] at h
          rcases hc : company.UpdateCompany db (r.URLParam "id")
            { Name := body.Name, Description := body.Description,
              AmountEmployees := body.AmountEmployees, Registered := body.Registered,
              Type_ := body.Type_ } st g1 with ⟨res2, st2, g2⟩
          rw [hc] at h
          cases res2 with
          | panic => exact absurd rfl h
          | returns y =>
            cases y with
            | some e => exact absurd rfl h
            | none => exact ⟨body, g1, st2, g2, rfl, hc⟩

/-- What `deleteCompany` leaves after the resolver call has succeeded. -/
theorem deleteCompany_success {σ : Type}
    (db : String → σ → Sentinels → Option GoError × σ × Sentinels)
    (eventID : uuid.UUID) (now : Time) (r : Request) (st st2 : σ) (g g2 : Sentinels)
    (h0 : r.URLParam "id" ≠ "") (hv : uuid.Validate (r.URLParam "id") = true)
    (hc : company.DeleteCompany db (r.URLParam "id") st g = (none, st2, g2)) :
    ∃ u, uuid.Parse (r.URLParam "id") = some u ∧
      handler.deleteCompany db eventID now r st g =
        { Response := some (render.JSON r (schemas.OkResponse "company deleted")),
          Events := [⟨"delete_company", now, eventID, u⟩], Store := st2, Errors := g2 } := by
  obtain ⟨u, hu⟩ := Option.ne_none_iff_exists'.mp (validate_parse _ hv)
  refine ⟨u, hu, ?_⟩
  unfold handler.deleteCompany
  simp only [if_neg h0, hv, hc, hu]
  rfl

/-- An event started by `deleteCompany` comes after a successful resolver call. -/
theorem deleteCompany_events {σ : Type}
    (db : String → σ → Sentinels → Option GoError × σ × Sentinels)
    (eventID : uuid.UUID) (now : Time) (r : Request) (st : σ) (g : Sentinels)
    (h : (handler.deleteCompany db eventID now r st g).Events ≠ []) :
    r.URLParam "id" ≠ "" ∧ uuid.Validate (r.URLParam "id") = true ∧
    ∃ st2 g2, company.DeleteCompany db (r.URLParam "id") st g = (none, st2, g2) := by
  unfold handler.deleteCompany at h
  simp only [] at h
  by_cases h0 : r.URLParam "id" = ""
  · rw [if_pos h0] at h; exact absurd rfl h
  · rw [if_neg h0] at h
    cases hv : uuid.Validate (r.URLParam "id") with
    | false => rw [hv] at h; exact absurd rfl h
    | true =>
      rw [hv] at h
      simp only [Bool.not_true, Bool.false_eq_true, if_false] at h
      refine ⟨h0, rfl, ?_⟩
      rcases hc : company.DeleteCompany db (r.URLParam "id") st g with ⟨e, st2, g2⟩
      rw [hc] at h
      cases e with
      | some e => exact absurd rfl h
      | none => exact ⟨st2, g2, rfl⟩

/-- The goroutine `createEvent` is one call of `Dispatch`, whose error is dropped. -/
theorem createEvent_eq {σ : Type}
    (D : events.Event → σ → Sentinels → Option GoError × σ × Sentinels)
    (evt : events.Event) (st : σ) (g : Sentinels) :
    handler.createEvent D evt st g = ((D evt st g).2.1, (D evt st g).2.2) := by
  unfold handler.createEvent
  rcases D evt st g with ⟨e, st1, g1⟩
  cases e <;> rfl

/-- A request that started one goroutine hands that event to the dispatcher once. -/
theorem settle_single {σ : Type}
    (D : events.Event → σ → Sentinels → Option GoError × σ × Sentinels)
    (out : handler.Outcome σ) (evt : events.Event) (h : out.Events = [evt]) :
    (handler.settle D out).Store = (D evt out.Store out.Errors).2.1 ∧
    (handler.settle D out).Errors = (D evt out.Store out.Errors).2.2 := by
  unfold handler.settle
  rw [h]
  exact ⟨by simp [List.foldl, createEvent_eq], by simp [List.foldl, createEvent_eq]⟩

/-- A request that started no goroutine hands nothing to the dispatcher. -/
theorem settle_none {σ : Type}
    (D : events.Event → σ → Sentinels → Option GoError × σ × Sentinels)
    (out : handler.Outcome σ) (h : out.Events = []) : handler.settle D out = out := by
  obtain ⟨resp, evts, st, g⟩ := out
  simp only [] at h
  subst h
  rfl

/-- C22: for every request to `createCompany`, `updateCompany` or `deleteCompany`
and every dispatcher `D`, exactly one event is handed to `D` when the resolver call
succeeded, and none otherwise. After a successful resolver call the handler starts
`createEvent` for one event, and the request served to the end leaves the store and
the error values that one call of `D` on that event leaves, from the state the
resolver left; on every other path (a path id that is empty or that `uuid.Validate`
rejects, a body that `DecodeJSONBody` rejects, a resolver error) no goroutine is
started and `D` is not called. The event has the type `create_company`,
`update_company` or `delete_company`, each valid per `EventType.IsValid`, the time
and event id the handler took, and as `EntityID` the id of the company
`CreateCompany` returned, or the parsed path id for update and delete. -/
theorem one_event_per_success {σ : Type}
    (D : events.Event → σ → Sentinels → Option GoError × σ × Sentinels)
    (decode : String → json.Decoded schemas.CreateCompanyRequest)
    (dbC : models.CompanyModel → σ → Sentinels → Option GoError × σ × Sentinels)
    (dbU : String → models.CompanyModel → σ → Sentinels → Option GoError × σ × Sentinels)
    (dbD : String → σ → Sentinels → Option GoError × σ × Sentinels)
    (id eventID : uuid.UUID) (now : Time) (r : Request) (st : σ) (g : Sentinels) :
    (∀ body g1 c st2 g2,
      binding.DecodeJSONBody decode
        (validator.StructCompanyRequest "CreateCompanyRequest") r g =
          (.returns (.ok body), g1) →
      company.CreateCompany dbC id
        { Name := body.Name, Description := body.Description,
          AmountEmployees := body.AmountEmployees, Registered := body.Registered,
          Type_ := body.Type_ } st g1 = (.returns (.ok c), st2, g2) →
      (handler.createCompany decode dbC id eventID now r st g).Events =
        [⟨"create_company", now, eventID, c.ID⟩] ∧ c.ID = id ∧
      (handler.settle D (handler.createCompany decode dbC id eventID now r st g)).Store =
        (D ⟨"create_company", now, eventID, c.ID⟩ st2 g2).2.1 ∧
      (handler.settle D (handler.createCompany decode dbC id eventID now r st g)).Errors =
        (D ⟨"create_company", now, eventID, c.ID⟩ st2 g2).2.2) ∧
    ((handler.createCompany decode dbC id eventID now r st g).Events ≠ [] →
      ∃ body g1 c st2 g2,
        binding.DecodeJSONBody decode
          (validator.StructCompanyRequest "CreateCompanyRequest") r g =
            (.returns (.ok body), g1) ∧
        company.CreateCompany dbC id
          { Name := body.Name, Description := body.Description,
            AmountEmployees := body.AmountEmployees, Registered := body.Registered,
            Type_ := body.Type_ } st g1 = (.returns (.ok c), st2, g2)) ∧
    ((handler.createCompany decode dbC id eventID now r st g).Events = [] →
      handler.settle D (handler.createCompany decode dbC id eventID now r st g) =
        handler.createCompany decode dbC id eventID now r st g) ∧
    (∀ body g1 st2 g2,
      r.URLParam "id" ≠ "" → uuid.Validate (r.URLParam "id") = true →
      binding.DecodeJSONBody decode
        (validator.StructCompanyRequest "UpdateCompanyRequest") r g =
          (.returns (.ok body), g1) →
      company.UpdateCompany dbU (r.URLParam "id")
        { Name := body.Name, Description := body.Description,
          AmountEmployees := body.AmountEmployees, Registered := body.Registered,
          Type_ := body.Type_ } st g1 = (.returns none, st2, g2) →
      ∃ u, uuid.Parse (r.URLParam "id") = some u ∧
        (handler.updateCompany decode dbU eventID now r st g).Events =
          [⟨"update_company", now, eventID, u⟩] ∧
        (handler.settle D (handler.updateCompany decode dbU eventID now r st g)).Store =
          (D ⟨"update_company", now, eventID, u⟩ st2 g2).2.1 ∧
        (handler.settle D (handler.updateCompany decode dbU eventID now r st g)).Errors =
          (D ⟨"update_company", now, eventID, u⟩ st2 g2).2.2) ∧
    ((handler.updateCompany decode dbU eventID now r st g).Events ≠ [] →
      r.URLParam "id" ≠ "" ∧ uuid.Validate (r.URLParam "id") = true ∧
      ∃ body g1 st2 g2,
        binding.DecodeJSONBody decode
          (validator.StructCompanyRequest "UpdateCompanyRequest") r g =
            (.returns (.ok body), g1) ∧
        company.UpdateCompany dbU (r.URLParam "id")
          { Name := body.Name, Description := body.Description,
            AmountEmployees := body.AmountEmployees, Registered := body.Registered,
            Type_ := body.Type_ } st g1 = (.returns none, st2, g2)) ∧
    ((handler.updateCompany decode dbU eventID now r st g).Events = [] →
      handler.settle D (handler.updateCompany decode dbU eventID now r st g) =
        handler.updateCompany decode dbU eventID now r st g) ∧
    (∀ st2 g2,
      r.URLParam "id" ≠ "" → uuid.Validate (r.URLParam "id") = true →
      company.DeleteCompany dbD (r.URLParam "id") st g = (none, st2, g2) →
      ∃ u, uuid.Parse (r.URLParam "id") = some u ∧
        (handler.deleteCompany dbD eventID now r st g).Events =
          [⟨"delete_company", now, eventID, u⟩] ∧
        (handler.settle D (handler.deleteCompany dbD eventID now r st g)).Store =
          (D ⟨"delete_company", now, eventID, u⟩ st2 g2).2.1 ∧
        (handler.settle D (handler.deleteCompany dbD eventID now r st g)).Errors =
          (D ⟨"delete_company", now, eventID, u⟩ st2 g2).2.2) ∧
    ((handler.deleteCompany dbD eventID now r st g).Events ≠ [] →
      r.URLParam "id" ≠ "" ∧ uuid.Validate (r.URLParam "id") = true ∧
      ∃ st2 g2, company.DeleteCompany dbD (r.URLParam "id") st g = (none, st2, g2)) ∧
    ((handler.deleteCompany dbD eventID now r st g).Events = [] →
      handler.settle D (handler.deleteCompany dbD eventID now r st g) =
        handler.deleteCompany dbD eventID now r st g) ∧
    (enum.EventType.String enum.EventCreateCompany = "create_company" ∧
      enum.EventType.String enum.EventUpdateCompany = "update_company" ∧
      enum.EventType.String enum.EventDeleteCompany = "delete_company") ∧
    (enum.EventType.IsValid "create_company" = true ∧
      enum.EventType.IsValid "update_company" = true ∧
      enum.EventType.IsValid "delete_company" = true) := by
  refine ⟨?_, createCompany_events decode dbC id eventID now r st g, settle_none D _, ?_,
    updateCompany_events decode dbU eventID now r st g, settle_none D _, ?_,
    deleteCompany_events dbD eventID now r st g, settle_none D _, ⟨rfl, rfl, rfl⟩,
    by decide⟩
  · intro body g1 c st2 g2 hd hc
    rw [createCompany_success decode dbC id eventID now r st st2 g g1 g2 body c hd hc]
    refine ⟨rfl, ?_, (settle_single D _ _ rfl).1, (settle_single D _ _ rfl).2⟩
    obtain ⟨⟨n, hn⟩, ⟨b, hb⟩, -, -⟩ :=
      company_pointers_of_decode decode "CreateCompanyRequest" r g g1 body hd
    simp only [company.CreateCompany, hn, hb] at hc
    rcases hdb : dbC _ st g1 with ⟨e, st3, g3⟩
    rw [hdb] at hc
    cases e with
    | some err => simp at hc
    | none =>
      simp only [Prod.mk.injEq, Panics.returns.injEq, Except.ok.injEq] at hc
      rw [← hc.1]
  · intro body g1 st2 g2 h0 hv hd hc
    obtain ⟨u, hu, hout⟩ :=
      updateCompany_success decode dbU eventID now r st st2 g g1 g2 body h0 hv hd hc
    rw [hout]
    exact ⟨u, hu, rfl, (settle_single D _ _ rfl).1, (settle_single D _ _ rfl).2⟩
  · intro st2 g2 h0 hv hc
    obtain ⟨u, hu, hout⟩ := deleteCompany_success dbD eventID now r st st2 g g2 h0 hv hc
    rw [hout]
    exact ⟨u, hu, rfl, (settle_single D _ _ rfl).1, (settle_single D _ _ rfl).2⟩

theorem one_event_per_success_witness :
    (handler.createCompany (fun _ => .value sample.valid) postgres.CreateCompany
        sample.nilUUID sample.otherUUID 0 sample.bare sample.pool initial).Events =
      [⟨"create_company", 0, sample.otherUUID, sample.nilUUID⟩] ∧
    (handler.settle (events.Dispatch postgres.CreateEvent)
        (handler.createCompany (fun _ => .value sample.valid) postgres.CreateCompany
          sample.nilUUID sample.otherUUID 0 sample.bare sample.pool initial)).Store.events =
      [⟨"create_company", ⟨0, 0, true⟩, sample.otherUUID, sample.nilUUID⟩] :=
  ⟨((one_event_per_success (events.Dispatch postgres.CreateEvent)
        (fun _ => .value sample.valid) postgres.CreateCompany
        (postgres.UpdateCompany uuid.Parse) (postgres.DeleteCompany uuid.Parse)
        sample.nilUUID sample.otherUUID 0 sample.bare sample.pool initial).1
      sample.valid initial sample.validModel
      { sample.pool with companies := [sample.validModel] } initial rfl rfl).1,
    (congrArg postgres.Pool.events
      ((one_event_per_success (events.Dispatch postgres.CreateEvent)
        (fun _ => .value sample.valid) postgres.CreateCompany
        (postgres.UpdateCompany uuid.Parse) (postgres.DeleteCompany uuid.Parse)
        sample.nilUUID sample.otherUUID 0 sample.bare sample.pool initial).1
      sample.valid initial sample.validModel
      { sample.pool with companies := [sample.validModel] } initial rfl rfl).2.2.1).trans
      rfl⟩

/-- C23: a dispatch failure is not surfaced to the client. For every request to
`createCompany`, `updateCompany` or `deleteCompany` and any two dispatchers (one
that returns nil and one that returns an error, say), the response of the request
served with the one is the response of the request served with the other; after a
successful resolver call it is the success response of the handler (the company
for create, the message "company updated" or "company deleted" otherwise, under
the status of the request context, 200 by default), whatever `Dispatch` returns. -/
theorem dispatch_failure_not_surfaced {σ : Type}
    (D1 D2 : events.Event → σ → Sentinels → Option GoError × σ × Sentinels)
    (decode : String → json.Decoded schemas.CreateCompanyRequest)
    (dbC : models.CompanyModel → σ → Sentinels → Option GoError × σ × Sentinels)
    (dbU : String → models.CompanyModel → σ → Sentinels → Option GoError × σ × Sentinels)
    (dbD : String → σ → Sentinels → Option GoError × σ × Sentinels)
    (id eventID : uuid.UUID) (now : Time) (r : Request) (st : σ) (g : Sentinels) :
    (handler.settle D1 (handler.createCompany decode dbC id eventID now r st g)).Response =
      (handler.settle D2 (handler.createCompany decode dbC id eventID now r st g)).Response ∧
    (handler.settle D1 (handler.updateCompany decode dbU eventID now r st g)).Response =
      (handler.settle D2 (handler.updateCompany decode dbU eventID now r st g)).Response ∧
    (handler.settle D1 (handler.deleteCompany dbD eventID now r st g)).Response =
      (handler.settle D2 (handler.deleteCompany dbD eventID now r st g)).Response ∧
    (∀ body g1 c st2 g2,
      binding.DecodeJSONBody decode
        (validator.StructCompanyRequest "CreateCompanyRequest") r g =
          (.returns (.ok body), g1) →
      company.CreateCompany dbC id
        { Name := body.Name, Description := body.Description,
          AmountEmployees := body.AmountEmployees, Registered := body.Registered,
          Type_ := body.Type_ } st g1 = (.returns (.ok c), st2, g2) →
      (handler.settle D1 (handler.createCompany decode dbC id eventID now r st g)).Response =
        some { Status := r.StatusCtx.getD 200, Body := c.MarshalJSON }) ∧
    (∀ body g1 st2 g2,
      r.URLParam "id" ≠ "" → uuid.Validate (r.URLParam "id") = true →
      binding.DecodeJSONBody decode
        (validator.StructCompanyRequest "UpdateCompanyRequest") r g =
          (.returns (.ok body), g1) →
      company.UpdateCompany dbU (r.URLParam "id")
        { Name := body.Name, Description := body.Description,
          AmountEmployees := body.AmountEmployees, Registered := body.Registered,
          Type_ := body.Type_ } st g1 = (.returns none, st2, g2) →
      (handler.settle D1 (handler.updateCompany decode dbU eventID now r st g)).Response =
        some { Status := r.StatusCtx.getD 200,
               Body := [("message", .str "company updated")] }) ∧
    (∀ st2 g2,
      r.URLParam "id" ≠ "" → uuid.Validate (r.URLParam "id") = true →
      company.DeleteCompany dbD (r.URLParam "id") st g = (none, st2, g2) →
      (handler.settle D1 (handler.deleteCompany dbD eventID now r st g)).Response =
        some { Status := r.StatusCtx.getD 200,
               Body := [("message", .str "company deleted")] }) := by
  refine ⟨rfl, rfl, rfl, ?_, ?_, ?_⟩
  · intro body g1 c st2 g2 hd hc
    rw [createCompany_success decode dbC id eventID now r st st2 g g1 g2 body c hd hc]
    rfl
  · intro body g1 st2 g2 h0 hv hd hc
    obtain ⟨u, -, hout⟩ :=
      updateCompany_success decode dbU eventID now r st st2 g g1 g2 body h0 hv hd hc
    rw [hout]
    rfl
  · intro st2 g2 h0 hv hc
    obtain ⟨u, -, hout⟩ := deleteCompany_success dbD eventID now r st st2 g g2 h0 hv hc
    rw [hout]
    rfl

theorem dispatch_failure_not_surfaced_witness :
    (events.Dispatch postgres.CreateEvent
        ⟨"create_company", 0, sample.otherUUID, sample.nilUUID⟩
        { sample.noEvents with companies := [sample.validModel] } initial).1 =
      some (.api .ErrCreatingEvent) ∧
    (handler.settle (events.Dispatch postgres.CreateEvent)
        (handler.createCompany (fun _ => .value sample.valid) postgres.CreateCompany
          sample.nilUUID sample.otherUUID 0 sample.bare sample.noEvents initial)).Response =
      some { Status := 200, Body := sample.validModel.MarshalJSON } :=
  ⟨rfl,
    (dispatch_failure_not_surfaced (events.Dispatch postgres.CreateEvent)
      (fun _ st g => (none, st, g)) (fun _ => .value sample.valid) postgres.CreateCompany
      (postgres.UpdateCompany uuid.Parse) (postgres.DeleteCompany uuid.Parse)
      sample.nilUUID sample.otherUUID 0 sample.bare sample.noEvents initial).2.2.2.1
      sample.valid initial sample.validModel
      { sample.noEvents with companies := [sample.validModel] } initial rfl rfl⟩

/-! ## The error values across operations -/

theorem agree_refl (g : Sentinels) : Agree g g := fun _ => ⟨rfl, rfl, fun _ => rfl⟩

theorem agree_symm {g g' : Sentinels} (h : Agree g g') : Agree g' g := fun e =>
  ⟨(h e).1.symm, (h e).2.1.symm, fun hn => ((h e).2.2 hn).symm⟩

theorem agree_trans {g1 g2 g3 : Sentinels} (h : Agree g1 g2) (k : Agree g2 g3) :
    Agree g1 g3 := fun e =>
  ⟨(h e).1.trans (k e).1, (h e).2.1.trans (k e).2.1,
    fun hn => ((h e).2.2 hn).trans ((k e).2.2 hn)⟩

/-- An assignment to the message of a sentinel that is assigned to somewhere. -/
theorem agree_setMessage (g : Sentinels) (e : Sentinel) (m : String)
    (he : neverAssigned e = false) : Agree (setMessage g e m) g := by
  intro x
  refine ⟨setMessage_code g e x m, setMessage_status g e x m, ?_⟩
  intro hx
  have hne : x ≠ e := by
    intro hxe
    rw [hxe, he] at hx
    exact Bool.false_ne_true hx
  simp [setMessage, Function.update_noteq hne]

/-- The two states after the same operation, from the two states before it. -/
theorem agree_after {g g' g1 g1' : Sentinels} (h : Agree g g') (a : Agree g1 g)
    (b : Agree g1' g') : Agree g1 g1' :=
  agree_trans a (agree_trans h (agree_symm b))

/-- A sentinel whose message has just been assigned reads the same in both states. -/
theorem error_setMessage (g g' : Sentinels) (e : Sentinel) (m : String) :
    (GoError.api e).Error (setMessage g e m) = (GoError.api e).Error (setMessage g' e m) := by
  simp [GoError.Error, APIError.Error, setMessage_message]

/-- A sentinel that is never assigned to reads the same in both states. -/
theorem error_neverAssigned {g g' : Sentinels} (h : Agree g g') (e : Sentinel)
    (he : neverAssigned e = true) :
    (GoError.api e).Error g = (GoError.api e).Error g' := by
  simp only [GoError.Error, APIError.Error]
  exact (h e).2.2 he

theorem agree_pg_getUserByEmail (p : postgres.Pool) (email : String) (g g' : Sentinels) :
    (postgres.GetUserByEmail p email g').1 = (postgres.GetUserByEmail p email g).1 ∧
    Agree (postgres.GetUserByEmail p email g).2 g ∧
    Agree (postgres.GetUserByEmail p email g').2 g' ∧
    ∀ err, (postgres.GetUserByEmail p email g).1 = .error err →
      err.Error (postgres.GetUserByEmail p email g).2 =
        err.Error (postgres.GetUserByEmail p email g').2 := by
  unfold postgres.GetUserByEmail
  cases postgres.selectUserByEmail p email with
  | error err =>
    refine ⟨rfl, agree_setMessage _ _ _ rfl, agree_setMessage _ _ _ rfl, ?_⟩
    intro err he
    cases he
    exact error_setMessage _ _ _ _
  | ok users =>
    cases users with
    | nil =>
      refine ⟨rfl, agree_setMessage _ _ _ rfl, agree_setMessage _ _ _ rfl, ?_⟩
      intro err he
      cases he
      exact error_setMessage _ _ _ _
    | cons u us =>
      refine ⟨rfl, agree_refl _, agree_refl _, ?_⟩
      intro err he
      cases he

theorem agree_pg_createUser (user : models.UserModel) (p : postgres.Pool)
    (g g' : Sentinels) :
    (postgres.CreateUser user p g').1 = (postgres.CreateUser user p g).1 ∧
    (postgres.CreateUser user p g').2.1 = (postgres.CreateUser user p g).2.1 ∧
    Agree (postgres.CreateUser user p g).2.2 g ∧
    Agree (postgres.CreateUser user p g').2.2 g' ∧
    ∀ err, (postgres.CreateUser user p g).1 = some err →
      err.Error (postgres.CreateUser user p g).2.2 =
        err.Error (postgres.CreateUser user p g').2.2 := by
  unfold postgres.CreateUser
  cases postgres.insertUser user p with
  | failed err =>
    refine ⟨rfl, rfl, agree_setMessage _ _ _ rfl, agree_setMessage _ _ _ rfl, ?_⟩
    intro err he
    cases he
    exact error_setMessage _ _ _ _
  | uniqueViolation err =>
    refine ⟨rfl, rfl, agree_setMessage _ _ _ rfl, agree_setMessage _ _ _ rfl, ?_⟩
    intro err he
    cases he
    exact error_setMessage _ _ _ _
  | done p1 =>
    refine ⟨rfl, rfl, agree_refl _, agree_refl _, ?_⟩
    intro err he
    cases he

theorem agree_pg_createCompany (c : models.CompanyModel) (p : postgres.Pool)
    (g g' : Sentinels) :
    (postgres.CreateCompany c p g').1 = (postgres.CreateCompany c p g).1 ∧
    (postgres.CreateCompany c p g').2.1 = (postgres.CreateCompany c p g).2.1 ∧
    Agree (postgres.CreateCompany c p g).2.2 g ∧
    Agree (postgres.CreateCompany c p g').2.2 g' ∧
    ∀ err, (postgres.CreateCompany c p g).1 = some err →
      err.Error (postgres.CreateCompany c p g).2.2 =
        err.Error (postgres.CreateCompany c p g').2.2 := by
  unfold postgres.CreateCompany
  cases postgres.insertCompany c p with
  | error err =>
    refine ⟨rfl, rfl, agree_setMessage _ _ _ rfl, agree_setMessage _ _ _ rfl, ?_⟩
    intro err he
    cases he
    exact error_setMessage _ _ _ _
  | ok p1 =>
    refine ⟨rfl, rfl, agree_refl _, agree_refl _, ?_⟩
    intro err he
    cases he

theorem agree_pg_getCompanyByID (uuid_in : String → Option uuid.UUID) (p : postgres.Pool)
    (id : String) (g g' : Sentinels) :
    (postgres.GetCompanyByID uuid_in p id g').1 = (postgres.GetCompanyByID uuid_in p id g).1 ∧
    Agree (postgres.GetCompanyByID uuid_in p id g).2 g ∧
    Agree (postgres.GetCompanyByID uuid_in p id g').2 g' ∧
    ∀ err, (postgres.GetCompanyByID uuid_in p id g).1 = .error err →
      err.Error (postgres.GetCompanyByID uuid_in p id g).2 =
        err.Error (postgres.GetCompanyByID uuid_in p id g').2 := by
  unfold postgres.GetCompanyByID
  cases postgres.selectCompanyByID uuid_in p id with
  | error err =>
    refine ⟨rfl, agree_setMessage _ _ _ rfl, agree_setMessage _ _ _ rfl, ?_⟩
    intro err he
    cases he
    exact error_setMessage _ _ _ _
  | ok companies =>
    cases companies with
    | nil =>
      refine ⟨rfl, agree_setMessage _ _ _ rfl, agree_setMessage _ _ _ rfl, ?_⟩
      intro err he
      cases he
      exact error_setMessage _ _ _ _
    | cons c cs =>
      refine ⟨rfl, agree_refl _, agree_refl _, ?_⟩
      intro err he
      cases he

theorem agree_pg_updateCompany (uuid_in : String → Option uuid.UUID) (id : String)
    (c : models.CompanyModel) (p : postgres.Pool) (g g' : Sentinels) :
    (postgres.UpdateCompany uuid_in id c p g').1 = (postgres.UpdateCompany uuid_in id c p g).1 ∧
    (postgres.UpdateCompany uuid_in id c p g').2.1 =
      (postgres.UpdateCompany uuid_in id c p g).2.1 ∧
    Agree (postgres.UpdateCompany uuid_in id c p g).2.2 g ∧
    Agree (postgres.UpdateCompany uuid_in id c p g').2.2 g' ∧
    ∀ err, (postgres.UpdateCompany uuid_in id c p g).1 = some err →
      err.Error (postgres.UpdateCompany uuid_in id c p g).2.2 =
        err.Error (postgres.UpdateCompany uuid_in id c p g').2.2 := by
  unfold postgres.UpdateCompany
  cases postgres.updateCompanyRows uuid_in id c p with
  | error err =>
    refine ⟨rfl, rfl, agree_setMessage _ _ _ rfl, agree_setMessage _ _ _ rfl, ?_⟩
    intro err he
    cases he
    exact error_setMessage _ _ _ _
  | ok p1 =>
    refine ⟨rfl, rfl, agree_refl _, agree_refl _, ?_⟩
    intro err he
    cases he

theorem agree_pg_deleteCompany (uuid_in : String → Option uuid.UUID) (id : String)
    (p : postgres.Pool) (g g' : Sentinels) :
    (postgres.DeleteCompany uuid_in id p g').1 = (postgres.DeleteCompany uuid_in id p g).1 ∧
    (postgres.DeleteCompany uuid_in id p g').2.1 = (postgres.DeleteCompany uuid_in id p g).2.1 ∧
    Agree (postgres.DeleteCompany uuid_in id p g).2.2 g ∧
    Agree (postgres.DeleteCompany uuid_in id p g').2.2 g' ∧
    ∀ err, (postgres.DeleteCompany uuid_in id p g).1 = some err →
      err.Error (postgres.DeleteCompany uuid_in id p g).2.2 =
        err.Error (postgres.DeleteCompany uuid_in id p g').2.2 := by
  unfold postgres.DeleteCompany
  cases postgres.deleteCompanyRows uuid_in id p with
  | error err =>
    refine ⟨rfl, rfl, agree_setMessage _ _ _ rfl, agree_setMessage _ _ _ rfl, ?_⟩
    intro err he
    cases he
    exact error_setMessage _ _ _ _
  | ok p1 =>
    refine ⟨rfl, rfl, agree_refl _, agree_refl _, ?_⟩
    intro err he
    cases he

theorem agree_pg_createEvent (event : models.EventModel) (p : postgres.Pool)
    (g g' : Sentinels) :
    (postgres.CreateEvent event p g').1 = (postgres.CreateEvent event p g).1 ∧
    (postgres.CreateEvent event p g').2.1 = (postgres.CreateEvent event p g).2.1 ∧
    Agree (postgres.CreateEvent event p g).2.2 g ∧
    Agree (postgres.CreateEvent event p g').2.2 g' ∧
    ∀ err, (postgres.CreateEvent event p g).1 = some err →
      err.Error (postgres.CreateEvent event p g).2.2 =
        err.Error (postgres.CreateEvent event p g').2.2 := by
  unfold postgres.CreateEvent
  cases postgres.insertEvent event p with
  | error err =>
    refine ⟨rfl, rfl, agree_setMessage _ _ _ rfl, agree_setMessage _ _ _ rfl, ?_⟩
    intro err he
    cases he
    exact error_setMessage _ _ _ _
  | ok p1 =>
    refine ⟨rfl, rfl, agree_refl _, agree_refl _, ?_⟩
    intro err he
    cases he

/-- The message `handleBindingErrors` writes depends on the violations only. -/
theorem handleBindingErrors_message (fe : validator.FieldError)
    (rest : validator.ValidationErrors) :
    ∃ m, ∀ g, binding.handleBindingErrors (.fields (fe :: rest)) g =
      (.returns (.api .ErrInvalidBody), setMessage g .ErrInvalidBody m) := by
  by_cases h1 : fe.Tag = "required"
  · exact ⟨fe.Field ++ " is required and must be a " ++ fe.Type_, fun g => by
      simp [binding.handleBindingErrors, h1]⟩
  by_cases h2 : fe.Tag = "oneof"
  · exact ⟨fe.Field ++ " must be one of: " ++ strings.Join (strings.Split fe.Param " ") ", ",
      fun g => by simp [binding.handleBindingErrors, h1, h2]⟩
  by_cases h3 : fe.Tag = "customOneOf"
  · exact ⟨fe.Field ++ " must be one of: " ++ strings.Join enum.AllCompanyTypesString ", ",
      fun g => by simp [binding.handleBindingErrors, h1, h2, h3]⟩
  by_cases h4 : fe.Tag = "email"
  · exact ⟨fe.Field ++ " must be a valid email address", fun g => by
      simp [binding.handleBindingErrors, h1, h2, h3, h4]⟩
  · exact ⟨validator.ValidationErrors.Error (fe :: rest), fun g => by
      simp [binding.handleBindingErrors, h1, h2, h3, h4]⟩

theorem agree_decodeJSONBody {β : Type} (decode : String → json.Decoded β)
    (Struct : β → validator.ValidationErrors) (r : Request) (g g' : Sentinels) :
    (binding.DecodeJSONBody decode Struct r g').1 =
      (binding.DecodeJSONBody decode Struct r g).1 ∧
    Agree (binding.DecodeJSONBody decode Struct r g).2 g ∧
    Agree (binding.DecodeJSONBody decode Struct r g').2 g' ∧
    ∀ err, (binding.DecodeJSONBody decode Struct r g).1 = .returns (.error err) →
      err.Error (binding.DecodeJSONBody decode Struct r g).2 =
        err.Error (binding.DecodeJSONBody decode Struct r g').2 := by
  unfold binding.DecodeJSONBody
  cases decode r.Body with
  | error msg =>
    refine ⟨rfl, agree_refl _, agree_refl _, ?_⟩
    intro err he
    cases he
    rfl
  | null =>
    refine ⟨rfl, agree_refl _, agree_refl _, ?_⟩
    intro err he
    cases he
  | value v =>
    simp only []
    cases Struct v with
    | nil =>
      refine ⟨rfl, agree_refl _, agree_refl _, ?_⟩
      intro err he
      cases he
    | cons fe rest =>
      obtain ⟨m, hm⟩ := handleBindingErrors_message fe rest
      dsimp only []
      rw [hm g, hm g']
      refine ⟨rfl, agree_setMessage _ _ _ rfl, agree_setMessage _ _ _ rfl, ?_⟩
      intro err he
      cases he
      exact error_setMessage _ _ _ _

theorem agree_decodeToken (P : jwt.Primitives) (secret : String) (now : Time)
    (r : Request) (g g' : Sentinels) :
    (token.DecodeTokenFromRequest P secret now r g').1 =
      (token.DecodeTokenFromRequest P secret now r g).1 ∧
    Agree (token.DecodeTokenFromRequest P secret now r g).2 g ∧
    Agree (token.DecodeTokenFromRequest P secret now r g').2 g' ∧
    ∀ err, (token.DecodeTokenFromRequest P secret now r g).1 = .error err →
      err.Error (token.DecodeTokenFromRequest P secret now r g).2 =
        err.Error (token.DecodeTokenFromRequest P secret now r g').2 := by
  unfold token.DecodeTokenFromRequest
  simp only []
  split_ifs with h1 h2
  · refine ⟨rfl, agree_setMessage _ _ _ rfl, agree_setMessage _ _ _ rfl, ?_⟩
    intro err he
    cases he
    exact error_setMessage _ _ _ _
  · refine ⟨rfl, agree_setMessage _ _ _ rfl, agree_setMessage _ _ _ rfl, ?_⟩
    intro err he
    cases he
    exact error_setMessage _ _ _ _
  · cases token.ValidateAndParseToken P secret now
        (strings.TrimPrefix (r.HeaderGet "Authorization") "Bearer ") with
    | error f =>
      refine ⟨rfl, agree_setMessage _ _ _ rfl, agree_setMessage _ _ _ rfl, ?_⟩
      intro err he
      cases he
      exact error_setMessage _ _ _ _
    | ok c =>
      refine ⟨rfl, agree_refl _, agree_refl _, ?_⟩
      intro err he
      cases he

/-- `wrapError` writes the same response in two states in which the error reads the
same. -/
theorem agree_wrapError (r : Request) (err : GoError) {g g' : Sentinels}
    (h : Agree g g') (he : err.Error g = err.Error g') :
    (handler.wrapError r err g').1 = (handler.wrapError r err g).1 ∧
    Agree (handler.wrapError r err g).2 g ∧ Agree (handler.wrapError r err g').2 g' := by
  cases err with
  | plain msg =>
    refine ⟨?_, agree_setMessage _ _ _ rfl, agree_setMessage _ _ _ rfl⟩
    simp only [handler.wrapError, render.JSON, APIError.MarshalJSON, setMessage_code,
      setMessage_message, (h .ErrInternalServer).1]
  | api e =>
    refine ⟨?_, agree_refl _, agree_refl _⟩
    simp only [GoError.Error, APIError.Error] at he
    simp only [handler.wrapError, render.JSON, render.Status, APIError.MarshalJSON,
      (h e).1, (h e).2.1, he]

theorem agree_login (P : jwt.Primitives) (H : crypto.Primitives) (secret : String)
    (p : postgres.Pool) (now1 now2 : Time) (email password : String) {g g' : Sentinels}
    (h : Agree g g') :
    (auth.Login P H secret (postgres.GetUserByEmail p) now1 now2 email password g').1 =
      (auth.Login P H secret (postgres.GetUserByEmail p) now1 now2 email password g).1 ∧
    Agree (auth.Login P H secret (postgres.GetUserByEmail p) now1 now2 email password g).2 g ∧
    Agree (auth.Login P H secret (postgres.GetUserByEmail p) now1 now2 email password g').2
      g' ∧
    ∀ err,
      (auth.Login P H secret (postgres.GetUserByEmail p) now1 now2 email password g).1 =
        .error err →
      err.Error
          (auth.Login P H secret (postgres.GetUserByEmail p) now1 now2 email password g).2 =
        err.Error
          (auth.Login P H secret (postgres.GetUserByEmail p) now1 now2 email password g').2 := by
  unfold auth.Login
  have hl := agree_pg_getUserByEmail p email g g'
  rcases hx : postgres.GetUserByEmail p email g with ⟨res, g1⟩
  rcases hx' : postgres.GetUserByEmail p email g' with ⟨res', g1'⟩
  rw [hx, hx'] at hl
  obtain ⟨e1, a1, b1, t1⟩ := hl
  dsimp only at e1 a1 b1 t1
  subst e1
  cases res' with
  | error err =>
    refine ⟨rfl, a1, b1, ?_⟩
    intro e he
    cases he
    exact t1 err rfl
  | ok user =>
    dsimp only []
    split_ifs with hpw
    · refine ⟨rfl, a1, b1, ?_⟩
      intro e he
      cases he
      exact error_neverAssigned (agree_after h a1 b1) _ rfl
    · cases token.GenerateToken P secret now1 now2 user.ID.String email with
      | error e0 =>
        refine ⟨rfl, a1, b1, ?_⟩
        intro e he
        cases he
        rfl
      | ok tk =>
        refine ⟨rfl, a1, b1, ?_⟩
        intro e he
        cases he

theorem agree_createCompany (id : uuid.UUID) (input : inputs.CreateCompanyInput)
    (p : postgres.Pool) (g g' : Sentinels) :
    (company.CreateCompany postgres.CreateCompany id input p g').1 =
      (company.CreateCompany postgres.CreateCompany id input p g).1 ∧
    (company.CreateCompany postgres.CreateCompany id input p g').2.1 =
      (company.CreateCompany postgres.CreateCompany id input p g).2.1 ∧
    Agree (company.CreateCompany postgres.CreateCompany id input p g).2.2 g ∧
    Agree (company.CreateCompany postgres.CreateCompany id input p g').2.2 g' ∧
    ∀ err,
      (company.CreateCompany postgres.CreateCompany id input p g).1 =
        .returns (.error err) →
      err.Error (company.CreateCompany postgres.CreateCompany id input p g).2.2 =
        err.Error (company.CreateCompany postgres.CreateCompany id input p g').2.2 := by
  unfold company.CreateCompany
  cases input.AmountEmployees with
  | none =>
    refine ⟨rfl, rfl, agree_refl _, agree_refl _, ?_⟩
    intro e he
    cases he
  | some n =>
    cases input.Registered with
    | none =>
      refine ⟨rfl, rfl, agree_refl _, agree_refl _, ?_⟩
      intro e he
      cases he
    | some b =>
      dsimp only []
      have hl := agree_pg_createCompany
        { ID := id, Name := input.Name, Description := input.Description,
          AmountEmployees := n, Registered := b, Type_ := input.Type_ } p g g'
      rcases hx : postgres.CreateCompany
        { ID := id, Name := input.Name, Description := input.Description,
          AmountEmployees := n, Registered := b, Type_ := input.Type_ } p g with
        ⟨res, p1, g1⟩
      rcases hx' : postgres.CreateCompany
        { ID := id, Name := input.Name, Description := input.Description,
          AmountEmployees := n, Registered := b, Type_ := input.Type_ } p g' with
        ⟨res', p1', g1'⟩
      rw [hx, hx'] at hl
      obtain ⟨e1, e2, a1, b1, t1⟩ := hl
      dsimp only at e1 e2 a1 b1 t1
      subst e1
      subst e2
      cases res' with
      | some err =>
        refine ⟨rfl, rfl, a1, b1, ?_⟩
        intro e he
        cases he
        exact t1 err rfl
      | none =>
        refine ⟨rfl, rfl, a1, b1, ?_⟩
        intro e he
        cases he

theorem agree_getCompanyByID (uuid_in : String → Option uuid.UUID) (p : postgres.Pool)
    (id : String) {g g' : Sentinels} (h : Agree g g') :
    (company.GetCompanyByID (postgres.GetCompanyByID uuid_in p) id g').1 =
      (company.GetCompanyByID (postgres.GetCompanyByID uuid_in p) id g).1 ∧
    Agree (company.GetCompanyByID (postgres.GetCompanyByID uuid_in p) id g).2 g ∧
    Agree (company.GetCompanyByID (postgres.GetCompanyByID uuid_in p) id g').2 g' ∧
    ∀ err,
      (company.GetCompanyByID (postgres.GetCompanyByID uuid_in p) id g).1 = .error err →
      err.Error (company.GetCompanyByID (postgres.GetCompanyByID uuid_in p) id g).2 =
        err.Error (company.GetCompanyByID (postgres.GetCompanyByID uuid_in p) id g').2 := by
  cases hp : uuid.Parse id with
  | none =>
    unfold company.GetCompanyByID
    rw [hp]
    refine ⟨rfl, agree_refl _, agree_refl _, ?_⟩
    intro e he
    cases he
    exact error_neverAssigned h _ rfl
  | some u =>
    have hne : uuid.Parse id ≠ none := by simp [hp]
    rw [getCompanyByID_parsed _ id g hne, getCompanyByID_parsed _ id g' hne]
    exact agree_pg_getCompanyByID uuid_in p id g g'

theorem agree_updateCompany (uuid_in : String → Option uuid.UUID) (id : String)
    (input : inputs.UpdateCompany) (p : postgres.Pool) {g g' : Sentinels}
    (h : Agree g g') :
    (company.UpdateCompany (postgres.UpdateCompany uuid_in) id input p g').1 =
      (company.UpdateCompany (postgres.UpdateCompany uuid_in) id input p g).1 ∧
    (company.UpdateCompany (postgres.UpdateCompany uuid_in) id input p g').2.1 =
      (company.UpdateCompany (postgres.UpdateCompany uuid_in) id input p g).2.1 ∧
    Agree (company.UpdateCompany (postgres.UpdateCompany uuid_in) id input p g).2.2 g ∧
    Agree (company.UpdateCompany (postgres.UpdateCompany uuid_in) id input p g').2.2 g' ∧
    ∀ err,
      (company.UpdateCompany (postgres.UpdateCompany uuid_in) id input p g).1 =
        .returns (some err) →
      err.Error (company.UpdateCompany (postgres.UpdateCompany uuid_in) id input p g).2.2 =
        err.Error
          (company.UpdateCompany (postgres.UpdateCompany uuid_in) id input p g').2.2 := by
  unfold company.UpdateCompany
  cases uuid.Parse id with
  | none =>
    refine ⟨rfl, rfl, agree_refl _, agree_refl _, ?_⟩
    intro e he
    cases he
    exact error_neverAssigned h _ rfl
  | some u =>
    dsimp only []
    cases input.AmountEmployees with
    | none =>
      refine ⟨rfl, rfl, agree_refl _, agree_refl _, ?_⟩
      intro e he
      cases he
    | some n =>
      cases input.Registered with
      | none =>
        refine ⟨rfl, rfl, agree_refl _, agree_refl _, ?_⟩
        intro e he
        cases he
      | some b =>
        dsimp only []
        have hl := agree_pg_updateCompany uuid_in id
          { ID := u, Name := input.Name, Description := input.Description,
            AmountEmployees := n, Registered := b, Type_ := input.Type_ } p g g'
        rcases hx : postgres.UpdateCompany uuid_in id
          { ID := u, Name := input.Name, Description := input.Description,
            AmountEmployees := n, Registered := b, Type_ := input.Type_ } p g with
          ⟨res, p1, g1⟩
        rcases hx' : postgres.UpdateCompany uuid_in id
          { ID := u, Name := input.Name, Description := input.Description,
            AmountEmployees := n, Registered := b, Type_ := input.Type_ } p g' with
          ⟨res', p1', g1'⟩
        rw [hx, hx'] at hl
        obtain ⟨e1, e2, a1, b1, t1⟩ := hl
        dsimp only at e1 e2 a1 b1 t1
        subst e1
        subst e2
        cases res' with
        | some err =>
          refine ⟨rfl, rfl, a1, b1, ?_⟩
          intro e he
          cases he
          exact t1 err rfl
        | none =>
          refine ⟨rfl, rfl, a1, b1, ?_⟩
          intro e he
          cases he

theorem agree_deleteCompany (uuid_in : String → Option uuid.UUID) (id : String)
    (p : postgres.Pool) {g g' : Sentinels} (h : Agree g g') :
    (company.DeleteCompany (postgres.DeleteCompany uuid_in) id p g').1 =
      (company.DeleteCompany (postgres.DeleteCompany uuid_in) id p g).1 ∧
    (company.DeleteCompany (postgres.DeleteCompany uuid_in) id p g').2.1 =
      (company.DeleteCompany (postgres.DeleteCompany uuid_in) id p g).2.1 ∧
    Agree (company.DeleteCompany (postgres.DeleteCompany uuid_in) id p g).2.2 g ∧
    Agree (company.DeleteCompany (postgres.DeleteCompany uuid_in) id p g').2.2 g' ∧
    ∀ err,
      (company.DeleteCompany (postgres.DeleteCompany uuid_in) id p g).1 = some err →
      err.Error (company.DeleteCompany (postgres.DeleteCompany uuid_in) id p g).2.2 =
        err.Error (company.DeleteCompany (postgres.DeleteCompany uuid_in) id p g').2.2 := by
  cases hp : uuid.Parse id with
  | none =>
    unfold company.DeleteCompany
    rw [hp]
    refine ⟨rfl, rfl, agree_refl _, agree_refl _, ?_⟩
    intro e he
    cases he
    exact error_neverAssigned h _ rfl
  | some u =>
    have hne : uuid.Parse id ≠ none := by simp [hp]
    rw [deleteCompany_parsed _ id p g hne, deleteCompany_parsed _ id p g' hne]
    exact agree_pg_deleteCompany uuid_in id p g g'

theorem agree_dispatch (event : events.Event) (p : postgres.Pool) (g g' : Sentinels) :
    (events.Dispatch postgres.CreateEvent event p g').1 =
      (events.Dispatch postgres.CreateEvent event p g).1 ∧
    (events.Dispatch postgres.CreateEvent event p g').2.1 =
      (events.Dispatch postgres.CreateEvent event p g).2.1 ∧
    Agree (events.Dispatch postgres.CreateEvent event p g).2.2 g ∧
    Agree (events.Dispatch postgres.CreateEvent event p g').2.2 g' ∧
    ∀ err, (events.Dispatch postgres.CreateEvent event p g).1 = some err →
      err.Error (events.Dispatch postgres.CreateEvent event p g).2.2 =
        err.Error (events.Dispatch postgres.CreateEvent event p g').2.2 := by
  unfold events.Dispatch
  dsimp only []
  have hl := agree_pg_createEvent
    ⟨event.Type_, ⟨event.Timestamp, 0, true⟩, event.ID, event.EntityID⟩ p g g'
  rcases hx : postgres.CreateEvent
    ⟨event.Type_, ⟨event.Timestamp, 0, true⟩, event.ID, event.EntityID⟩ p g with
    ⟨res, p1, g1⟩
  rcases hx' : postgres.CreateEvent
    ⟨event.Type_, ⟨event.Timestamp, 0, true⟩, event.ID, event.EntityID⟩ p g' with
    ⟨res', p1', g1'⟩
  rw [hx, hx'] at hl
  obtain ⟨e1, e2, a1, b1, t1⟩ := hl
  dsimp only at e1 e2 a1 b1 t1
  subst e1
  subst e2
  cases res' with
  | some err =>
    have ht := t1 err rfl
    dsimp only []
    rw [ht]
    refine ⟨rfl, rfl, agree_trans (agree_setMessage _ _ _ rfl) a1,
      agree_trans (agree_setMessage _ _ _ rfl) b1, ?_⟩
    intro e he
    cases he
    exact error_setMessage _ _ _ _
  | none =>
    refine ⟨rfl, rfl, a1, b1, ?_⟩
    intro e he
    cases he

theorem alike_wrapError {σ : Type} (r : Request) (err : GoError) (st : σ)
    {g0 g0' g g' : Sentinels} (h0 : Agree g0 g0') (a : Agree g g0) (b : Agree g' g0')
    (he : err.Error g = err.Error g') :
    handler.Alike g0 g0'
      (⟨some (handler.wrapError r err g).1, [], st, (handler.wrapError r err g).2⟩ :
        handler.Outcome σ)
      ⟨some (handler.wrapError r err g').1, [], st, (handler.wrapError r err g').2⟩ := by
  obtain ⟨x, y, z⟩ := agree_wrapError r err (agree_after h0 a b) he
  exact ⟨congrArg some x, rfl, rfl, agree_trans y a, agree_trans z b⟩

theorem alike_invalidBody {σ : Type} (r : Request) (err : GoError) (st : σ)
    {g0 g0' g g' : Sentinels} (h0 : Agree g0 g0') (a : Agree g g0) (b : Agree g' g0')
    (he : err.Error g = err.Error g') :
    handler.Alike g0 g0' (handler.invalidBody r err st g)
      (handler.invalidBody r err st g') := by
  unfold handler.invalidBody
  dsimp only []
  rw [he]
  exact alike_wrapError r _ st h0 (agree_trans (agree_setMessage _ _ _ rfl) a)
    (agree_trans (agree_setMessage _ _ _ rfl) b) (error_setMessage _ _ _ _)

theorem alike_register (decode : String → json.Decoded schemas.RegisterRequest)
    (isEmail : String → Bool) (H : crypto.Primitives) (id : uuid.UUID) (r : Request)
    (p : postgres.Pool) {g g' : Sentinels} (h : Agree g g') :
    handler.Alike g g' (handler.register decode isEmail H postgres.CreateUser id r p g)
      (handler.register decode isEmail H postgres.CreateUser id r p g') := by
  unfold handler.register
  have hl := agree_decodeJSONBody decode
    (validator.StructRegisterRequest isEmail "RegisterRequest") r g g'
  rcases hx : binding.DecodeJSONBody decode
    (validator.StructRegisterRequest isEmail "RegisterRequest") r g with ⟨res, g1⟩
  rcases hx' : binding.DecodeJSONBody decode
    (validator.StructRegisterRequest isEmail "RegisterRequest") r g' with ⟨res', g1'⟩
  rw [hx, hx'] at hl
  obtain ⟨e1, a1, b1, t1⟩ := hl
  dsimp only at e1 a1 b1 t1
  subst e1
  cases res' with
  | panic => exact ⟨rfl, rfl, rfl, a1, b1⟩
  | returns x =>
    cases x with
    | error err => exact alike_invalidBody r err p h a1 b1 (t1 err rfl)
    | ok body =>
      dsimp only []
      rw [register_eq, register_eq]
      have hl2 := agree_pg_createUser
        { ID := id, Email := body.Email, EncPassword := crypto.Md5Hash H body.Password }
        p g1 g1'
      rcases hy : postgres.CreateUser
        { ID := id, Email := body.Email, EncPassword := crypto.Md5Hash H body.Password }
        p g1 with ⟨res2, p2, g2⟩
      rcases hy' : postgres.CreateUser
        { ID := id, Email := body.Email, EncPassword := crypto.Md5Hash H body.Password }
        p g1' with ⟨res2', p2', g2'⟩
      rw [hy, hy'] at hl2
      obtain ⟨e2, e3, a2, b2, t2⟩ := hl2
      dsimp only at e2 e3 a2 b2 t2
      subst e2
      subst e3
      cases res2' with
      | some err =>
        exact alike_wrapError r err p2' h (agree_trans a2 a1) (agree_trans b2 b1)
          (t2 err rfl)
      | none => exact ⟨rfl, rfl, rfl, agree_trans a2 a1, agree_trans b2 b1⟩

theorem alike_login (decode : String → json.Decoded schemas.LoginRequest)
    (isEmail : String → Bool) (P : jwt.Primitives) (H : crypto.Primitives)
    (secret : String) (p : postgres.Pool) (now1 now2 : Time) (r : Request)
    {g g' : Sentinels} (h : Agree g g') :
    handler.Alike g g'
      (handler.login decode isEmail P H secret (postgres.GetUserByEmail p) now1 now2 r g)
      (handler.login decode isEmail P H secret (postgres.GetUserByEmail p) now1 now2 r g') := by
  unfold handler.login
  have hl := agree_decodeJSONBody decode
    (validator.StructRegisterRequest isEmail "LoginRequest") r g g'
  rcases hx : binding.DecodeJSONBody decode
    (validator.StructRegisterRequest isEmail "LoginRequest") r g with ⟨res, g1⟩
  rcases hx' : binding.DecodeJSONBody decode
    (validator.StructRegisterRequest isEmail "LoginRequest") r g' with ⟨res', g1'⟩
  rw [hx, hx'] at hl
  obtain ⟨e1, a1, b1, t1⟩ := hl
  dsimp only at e1 a1 b1 t1
  subst e1
  cases res' with
  | panic => exact ⟨rfl, rfl, rfl, a1, b1⟩
  | returns x =>
    cases x with
    | error err => exact alike_invalidBody r err () h a1 b1 (t1 err rfl)
    | ok body =>
      dsimp only []
      have hl2 := agree_login P H secret p now1 now2 body.Email body.Password
        (agree_after h a1 b1)
      rcases hy : auth.Login P H secret (postgres.GetUserByEmail p) now1 now2 body.Email
        body.Password g1 with ⟨res2, g2⟩
      rcases hy' : auth.Login P H secret (postgres.GetUserByEmail p) now1 now2 body.Email
        body.Password g1' with ⟨res2', g2'⟩
      rw [hy, hy'] at hl2
      obtain ⟨e2, a2, b2, t2⟩ := hl2
      dsimp only at e2 a2 b2 t2
      subst e2
      cases res2' with
      | error err =>
        exact alike_wrapError r err () h (agree_trans a2 a1) (agree_trans b2 b1)
          (t2 err rfl)
      | ok tk => exact ⟨rfl, rfl, rfl, agree_trans a2 a1, agree_trans b2 b1⟩

theorem alike_createCompany (decode : String → json.Decoded schemas.CreateCompanyRequest)
    (id eventID : uuid.UUID) (now : Time) (r : Request) (p : postgres.Pool)
    {g g' : Sentinels} (h : Agree g g') :
    handler.Alike g g'
      (handler.createCompany decode postgres.CreateCompany id eventID now r p g)
      (handler.createCompany decode postgres.CreateCompany id eventID now r p g') := by
  unfold handler.createCompany
  have hl := agree_decodeJSONBody decode
    (validator.StructCompanyRequest "CreateCompanyRequest") r g g'
  rcases hx : binding.DecodeJSONBody decode
    (validator.StructCompanyRequest "CreateCompanyRequest") r g with ⟨res, g1⟩
  rcases hx' : binding.DecodeJSONBody decode
    (validator.StructCompanyRequest "CreateCompanyRequest") r g' with ⟨res', g1'⟩
  rw [hx, hx'] at hl
  obtain ⟨e1, a1, b1, t1⟩ := hl
  dsimp only at e1 a1 b1 t1
  subst e1
  cases res' with
  | panic => exact ⟨rfl, rfl, rfl, a1, b1⟩
  | returns x =>
    cases x with
    | error err => exact alike_invalidBody r err p h a1 b1 (t1 err rfl)
    | ok body =>
      dsimp only []
      have hl2 := agree_createCompany id
        { Name := body.Name, Description := body.Description,
          AmountEmployees := body.AmountEmployees, Registered := body.Registered,
          Type_ := body.Type_ } p g1 g1'
      rcases hy : company.CreateCompany postgres.CreateCompany id
        { Name := body.Name, Description := body.Description,
          AmountEmployees := body.AmountEmployees, Registered := body.Registered,
          Type_ := body.Type_ } p g1 with ⟨res2, p2, g2⟩
      rcases hy' : company.CreateCompany postgres.CreateCompany id
        { Name := body.Name, Description := body.Description,
          AmountEmployees := body.AmountEmployees, Registered := body.Registered,
          Type_ := body.Type_ } p g1' with ⟨res2', p2', g2'⟩
      rw [hy, hy'] at hl2
      obtain ⟨e2, e3, a2, b2, t2⟩ := hl2
      dsimp only at e2 e3 a2 b2 t2
      subst e2
      subst e3
      cases res2' with
      | panic => exact ⟨rfl, rfl, rfl, agree_trans a2 a1, agree_trans b2 b1⟩
      | returns y =>
        cases y with
        | error err =>
          exact alike_wrapError r err p2' h (agree_trans a2 a1) (agree_trans b2 b1)
            (t2 err rfl)
        | ok c => exact ⟨rfl, rfl, rfl, agree_trans a2 a1, agree_trans b2 b1⟩

theorem alike_getCompany (uuid_in : String → Option uuid.UUID) (p : postgres.Pool)
    (r : Request) {g g' : Sentinels} (h : Agree g g') :
    handler.Alike g g' (handler.getCompany (postgres.GetCompanyByID uuid_in p) r g)
      (handler.getCompany (postgres.GetCompanyByID uuid_in p) r g') := by
  unfold handler.getCompany
  dsimp only []
  split_ifs with h0 hv
  · exact alike_wrapError r _ () h (agree_refl _) (agree_refl _)
      (error_neverAssigned h _ rfl)
  · exact alike_wrapError r _ () h (agree_refl _) (agree_refl _)
      (error_neverAssigned h _ rfl)
  · have hl2 := agree_getCompanyByID uuid_in p (r.URLParam "id") h
    rcases hy : company.GetCompanyByID (postgres.GetCompanyByID uuid_in p)
      (r.URLParam "id") g with ⟨res2, g2⟩
    rcases hy' : company.GetCompanyByID (postgres.GetCompanyByID uuid_in p)
      (r.URLParam "id") g' with ⟨res2', g2'⟩
    rw [hy, hy'] at hl2
    obtain ⟨e2, a2, b2, t2⟩ := hl2
    dsimp only at e2 a2 b2 t2
    subst e2
    cases res2' with
    | error err => exact alike_wrapError r err () h a2 b2 (t2 err rfl)
    | ok c => exact ⟨rfl, rfl, rfl, a2, b2⟩

theorem alike_updateCompany (decode : String → json.Decoded schemas.UpdateCompanyRequest)
    (uuid_in : String → Option uuid.UUID) (eventID : uuid.UUID) (now : Time) (r : Request)
    (p : postgres.Pool) {g g' : Sentinels} (h : Agree g g') :
    handler.Alike g g'
      (handler.updateCompany decode (postgres.UpdateCompany uuid_in) eventID now r p g)
      (handler.updateCompany decode (postgres.UpdateCompany uuid_in) eventID now r p g') := by
  unfold handler.updateCompany
  dsimp only []
  split_ifs with h0 hv
  · exact alike_wrapError r _ p h (agree_refl _) (agree_refl _)
      (error_neverAssigned h _ rfl)
  · exact alike_wrapError r _ p h (agree_refl _) (agree_refl _)
      (error_neverAssigned h _ rfl)
  · have hl := agree_decodeJSONBody decode
      (validator.StructCompanyRequest "UpdateCompanyRequest") r g g'
    rcases hx : binding.DecodeJSONBody decode
      (validator.StructCompanyRequest "UpdateCompanyRequest") r g with ⟨res, g1⟩
    rcases hx' : binding.DecodeJSONBody decode
      (validator.StructCompanyRequest "UpdateCompanyRequest") r g' with ⟨res', g1'⟩
    rw [hx, hx'] at hl
    obtain ⟨e1, a1, b1, t1⟩ := hl
    dsimp only at e1 a1 b1 t1
    subst e1
    cases res' with
    | panic => exact ⟨rfl, rfl, rfl, a1, b1⟩
    | returns x =>
      cases x with
      | error err => exact alike_invalidBody r err p h a1 b1 (t1 err rfl)
      | ok body =>
        dsimp only []
        have hl2 := agree_updateCompany uuid_in (r.URLParam "id")
          { Name := body.Name, Description := body.Description,
            AmountEmployees := body.AmountEmployees, Registered := body.Registered,
            Type_ := body.Type_ } p (agree_after h a1 b1)
        rcases hy : company.UpdateCompany (postgres.UpdateCompany uuid_in)
          (r.URLParam "id")
          { Name := body.Name, Description := body.Description,
            AmountEmployees := body.AmountEmployees, Registered := body.Registered,
            Type_ := body.Type_ } p g1 with ⟨res2, p2, g2⟩
        rcases hy' : company.UpdateCompany (postgres.UpdateCompany uuid_in)
          (r.URLParam "id")
          { Name := body.Name, Description := body.Description,
            AmountEmployees := body.AmountEmployees, Registered := body.Registered,
            Type_ := body.Type_ } p g1' with ⟨res2', p2', g2'⟩
        rw [hy, hy'] at hl2
        obtain ⟨e2, e3, a2, b2, t2⟩ := hl2
        dsimp only at e2 e3 a2 b2 t2
        subst e2
        subst e3
        cases res2' with
        | panic => exact ⟨rfl, rfl, rfl, agree_trans a2 a1, agree_trans b2 b1⟩
        | returns y =>
          cases y with
          | some err =>
            exact alike_wrapError r err p2' h (agree_trans a2 a1) (agree_trans b2 b1)
              (t2 err rfl)
          | none =>
            dsimp only []
            cases uuid.Parse (r.URLParam "id") with
            | none => exact ⟨rfl, rfl, rfl, agree_trans a2 a1, agree_trans b2 b1⟩
            | some u => exact ⟨rfl, rfl, rfl, agree_trans a2 a1, agree_trans b2 b1⟩

theorem alike_deleteCompany (uuid_in : String → Option uuid.UUID) (eventID : uuid.UUID)
    (now : Time) (r : Request) (p : postgres.Pool) {g g' : Sentinels} (h : Agree g g') :
    handler.Alike g g'
      (handler.deleteCompany (postgres.DeleteCompany uuid_in) eventID now r p g)
      (handler.deleteCompany (postgres.DeleteCompany uuid_in) eventID now r p g') := by
  unfold handler.deleteCompany
  dsimp only []
  split_ifs with h0 hv
  · exact alike_wrapError r _ p h (agree_refl _) (agree_refl _)
      (error_neverAssigned h _ rfl)
  · exact alike_wrapError r _ p h (agree_refl _) (agree_refl _)
      (error_neverAssigned h _ rfl)
  · have hl2 := agree_deleteCompany uuid_in (r.URLParam "id") p h
    rcases hy : company.DeleteCompany (postgres.DeleteCompany uuid_in)
      (r.URLParam "id") p g with ⟨res2, p2, g2⟩
    rcases hy' : company.DeleteCompany (postgres.DeleteCompany uuid_in)
      (r.URLParam "id") p g' with ⟨res2', p2', g2'⟩
    rw [hy, hy'] at hl2
    obtain ⟨e2, e3, a2, b2, t2⟩ := hl2
    dsimp only at e2 e3 a2 b2 t2
    subst e2
    subst e3
    cases res2' with
    | some err => exact alike_wrapError r err p2' h a2 b2 (t2 err rfl)
    | none =>
      dsimp only []
      cases uuid.Parse (r.URLParam "id") with
      | none => exact ⟨rfl, rfl, rfl, a2, b2⟩
      | some u => exact ⟨rfl, rfl, rfl, a2, b2⟩

theorem agree_middleware (P : jwt.Primitives) (secret : String) (nowParse nowCheck : Time)
    (r : Request) {g g' : Sentinels} (h : Agree g g') :
    (middleware.UserMustBeAuthenticated P secret nowParse nowCheck r g').1 =
      (middleware.UserMustBeAuthenticated P secret nowParse nowCheck r g).1 ∧
    Agree (middleware.UserMustBeAuthenticated P secret nowParse nowCheck r g).2 g ∧
    Agree (middleware.UserMustBeAuthenticated P secret nowParse nowCheck r g').2 g' := by
  unfold middleware.UserMustBeAuthenticated
  have hl := agree_decodeToken P secret nowParse r g g'
  rcases hx : token.DecodeTokenFromRequest P secret nowParse r g with ⟨res, g1⟩
  rcases hx' : token.DecodeTokenFromRequest P secret nowParse r g' with ⟨res', g1'⟩
  rw [hx, hx'] at hl
  obtain ⟨e1, a1, b1, t1⟩ := hl
  dsimp only at e1 a1 b1 t1
  subst e1
  have hag := agree_after h a1 b1
  cases res' with
  | error err =>
    cases err with
    | api e =>
      have ht := t1 (.api e) rfl
      simp only [GoError.Error, APIError.Error] at ht
      refine ⟨?_, a1, b1⟩
      simp only [render.JSON, render.Status, APIError.MarshalJSON, (hag e).1,
        (hag e).2.1, ht]
    | plain m => exact ⟨rfl, a1, b1⟩
  | ok claims =>
    dsimp only []
    cases claims.ExpiresAt with
    | none => exact ⟨rfl, a1, b1⟩
    | some exp =>
      dsimp only []
      split_ifs with hexp
      · refine ⟨?_, agree_trans (agree_setMessage _ _ _ rfl) a1,
          agree_trans (agree_setMessage _ _ _ rfl) b1⟩
        simp only [render.JSON, render.Status, APIError.MarshalJSON, setMessage_code,
          setMessage_status, setMessage_message, (hag .ErrTokenExpired).1,
          (hag .ErrTokenExpired).2.1]
      · exact ⟨rfl, a1, b1⟩

/-- C26: the error values keep their code and status, and no response carries a
message of an earlier failure. Let `g` and `g'` be two states of the error values
that agree on every `Code` and `HTTPStatus` and on the `Message` of the sentinels
that no statement assigns to (`ErrInvalidCredentials`, `ErrInvalidUUID`,
`ErrCompanyIDRequired`, `ErrUnauthorized`), and differ in any way in the messages
earlier operations may have written. Then each of the six handlers, served by the
postgres adapter, writes the same response, starts the same events and leaves the
same store from `g` as from `g'`, the middleware ends the same way, and `Dispatch`
returns the same; and the error values each of them leaves agree with the ones it
started from: every `Code` and `HTTPStatus` is as before, and so is the `Message`
of the sentinels that are never assigned to. -/
theorem sentinels_stable_messages_fresh
    (decodeR : String → json.Decoded schemas.RegisterRequest)
    (decodeC : String → json.Decoded schemas.CreateCompanyRequest)
    (isEmail : String → Bool) (P : jwt.Primitives) (H : crypto.Primitives)
    (secret : String) (uuid_in : String → Option uuid.UUID) (id eventID : uuid.UUID)
    (now now1 now2 : Time) (r : Request) (p : postgres.Pool) (event : events.Event)
    (g g' : Sentinels) (h : Agree g g') :
    handler.Alike g g' (handler.register decodeR isEmail H postgres.CreateUser id r p g)
      (handler.register decodeR isEmail H postgres.CreateUser id r p g') ∧
    handler.Alike g g'
      (handler.login decodeR isEmail P H secret (postgres.GetUserByEmail p) now1 now2 r g)
      (handler.login decodeR isEmail P H secret (postgres.GetUserByEmail p) now1 now2 r g') ∧
    handler.Alike g g'
      (handler.createCompany decodeC postgres.CreateCompany id eventID now r p g)
      (handler.createCompany decodeC postgres.CreateCompany id eventID now r p g') ∧
    handler.Alike g g' (handler.getCompany (postgres.GetCompanyByID uuid_in p) r g)
      (handler.getCompany (postgres.GetCompanyByID uuid_in p) r g') ∧
    handler.Alike g g'
      (handler.updateCompany decodeC (postgres.UpdateCompany uuid_in) eventID now r p g)
      (handler.updateCompany decodeC (postgres.UpdateCompany uuid_in) eventID now r p g') ∧
    handler.Alike g g'
      (handler.deleteCompany (postgres.DeleteCompany uuid_in) eventID now r p g)
      (handler.deleteCompany (postgres.DeleteCompany uuid_in) eventID now r p g') ∧
    ((middleware.UserMustBeAuthenticated P secret now1 now2 r g').1 =
        (middleware.UserMustBeAuthenticated P secret now1 now2 r g).1 ∧
      Agree (middleware.UserMustBeAuthenticated P secret now1 now2 r g).2 g ∧
      Agree (middleware.UserMustBeAuthenticated P secret now1 now2 r g').2 g') ∧
    ((events.Dispatch postgres.CreateEvent event p g').1 =
        (events.Dispatch postgres.CreateEvent event p g).1 ∧
      (events.Dispatch postgres.CreateEvent event p g').2.1 =
        (events.Dispatch postgres.CreateEvent event p g).2.1 ∧
      Agree (events.Dispatch postgres.CreateEvent event p g).2.2 g ∧
      Agree (events.Dispatch postgres.CreateEvent event p g').2.2 g' ∧
      ∀ err, (events.Dispatch postgres.CreateEvent event p g).1 = some err →
        err.Error (events.Dispatch postgres.CreateEvent event p g).2.2 =
          err.Error (events.Dispatch postgres.CreateEvent event p g').2.2) :=
  ⟨alike_register decodeR isEmail H id r p h,
    alike_login decodeR isEmail P H secret p now1 now2 r h,
    alike_createCompany decodeC id eventID now r p h,
    alike_getCompany uuid_in p r h,
    alike_updateCompany decodeC uuid_in eventID now r p h,
    alike_deleteCompany uuid_in eventID now r p h,
    agree_middleware P secret now1 now2 r h,
    agree_dispatch event p g g'⟩

theorem sentinels_stable_messages_fresh_witness :
    Agree initial (setMessage initial .ErrInvalidBody "name is required and must be a string") ∧
    handler.Alike initial
      (setMessage initial .ErrInvalidBody "name is required and must be a string")
      (handler.createCompany sample.decodeLLC postgres.CreateCompany sample.nilUUID
        sample.otherUUID 0 sample.put sample.store initial)
      (handler.createCompany sample.decodeLLC postgres.CreateCompany sample.nilUUID
        sample.otherUUID 0 sample.put sample.store
        (setMessage initial .ErrInvalidBody "name is required and must be a string")) :=
  ⟨agree_symm (agree_setMessage initial .ErrInvalidBody _ rfl),
    (sentinels_stable_messages_fresh (fun _ => .null) sample.decodeLLC (fun _ => true)
      sample.prims sample.hash "secret" uuid.Parse sample.nilUUID sample.otherUUID 0 0 0
      sample.put sample.store sample.event initial
      (setMessage initial .ErrInvalidBody "name is required and must be a string")
      (agree_symm (agree_setMessage initial .ErrInvalidBody _ rfl))).2.2.1⟩

/-! ## The resolver's check of a company id -/

/-- On a string of 38 bytes `uuid.Parse` reads the bytes 1 to 36 as the hyphenated
form. -/
theorem parse_38 (id : String) (hl : (uuid.bytes id).length = 38) :
    uuid.Parse id = uuid.parseHyphenated ((uuid.bytes id).drop 1) := by
  simp [uuid.Parse, hl]

/-- The ids `uuid.Parse` rejects are the ids `uuid.Validate` rejects, less the
strings of 38 bytes that hold a hyphenated UUID between two bytes of any kind. -/
theorem parse_none_iff (id : String) :
    uuid.Parse id = none ↔
      (uuid.Validate id = false ∧
        ¬ ((uuid.bytes id).length = 38 ∧
          uuid.parseHyphenated ((uuid.bytes id).drop 1) ≠ none)) := by
  constructor
  · intro h
    constructor
    · cases hv : uuid.Validate id with
      | false => rfl
      | true => exact absurd h (validate_parse id hv)
    · rintro ⟨hl, hp⟩
      rw [parse_38 id hl] at h
      exact hp h
  · rintro ⟨hv, hgap⟩
    by_contra hne
    obtain ⟨hl, -⟩ := parse_not_validate id hne hv
    rw [parse_38 id hl] at hne
    exact hgap ⟨hl, hne⟩

/-- C12 (as stated, refuted): it is not the case that for every id that is not a
well-formed UUID (an id in none of the four textual forms of a UUID, which is what
`uuid.Validate` rejects) the resolver's `GetCompanyByID`, `UpdateCompany` and
`DeleteCompany` return `ErrInvalidUUID` and leave the storage adapter alone. For
the 38-byte id x6ba7b810-9dad-11d1-80b4-00c04fd430c8y, a UUID in no textual form,
`GetCompanyByID` returns the company the adapter answers with, and the adapters of
`UpdateCompany` and `DeleteCompany`, which count their calls, are called once. -/
theorem malformed_id_counterexample :
    ¬ ∀ (id : String)
        (dbGet : String → Sentinels → Except GoError models.CompanyModel × Sentinels)
        (dbUpdate : String → models.CompanyModel → Nat → Sentinels →
          Option GoError × Nat × Sentinels)
        (dbDelete : String → Nat → Sentinels → Option GoError × Nat × Sentinels)
        (input : inputs.UpdateCompany) (st : Nat) (g : Sentinels),
        uuid.Validate id = false →
        company.GetCompanyByID dbGet id g = (.error (.api .ErrInvalidUUID), g) ∧
        company.UpdateCompany dbUpdate id input st g =
          (.returns (some (.api .ErrInvalidUUID)), st, g) ∧
        company.DeleteCompany dbDelete id st g = (some (.api .ErrInvalidUUID), st, g) := by
  intro h
  have hp : uuid.Parse "x6ba7b810-9dad-11d1-80b4-00c04fd430c8y" = some sample.otherUUID := by
    decide
  have h1 := h "x6ba7b810-9dad-11d1-80b4-00c04fd430c8y" (fun _ g => (.ok sample.coop, g))
    (fun _ _ n g => (none, n + 1, g)) (fun _ n g => (none, n + 1, g)) sample.update 0
    initial (by decide)
  have h2 := congrArg (fun x => x.2.1) h1.2.2
  simp [company.DeleteCompany, hp] at h2

/-- C12 (amended): the resolver rejects exactly the ids `uuid.Parse` rejects, which
are the ids that are in none of the four textual forms of a UUID (the ids
`uuid.Validate` rejects), less the strings of 38 bytes that hold a hyphenated UUID
in the bytes 1 to 36, whatever the first and the last byte are. For every id of
the first kind `GetCompanyByID`, `UpdateCompany` and `DeleteCompany` return
`ErrInvalidUUID` (code `INVALID_UUID`, status 400) whatever the storage adapter is,
and leave the store and the error values as they were: the adapter is not called.
For every id of the second kind the three methods call the storage adapter and
return what it returns. -/
theorem malformed_id_rejected_by_resolver {σ : Type}
    (dbGet : String → Sentinels → Except GoError models.CompanyModel × Sentinels)
    (dbUpdate : String → models.CompanyModel → σ → Sentinels → Option GoError × σ × Sentinels)
    (dbDelete : String → σ → Sentinels → Option GoError × σ × Sentinels)
    (id : String) (input : inputs.UpdateCompany) (st : σ) (g : Sentinels) (hg : Stable g) :
    (uuid.Parse id = none ↔
      (uuid.Validate id = false ∧
        ¬ ((uuid.bytes id).length = 38 ∧
          uuid.parseHyphenated ((uuid.bytes id).drop 1) ≠ none))) ∧
    (uuid.Validate id = false →
      ¬ ((uuid.bytes id).length = 38 ∧
        uuid.parseHyphenated ((uuid.bytes id).drop 1) ≠ none) →
      company.GetCompanyByID dbGet id g = (.error (.api .ErrInvalidUUID), g) ∧
      company.UpdateCompany dbUpdate id input st g =
        (.returns (some (.api .ErrInvalidUUID)), st, g) ∧
      company.DeleteCompany dbDelete id st g = (some (.api .ErrInvalidUUID), st, g)) ∧
    ((uuid.bytes id).length = 38 →
      uuid.parseHyphenated ((uuid.bytes id).drop 1) ≠ none →
      company.GetCompanyByID dbGet id g = dbGet id g ∧
      company.DeleteCompany dbDelete id st g = dbDelete id st g ∧
      ∀ n b, input.AmountEmployees = some n → input.Registered = some b →
        ∃ u, uuid.Parse id = some u ∧
          company.UpdateCompany dbUpdate id input st g =
            (.returns
              (dbUpdate id ⟨u, input.Name, input.Description, n, b, input.Type_⟩ st g).1,
              (dbUpdate id ⟨u, input.Name, input.Description, n, b, input.Type_⟩ st g).2)) ∧
    (g .ErrInvalidUUID).Code = "INVALID_UUID" ∧ (g .ErrInvalidUUID).HTTPStatus = 400 := by
  refine ⟨parse_none_iff id, ?_, ?_, (hg .ErrInvalidUUID).1, (hg .ErrInvalidUUID).2⟩
  · intro hv hgap
    have h : uuid.Parse id = none := (parse_none_iff id).mpr ⟨hv, hgap⟩
    refine ⟨?_, ?_, ?_⟩
    · simp [company.GetCompanyByID, h]
    · simp [company.UpdateCompany, h]
    · simp [company.DeleteCompany, h]
  · intro hl hp
    have hne : uuid.Parse id ≠ none := by
      rw [parse_38 id hl]
      exact hp
    refine ⟨getCompanyByID_parsed dbGet id g hne, deleteCompany_parsed dbDelete id st g hne,
      ?_⟩
    intro n b hn hb
    obtain ⟨u, hu⟩ := Option.ne_none_iff_exists'.mp hne
    refine ⟨u, hu, ?_⟩
    simp only [company.UpdateCompany, hu, hn, hb]
    rcases dbUpdate id ⟨u, input.Name, input.Description, n, b, input.Type_⟩ st g with
      ⟨e, st1, g1⟩
    cases e <;> rfl

theorem malformed_id_rejected_by_resolver_witness :
    (company.GetCompanyByID (postgres.GetCompanyByID uuid.Parse sample.store) "not-a-uuid"
        initial = (.error (.api .ErrInvalidUUID), initial) ∧
      company.UpdateCompany (postgres.UpdateCompany uuid.Parse) "not-a-uuid" sample.update
        sample.store initial = (.returns (some (.api .ErrInvalidUUID)), sample.store, initial) ∧
      company.DeleteCompany (postgres.DeleteCompany uuid.Parse) "not-a-uuid" sample.store
        initial = (some (.api .ErrInvalidUUID), sample.store, initial)) ∧
    company.GetCompanyByID (postgres.GetCompanyByID uuid.Parse sample.store)
        "x6ba7b810-9dad-11d1-80b4-00c04fd430c8y" initial =
      postgres.GetCompanyByID uuid.Parse sample.store
        "x6ba7b810-9dad-11d1-80b4-00c04fd430c8y" initial :=
  ⟨(malformed_id_rejected_by_resolver (postgres.GetCompanyByID uuid.Parse sample.store)
      (postgres.UpdateCompany uuid.Parse) (postgres.DeleteCompany uuid.Parse) "not-a-uuid"
      sample.update sample.store initial stable_initial).2.1 (by decide) (by decide),
    ((malformed_id_rejected_by_resolver (postgres.GetCompanyByID uuid.Parse sample.store)
      (postgres.UpdateCompany uuid.Parse) (postgres.DeleteCompany uuid.Parse)
      "x6ba7b810-9dad-11d1-80b4-00c04fd430c8y" sample.update sample.store initial
      stable_initial).2.2.1 (by decide) (by decide)).1⟩
